import Mathlib

/-!
The analyzer and the transformer of genkit-migrate.

A shallow embedding of `pkg/analyzer/project.go` and `pkg/transformer/code.go`
together with the record types of `pkg/models`.

Conventions of the embedding.

* Go strings are Lean `String`s; `strings.Contains`, `strings.Trim` and string
  concatenation are defined on the character lists.  All patterns and cutsets
  used by the program are ASCII, for which byte-wise and character-wise search
  agree on well-formed UTF-8 text.
* A Go `map[string]V` is the list of its entries (`GoMap V`), keys pairwise
  distinct (`GoMap.WF`).  Reading is `GoMap.lookup`, writing is `GoMap.insert`
  (overwrite in place, or add a new entry).
* `for k, v := range m` over a map visits the entries in an order the Go
  runtime chooses at each loop.  A function that ranges over a map takes the
  visiting order as an explicit argument; a run is legitimate when the order
  is a permutation of the entries of the map (`RangeOrder`).
* Pointers to records (`*models.SourceFile`, `*models.Model`, ...) are the
  records themselves; nil elements are outside the embedding.
* Functions that return `error` in the source return `Except String _`.
-/

namespace GenkitMigrate

/-! ## Strings -/

/-- Whether the character list `s` begins with the character list `p`. -/
def startsWith : List Char → List Char → Bool
  | _, [] => true
  | [], _ :: _ => false
  | c :: s, p :: ps => c == p && startsWith s ps

/-- Whether `sub` occurs in `s` as a contiguous block (on character lists). -/
def containsChars : List Char → List Char → Bool
  | [], sub => startsWith [] sub
  | c :: s, sub => startsWith (c :: s) sub || containsChars s sub

/-- Go `strings.Contains(s, substr)`. -/
def strContains (s substr : String) : Bool :=
  containsChars s.data substr.data

/-! ## Go maps -/

/-- A Go `map[string]V`, as the list of its entries. -/
abbrev GoMap (V : Type) := List (String × V)

namespace GoMap

variable {V : Type}

/-- Keys of the entries. -/
def keys (m : GoMap V) : List String := m.map Prod.fst

/-- Well-formedness: no key occurs twice. -/
def WF (m : GoMap V) : Prop := (keys m).Nodup

instance (m : GoMap V) : Decidable (WF m) :=
  inferInstanceAs (Decidable (keys m).Nodup)

/-- Go `v, ok := m[k]`. -/
def lookup : GoMap V → String → Option V
  | [], _ => none
  | (k', v) :: m, k => if k' = k then some v else lookup m k

/-- Go `m[k] = v`. -/
def insert : GoMap V → String → V → GoMap V
  | [], k, v => [(k, v)]
  | (k', v') :: m, k, v => if k' = k then (k, v) :: m else (k', v') :: insert m k v

/-- Go `_, ok := m[k]`. -/
def contains (m : GoMap V) (k : String) : Bool := (lookup m k).isSome

end GoMap

/-- Legitimate visiting orders of `for k, v := range m`. -/
def RangeOrder {V : Type} (m : GoMap V) (visit : List (String × V)) : Prop :=
  visit.Perm m

/-! ## Provider classifier (`pkg/analyzer/project.go`) -/

/-- Go `(*Analyzer).detectModelProvider`; the receiver is not used. -/
def detectModelProvider (modelName : String) : String :=
  if strContains modelName "googleai/" || strContains modelName "vertexai/" then "gcp"
  else if strContains modelName "openai/" || strContains modelName "gpt-" then "openai"
  else if strContains modelName "anthropic/" || strContains modelName "claude-" then "anthropic"
  else if strContains modelName "ollama/" then "ollama"
  else if strContains modelName "bedrock/" || strContains modelName "amazon."
      || strContains modelName "anthropic." then "aws"
  else "unknown"

/-- The ordered substring classifier as the specification words it: a table of
(marker substrings, provider tag) rows tried from top to bottom. -/
def classifierTable : List (List String × String) :=
  [ (["googleai/", "vertexai/"], "gcp"),
    (["openai/", "gpt-"], "openai"),
    (["anthropic/", "claude-"], "anthropic"),
    (["ollama/"], "ollama"),
    (["bedrock/", "amazon.", "anthropic."], "aws") ]

/-- First row of a table one of whose markers occurs in the name, else "unknown". -/
def classifyWith : List (List String × String) → String → String
  | [], _ => "unknown"
  | (markers, tag) :: rest, name =>
      if markers.any (fun mk => strContains name mk) then tag else classifyWith rest name

/-- The specification's `classify`. -/
def classifySpec (name : String) : String := classifyWith classifierTable name

/-! ## Record types (`pkg/models`) -/

/-- Go `token.Position`. -/
structure Position where
  Filename : String
  Offset : Nat
  Line : Nat
  Column : Nat
  deriving DecidableEq, Repr

/-- Go `models.Flow`. -/
structure Flow where
  Name : String
  Position : Position
  InputType : String
  OutputType : String
  Description : String
  deriving DecidableEq, Repr

/-- Go `models.Model`. -/
structure Model where
  Name : String
  Provider : String
  Position : Position
  deriving DecidableEq, Repr

/-- Go `models.SourceFile`. -/
structure SourceFile where
  Path : String
  PackageName : String
  Imports : List String
  Flows : List Flow
  Models : List Model
  HasGenKit : Bool
  deriving DecidableEq, Repr

/-- Go `models.Project`.  The values of `Configuration` (`interface{}` in the
source) are the path strings the analyzer stores there. -/
structure Project where
  Path : String
  SourceProvider : String
  TargetProvider : String
  Files : GoMap SourceFile
  Dependencies : GoMap String
  Flows : List Flow
  Models : List Model
  Configuration : GoMap String
  deriving DecidableEq, Repr

/-- Go `models.Change`; the field `Type` of the source is `Type_` here. -/
structure Change where
  Type_ : String
  Description : String
  File : String
  OldValue : String
  NewValue : String
  deriving DecidableEq, Repr

/-- Go `models.Migration`. -/
structure Migration where
  Project : Project
  Changes : List Change
  NewFiles : GoMap String
  DeleteFiles : List String
  Commands : List String
  deriving DecidableEq, Repr

/-! ## Syntax trees (`go/ast`, the part the extractor inspects) -/

/-- Go `token.Token`, the kinds a `BasicLit` can have. -/
inductive Token where
  | INT | FLOAT | IMAG | CHAR | STRING
  deriving DecidableEq, Repr

/-- Go `ast.Expr`.  `selector x namePos name` is `*ast.SelectorExpr` with
`Sel = &ast.Ident{NamePos: namePos, Name: name}`; `call` is `*ast.CallExpr`;
`other` stands for every remaining node kind, with its start position and
its sub-expressions. -/
inductive Expr where
  | basicLit (valuePos : Nat) (kind : Token) (value : String)
  | ident (namePos : Nat) (name : String)
  | selector (x : Expr) (selPos : Nat) (selName : String)
  | call (fn : Expr) (args : List Expr)
  | other (pos : Nat) (children : List Expr)

/-- Go `ast.CallExpr`. -/
structure CallExpr where
  Fun : Expr
  Args : List Expr

/-- Go `(ast.Expr).Pos()`: the position of the first character of the node. -/
def Expr.pos : Expr → Nat
  | .basicLit valuePos _ _ => valuePos
  | .ident namePos _ => namePos
  | .selector x _ _ => Expr.pos x
  | .call fn _ => Expr.pos fn
  | .other pos _ => pos

/-- Go `(*ast.CallExpr).Pos()`. -/
def CallExpr.pos (c : CallExpr) : Nat := c.Fun.pos

/-- Go `token.FileSet`, as its `Position` method. -/
abbrev FileSet := Nat → Position

/-! ## Construct extractor (`pkg/analyzer/project.go`) -/

/-- Go `strings.Trim(s, cutset)`: drop the leading and the trailing characters
that occur in `cutset`. -/
def strTrim (s cutset : String) : String :=
  ⟨((s.data.dropWhile (fun c => cutset.data.contains c)).reverse.dropWhile
      (fun c => cutset.data.contains c)).reverse⟩

/-- The double quote character. -/
def dquote : Char := Char.ofNat 34

/-- Go `(*Analyzer).extractFlow`. -/
def extractFlow (call : CallExpr) (fset : FileSet) : Option Flow :=
  match call.Fun with
  | .selector _ _ selName =>
      if selName = "DefineFlow" ∧ call.Args.length ≥ 2 then
        match call.Args with
        | .basicLit _ .STRING value :: _ =>
            let flowName := strTrim value "\""
            some { Name := flowName, Position := fset call.pos,
                   InputType := "", OutputType := "", Description := "" }
        | _ => none
      else none
  | _ => none

/-- Go `(*Analyzer).extractModel`. -/
def extractModel (call : CallExpr) (fset : FileSet) : Option Model :=
  match call.Fun with
  | .selector _ _ selName =>
      if selName = "Model" ∧ call.Args.length ≥ 1 then
        match call.Args with
        | .basicLit _ .STRING value :: _ =>
            let modelName := strTrim value "\""
            let provider := detectModelProvider modelName
            some { Name := modelName, Provider := provider, Position := fset call.pos }
        | _ => none
      else none
  | _ => none

/-! ## Mapping table (`pkg/transformer/code.go`) -/

/-- Go `transformer.Config`. -/
structure Config where
  SourceProvider : String
  TargetProvider : String
  TargetPath : String
  DryRun : Bool
  deriving DecidableEq, Repr

/-- Go `(*Transformer).getModelMappings`. -/
def getModelMappings (t : Config) : GoMap String :=
  if t.SourceProvider = "gcp" ∧ t.TargetProvider = "aws" then
    [ ("googleai/gemini-1.5-flash", "anthropic.claude-3-haiku-20240307-v1:0"),
      ("googleai/gemini-1.5-pro", "anthropic.claude-3-sonnet-20240229-v1:0"),
      ("googleai/gemini-2.0-flash", "anthropic.claude-3-5-sonnet-20241022-v2:0"),
      ("vertexai/gemini-pro", "anthropic.claude-3-sonnet-20240229-v1:0"),
      ("vertexai/gemini-1.5-pro", "anthropic.claude-3-sonnet-20240229-v1:0"),
      ("vertexai/gemini-1.5-flash", "anthropic.claude-3-haiku-20240307-v1:0"),
      ("googleai/gemini-1.5-flash-8b", "amazon.nova-lite-v1:0"),
      ("googleai/text-bison", "amazon.nova-micro-v1:0") ]
  else []


/-! ## Rewrite planner (`pkg/transformer/code.go`) -/

/-- Go `(*Transformer).extractModuleName`. -/
def extractModuleName (_project : Project) : String := "genkit-app"

/-- Go `(*Transformer).extractProjectName`. -/
def extractProjectName (_project : Project) : String := "GenKitApp"

/-- Go `(*Transformer).filterDependencies`, on the visiting order `visit` of
`for name, version := range deps`.  Each element of the result is the
two-entry map literal the source builds. -/
def filterDependencies (visit : List (String × String)) : List (GoMap String) :=
  match visit with
  | [] => []
  | (name, version) :: rest =>
      if !strContains name "firebase" && !strContains name "google" then
        [("Name", name), ("Version", version)] :: filterDependencies rest
      else filterDependencies rest

/-- Go `text/template`: the value of a field `.Key` on a `map[string]string`
(the zero value when the key is absent). -/
def templateField (m : GoMap String) (key : String) : String :=
  (GoMap.lookup m key).getD ""

/-- The body of `range .Dependencies` in `goModTemplate`, executed on each
element; the newline before the closing action is trimmed. -/
def renderDependencyLines : List (GoMap String) → String
  | [] => ""
  | d :: ds =>
      "\n\t" ++ templateField d "Name" ++ " " ++ templateField d "Version"
        ++ renderDependencyLines ds

/-- Go `tmpl.Execute` on `goModTemplate` of `transformDependencies`, i.e. on
the text
  module {{ .ModuleName }} / (blank) / go {{ .GoVersion }} / (blank) /
  require ( / TAB github.com/firebase/genkit/go v1.0.2 /
  {{- if eq .TargetProvider "aws" }} / TAB github.com/scttfrdmn/genkit-aws v0.1.0 /
  {{- end }} / {{- range .Dependencies }} / TAB {{ .Name }} {{ .Version }} /
  {{- end }} / )
where an action opening with a dash removes the white space before it.
Parsing and executing this template does not fail. -/
def executeGoModTemplate (moduleName goVersion targetProvider : String)
    (dependencies : List (GoMap String)) : Except String String :=
  .ok ("module " ++ moduleName ++ "\n" ++
    "\n" ++
    "go " ++ goVersion ++ "\n" ++
    "\n" ++
    "require (\n" ++
    "\tgithub.com/firebase/genkit/go v1.0.2" ++
    (if targetProvider = "aws" then "\n\tgithub.com/scttfrdmn/genkit-aws v0.1.0" else "") ++
    renderDependencyLines dependencies ++
    "\n" ++
    ")\n")

/-- Go `(*Transformer).transformDependencies`; `depsVisit` is the visiting
order of the range over `project.Dependencies` inside `filterDependencies`. -/
def transformDependencies (t : Config) (depsVisit : List (String × String))
    (migration : Migration) : Except String Migration :=
  let project := migration.Project
  match executeGoModTemplate (extractModuleName project) "1.23" t.TargetProvider
      (filterDependencies depsVisit) with
  | .error err => .error err
  | .ok content =>
      .ok { migration with
        NewFiles := GoMap.insert migration.NewFiles "go.mod" content
        Changes := migration.Changes ++
          [{ Type_ := "dependency",
             Description := "Updated dependencies for " ++ t.TargetProvider,
             File := "go.mod", OldValue := "", NewValue := "" }] }

/-- Go `(*Transformer).transformGoFile`. -/
def transformGoFile (t : Config) (sourceFile : SourceFile) :
    Except String (String × List Change) :=
  let changes : List Change := []
  let content := "package " ++ sourceFile.PackageName ++
    ("\n" ++
    "\n" ++
    "import (\n" ++
    "\t\"context\"\n" ++
    "\t\"github.com/firebase/genkit/go/genkit\"\n")
  let content :=
    if t.TargetProvider = "aws" then
      content ++
        ("\tgenkitaws \"github.com/scttfrdmn/genkit-aws/pkg/genkit-aws\"\n" ++
        "\t\"github.com/scttfrdmn/genkit-aws/pkg/bedrock\"\n" ++
        "\t\"github.com/scttfrdmn/genkit-aws/pkg/monitoring\"\n")
    else content
  let content := content ++
    (")\n" ++
    "\n" ++
    "// TODO: Implement actual AST transformation\n" ++
    "// This is a simplified example showing the structure\n")
  let changes := changes ++
    [{ Type_ := "import",
       Description := "Added " ++ t.TargetProvider ++ " imports",
       File := sourceFile.Path, OldValue := "", NewValue := "" }]
  .ok (content, changes)

/-- Go `(*Transformer).transformSourceFiles`, the loop over the visiting order
`filesVisit` of `for filePath, sourceFile := range project.Files`. -/
def transformSourceFilesLoop (t : Config) :
    List (String × SourceFile) → Migration → Except String Migration
  | [], migration => .ok migration
  | (filePath, sourceFile) :: rest, migration =>
      if !sourceFile.HasGenKit then
        transformSourceFilesLoop t rest migration
      else
        match transformGoFile t sourceFile with
        | .error err => .error ("failed to transform " ++ filePath ++ ": " ++ err)
        | .ok (newContent, changes) =>
            if changes.length > 0 then
              transformSourceFilesLoop t rest
                { migration with
                  NewFiles := GoMap.insert migration.NewFiles filePath newContent
                  Changes := migration.Changes ++ changes }
            else transformSourceFilesLoop t rest migration

/-- Go `(*Transformer).transformSourceFiles`. -/
def transformSourceFiles (t : Config) (filesVisit : List (String × SourceFile))
    (migration : Migration) : Except String Migration :=
  transformSourceFilesLoop t filesVisit migration

/-- The loop of `transformModels` over the slice `migration.Project.Models`. -/
def transformModelsLoop (modelMappings : GoMap String) : List Model → Migration → Migration
  | [], migration => migration
  | model :: rest, migration =>
      match GoMap.lookup modelMappings model.Name with
      | some newModel =>
          transformModelsLoop modelMappings rest
            { migration with
              Changes := migration.Changes ++
                [{ Type_ := "model",
                   Description := "Map model " ++ model.Name ++ " -> " ++ newModel,
                   File := model.Position.Filename, OldValue := "", NewValue := "" }] }
      | none => transformModelsLoop modelMappings rest migration

/-- Go `(*Transformer).transformModels`. -/
def transformModels (t : Config) (migration : Migration) : Except String Migration :=
  let modelMappings := getModelMappings t
  .ok (transformModelsLoop modelMappings migration.Project.Models migration)

/-- Go `tmpl.Execute` on `configTemplate` of `transformConfiguration`: the
text with `{{ .ProjectName }}` replaced.  It does not fail. -/
def executeConfigTemplate (projectName : String) : Except String String :=
  .ok ("# AWS Configuration for GenKit\n" ++
    "region: us-east-1\n" ++
    "profile: default\n" ++
    "\n" ++
    "bedrock:\n" ++
    "  models:\n" ++
    "    - anthropic.claude-3-sonnet-20240229-v1:0\n" ++
    "    - amazon.nova-pro-v1:0\n" ++
    "  \n" ++
    "cloudwatch:\n" ++
    "  namespace: \"GenKit/" ++ projectName ++ "\"\n" ++
    "  enabled: true\n" ++
    "\n" ++
    "# Environment variables\n" ++
    "environment:\n" ++
    "  - GENKIT_ENV=production\n" ++
    "  - AWS_REGION=us-east-1\n")

/-- Go `(*Transformer).transformConfiguration`. -/
def transformConfiguration (t : Config) (migration : Migration) : Except String Migration :=
  if t.TargetProvider = "aws" then
    match executeConfigTemplate (extractProjectName migration.Project) with
    | .error err => .error err
    | .ok content =>
        .ok { migration with NewFiles := GoMap.insert migration.NewFiles "config.yaml" content }
  else .ok migration

/-- The text `terraformMain` of `generateTerraform`. -/
def terraformMain : String :=
  "# Terraform configuration for GenKit on AWS\n" ++
  "terraform \x7b\n" ++
  "  required_version = \">= 1.0\"\n" ++
  "  required_providers \x7b\n" ++
  "    aws = \x7b\n" ++
  "      source  = \"hashicorp/aws\"\n" ++
  "      version = \"~> 5.0\"\n" ++
  "    \x7d\n" ++
  "  \x7d\n" ++
  "\x7d\n" ++
  "\n" ++
  "provider \"aws\" \x7b\n" ++
  "  region = var.aws_region\n" ++
  "\x7d\n" ++
  "\n" ++
  "# Lambda function for GenKit app\n" ++
  "resource \"aws_lambda_function\" \"genkit_app\" \x7b\n" ++
  "  filename         = \"genkit-app.zip\"\n" ++
  "  function_name    = \"genkit-app\"\n" ++
  "  role            = aws_iam_role.lambda_role.arn\n" ++
  "  handler         = \"main\"\n" ++
  "  runtime         = \"provided.al2\"\n" ++
  "  \n" ++
  "  environment \x7b\n" ++
  "    variables = \x7b\n" ++
  "      GENKIT_ENV = \"production\"\n" ++
  "      AWS_REGION = var.aws_region\n" ++
  "    \x7d\n" ++
  "  \x7d\n" ++
  "\x7d\n" ++
  "\n" ++
  "# IAM role for Lambda\n" ++
  "resource \"aws_iam_role\" \"lambda_role\" \x7b\n" ++
  "  name = \"genkit-lambda-role\"\n" ++
  "\n" ++
  "  assume_role_policy = jsonencode(\x7b\n" ++
  "    Version = \"2012-10-17\"\n" ++
  "    Statement = [\n" ++
  "      \x7b\n" ++
  "        Action = \"sts:AssumeRole\"\n" ++
  "        Effect = \"Allow\"\n" ++
  "        Principal = \x7b\n" ++
  "          Service = \"lambda.amazonaws.com\"\n" ++
  "        \x7d\n" ++
  "      \x7d\n" ++
  "    ]\n" ++
  "  \x7d)\n" ++
  "\x7d\n" ++
  "\n" ++
  "# IAM policy for Bedrock access\n" ++
  "resource \"aws_iam_role_policy\" \"bedrock_policy\" \x7b\n" ++
  "  name = \"genkit-bedrock-policy\"\n" ++
  "  role = aws_iam_role.lambda_role.id\n" ++
  "\n" ++
  "  policy = jsonencode(\x7b\n" ++
  "    Version = \"2012-10-17\"\n" ++
  "    Statement = [\n" ++
  "      \x7b\n" ++
  "        Effect = \"Allow\"\n" ++
  "        Action = [\n" ++
  "          \"bedrock:InvokeModel\",\n" ++
  "          \"bedrock:InvokeModelWithResponseStream\"\n" ++
  "        ]\n" ++
  "        Resource = \"*\"\n" ++
  "      \x7d\n" ++
  "    ]\n" ++
  "  \x7d)\n" ++
  "\x7d\n"

/-- The text `terraformVars` of `generateTerraform`. -/
def terraformVars : String :=
  "variable \"aws_region\" \x7b\n" ++
  "  description = \"AWS region\"\n" ++
  "  type        = string\n" ++
  "  default     = \"us-east-1\"\n" ++
  "\x7d\n" ++
  "\n" ++
  "variable \"project_name\" \x7b\n" ++
  "  description = \"Project name\"\n" ++
  "  type        = string\n" ++
  "  default     = \"genkit-app\"\n" ++
  "\x7d\n"

/-- Go `(*Transformer).generateTerraform`. -/
def generateTerraform (_t : Config) (migration : Migration) : Except String Migration :=
  let migration := { migration with
    NewFiles := GoMap.insert migration.NewFiles "terraform/main.tf" terraformMain }
  let migration := { migration with
    NewFiles := GoMap.insert migration.NewFiles "terraform/variables.tf" terraformVars }
  .ok migration

/-- The text `dockerfile` of `generateDockerfile`. -/
def dockerfile : String :=
  "# Multi-stage build for GenKit Go app\n" ++
  "FROM golang:1.23-alpine AS builder\n" ++
  "\n" ++
  "WORKDIR /app\n" ++
  "COPY go.mod go.sum ./\n" ++
  "RUN go mod download\n" ++
  "\n" ++
  "COPY . .\n" ++
  "RUN CGO_ENABLED=0 GOOS=linux go build -o main .\n" ++
  "\n" ++
  "FROM alpine:latest\n" ++
  "RUN apk --no-cache add ca-certificates\n" ++
  "WORKDIR /root/\n" ++
  "\n" ++
  "COPY --from=builder /app/main .\n" ++
  "\n" ++
  "EXPOSE 8080\n" ++
  "CMD [\"./main\"]\n"

/-- Go `(*Transformer).generateDockerfile`. -/
def generateDockerfile (_t : Config) (migration : Migration) : Except String Migration :=
  .ok { migration with NewFiles := GoMap.insert migration.NewFiles "Dockerfile" dockerfile }

/-- The text `workflow` of `generateGitHubActions` (stored verbatim; it is not
run through the template engine). -/
def workflow : String :=
  "name: Deploy to AWS\n" ++
  "\n" ++
  "on:\n" ++
  "  push:\n" ++
  "    branches: [ main ]\n" ++
  "\n" ++
  "jobs:\n" ++
  "  test:\n" ++
  "    runs-on: ubuntu-latest\n" ++
  "    steps:\n" ++
  "    - uses: actions/checkout@v4\n" ++
  "    - uses: actions/setup-go@v4\n" ++
  "      with:\n" ++
  "        go-version: \x271.23\x27\n" ++
  "    - run: go test -v ./...\n" ++
  "\n" ++
  "  deploy:\n" ++
  "    needs: test\n" ++
  "    runs-on: ubuntu-latest\n" ++
  "    steps:\n" ++
  "    - uses: actions/checkout@v4\n" ++
  "    - uses: aws-actions/configure-aws-credentials@v4\n" ++
  "      with:\n" ++
  "        aws-access-key-id: $\x7b\x7b \"\x7b\x7b secrets.AWS_ACCESS_KEY_ID \x7d\x7d\" \x7d\x7d\n" ++
  "        aws-secret-access-key: $\x7b\x7b \"\x7b\x7b secrets.AWS_SECRET_ACCESS_KEY \x7d\x7d\" \x7d\x7d\n" ++
  "        aws-region: us-east-1\n" ++
  "    \n" ++
  "    - name: Deploy with Terraform\n" ++
  "      run: |\n" ++
  "        cd terraform\n" ++
  "        terraform init\n" ++
  "        terraform plan\n" ++
  "        terraform apply -auto-approve\n"

/-- Go `(*Transformer).generateGitHubActions`. -/
def generateGitHubActions (_t : Config) (migration : Migration) : Except String Migration :=
  .ok { migration with
    NewFiles := GoMap.insert migration.NewFiles ".github/workflows/deploy.yml" workflow }

/-- Go `(*Transformer).generateDeploymentFiles`. -/
def generateDeploymentFiles (t : Config) (migration : Migration) : Except String Migration :=
  if t.TargetProvider = "aws" then
    match generateTerraform t migration with
    | .error err => .error err
    | .ok migration =>
        match generateDockerfile t migration with
        | .error err => .error err
        | .ok migration =>
            match generateGitHubActions t migration with
            | .error err => .error err
            | .ok migration => .ok migration
  else .ok migration

/-- Go `(*Transformer).TransformProject`.  `depsVisit` and `filesVisit` are the
visiting orders of the two map ranges of the run (over `project.Dependencies`
and over `project.Files`); the context argument is not used. -/
def TransformProject (t : Config) (project : Project)
    (depsVisit : List (String × String)) (filesVisit : List (String × SourceFile)) :
    Except String Migration :=
  let migration : Migration :=
    { Project := project, Changes := [], NewFiles := [], DeleteFiles := [], Commands := [] }
  match transformDependencies t depsVisit migration with
  | .error err => .error ("failed to transform dependencies: " ++ err)
  | .ok migration =>
      match transformSourceFiles t filesVisit migration with
      | .error err => .error ("failed to transform source files: " ++ err)
      | .ok migration =>
          match transformModels t migration with
          | .error err => .error ("failed to transform models: " ++ err)
          | .ok migration =>
              match transformConfiguration t migration with
              | .error err => .error ("failed to transform configuration: " ++ err)
              | .ok migration =>
                  match generateDeploymentFiles t migration with
                  | .error err => .error ("failed to generate deployment files: " ++ err)
                  | .ok migration => .ok migration

/-- A run of `TransformProject` on `project`: the visiting orders are
permutations of the entries of the two maps. -/
def IsRun (project : Project) (depsVisit : List (String × String))
    (filesVisit : List (String × SourceFile)) : Prop :=
  RangeOrder project.Dependencies depsVisit ∧ RangeOrder project.Files filesVisit

/-- The project of `TestTransformProject`. -/
def testProject : Project :=
  { Path := "/tmp/test-source", SourceProvider := "gcp", TargetProvider := "aws",
    Files := [("main.go",
      { Path := "/tmp/test-source/main.go", PackageName := "main", Imports := [],
        HasGenKit := true,
        Flows := [{ Name := "summarize", Position := ⟨"", 0, 0, 0⟩,
                    InputType := "", OutputType := "", Description := "" }],
        Models := [{ Name := "googleai/gemini-1.5-pro", Provider := "gcp",
                     Position := ⟨"", 0, 0, 0⟩ }] })],
    Dependencies := [("github.com/firebase/genkit/go", "v0.5.8"),
      ("github.com/firebase/genkit/go/plugins/googleai", "v0.5.8"),
      ("github.com/spf13/cobra", "v1.8.1")],
    Flows := [{ Name := "summarize", Position := ⟨"", 0, 0, 0⟩,
                InputType := "", OutputType := "", Description := "" }],
    Models := [{ Name := "googleai/gemini-1.5-pro", Provider := "gcp",
                 Position := ⟨"", 0, 0, 0⟩ }],
    Configuration := [] }

/-- The transformer configuration of `TestTransformProject`. -/
def testConfig : Config :=
  { SourceProvider := "gcp", TargetProvider := "aws", TargetPath := "/tmp/test-output",
    DryRun := false }

/-- The project of `TestTransformProject` with two dependencies that the filter
retains (both occur in the map of `TestFilterDependencies`). -/
def twoDepsProject : Project :=
  { testProject with
    Dependencies := [("github.com/spf13/cobra", "v1.8.1"), ("gopkg.in/yaml.v3", "v3.0.1")] }

/-! ## More of the Go `strings` package -/

/-- Go `strings.HasPrefix(s, pre)`, with `pre` the leading part asked for. -/
def strHasPrefix (s pre : String) : Bool := startsWith s.data pre.data

/-- Go `strings.HasSuffix(s, suffix)`. -/
def strHasSuffix (s suffix : String) : Bool := startsWith s.data.reverse suffix.data.reverse

/-- Go `strings.TrimPrefix(s, pre)`. -/
def strTrimPrefix (s pre : String) : String :=
  if strHasPrefix s pre then ⟨s.data.drop pre.data.length⟩ else s

/-- Go `unicode.IsSpace`. -/
def isSpace (c : Char) : Bool :=
  let n := c.toNat
  (9 ≤ n && n ≤ 13) || n == 32 || n == 0x85 || n == 0xA0 || n == 0x1680 ||
    (0x2000 ≤ n && n ≤ 0x200A) || n == 0x2028 || n == 0x2029 || n == 0x202F ||
    n == 0x205F || n == 0x3000

/-- Go `strings.TrimSpace(s)`. -/
def strTrimSpace (s : String) : String :=
  ⟨((s.data.dropWhile isSpace).reverse.dropWhile isSpace).reverse⟩

/-- The fields of a character list: maximal runs of characters that are not
white space; `cur` is the field being read, in reverse. -/
def fieldsChars : List Char → List Char → List (List Char)
  | [], cur => if cur.isEmpty then [] else [cur.reverse]
  | c :: cs, cur =>
      if isSpace c then
        (if cur.isEmpty then fieldsChars cs [] else cur.reverse :: fieldsChars cs [])
      else fieldsChars cs (c :: cur)

/-- Go `strings.Fields(s)`. -/
def strFields (s : String) : List String := (fieldsChars s.data []).map String.mk

/-- The pieces of a character list between the occurrences of the character
`sep`; `cur` is the piece being read, in reverse. -/
def splitChars (sep : Char) : List Char → List Char → List (List Char)
  | [], cur => [cur.reverse]
  | c :: cs, cur =>
      if c = sep then cur.reverse :: splitChars sep cs [] else splitChars sep cs (c :: cur)

/-- Go `strings.Split(s, sep)` for a separator of one character (the program
splits at the newline). -/
def strSplit (s : String) (sep : Char) : List String :=
  (splitChars sep s.data []).map String.mk

/-! ## The manifest line parser (`pkg/analyzer/project.go`) -/

/-- The condition of the `if` in the loop of `analyzeDependencies`, on the
line after `strings.TrimSpace`. -/
def isRequireOrVersionLine (line : String) : Bool :=
  strHasPrefix line "require " ||
    (strContains line " v" && !strHasPrefix line "module" && !strHasPrefix line "go ")

/-- The loop `for _, line := range lines` of `analyzeDependencies`, on the map
`project.Dependencies`. -/
def analyzeDependenciesLoop : List String → GoMap String → GoMap String
  | [], dependencies => dependencies
  | line :: rest, dependencies =>
      let line := strTrimSpace line
      if isRequireOrVersionLine line then
        match strFields line with
        | part0 :: part1 :: _ =>
            let dep := strTrimPrefix part0 "require"
            let dep := strTrimSpace dep
            let version := part1
            analyzeDependenciesLoop rest (GoMap.insert dependencies dep version)
        | _ => analyzeDependenciesLoop rest dependencies
      else analyzeDependenciesLoop rest dependencies

/-- The line parser of `analyzeDependencies` on the content of a manifest:
split at the newlines, then the loop, starting from the empty map. -/
def parseManifest (content : String) : GoMap String :=
  analyzeDependenciesLoop (strSplit content (Char.ofNat 10)) []

/-- A version token as the specification words it: the letter v followed by
three non-empty groups of decimal digits separated by dots. -/
def specIsVersionToken (token : String) : Bool :=
  match token.data with
  | c :: rest =>
      c = Char.ofNat 118 &&
        (match splitChars (Char.ofNat 46) rest [] with
         | [a, b, d] =>
             !a.isEmpty && a.all Char.isDigit && !b.isEmpty && b.all Char.isDigit &&
               !d.isEmpty && d.all Char.isDigit
         | _ => false)
  | [] => false

/-- A dependency line as the specification words it: the line begins the
require block with the keyword "require", or it has a version token that
follows white space (a field other than the first one, or any field of a line
that starts with white space), and it is not a module or go line. -/
def specIsDependencyLine (line : String) : Bool :=
  let fields := strFields line
  let first := (strFields line).head?
  let preceded := match line.data with
    | c :: _ => if isSpace c then fields else fields.drop 1
    | [] => []
  ((first = some "require") || preceded.any specIsVersionToken) &&
    !(first = some "module") && !(first = some "go")

/-! ## Summary document (`pkg/generator/generator.go`) -/

/-- Go `generator.Config`. -/
structure GeneratorConfig where
  TargetProvider : String
  OutputPath : String
  deriving DecidableEq, Repr

/-- The body of `for _, change := range migration.Changes` in `generateReadme`,
appended for each change in turn. -/
def readmeChangeLines : List Change → String
  | [] => ""
  | change :: rest =>
      ("- **" ++ change.Type_ ++ "**: " ++ change.Description ++ " (in " ++ change.File ++ ")\n")
        ++ readmeChangeLines rest

/-- The map literal `modelMappings` of `generateReadme`. -/
def readmeModelMappings : GoMap String :=
  [ ("googleai/gemini-1.5-flash", "anthropic.claude-3-haiku-20240307-v1:0"),
    ("googleai/gemini-1.5-pro", "anthropic.claude-3-sonnet-20240229-v1:0"),
    ("vertexai/gemini-pro", "anthropic.claude-3-sonnet-20240229-v1:0") ]

/-- The body of `for oldModel, newModel := range modelMappings` in
`generateReadme`, on the visiting order of that range; the three characters
between the two names are those of the source file. -/
def readmeMappingLines : List (String × String) → String
  | [] => ""
  | (oldModel, newModel) :: rest =>
      ("- \x60" ++ oldModel ++ "\x60 \u00e2\u2020\u2019 \x60" ++ newModel ++ "\x60\n")
        ++ readmeMappingLines rest

/-- The text appended in `generateReadme` for the target "aws", up to the
model mappings. -/
def readmeAwsSection : String :=
  "\n" ++
  "\n" ++
  "## AWS Deployment\n" ++
  "\n" ++
  "### Prerequisites\n" ++
  "\n" ++
  "1. AWS CLI configured with appropriate credentials\n" ++
  "2. Terraform installed (>= 1.0)\n" ++
  "3. Docker installed (for containerization)\n" ++
  "\n" ++
  "### Deploy with Terraform\n" ++
  "\n" ++
  "\x60\x60\x60bash\n" ++
  "cd terraform\n" ++
  "terraform init\n" ++
  "terraform plan\n" ++
  "terraform apply\n" ++
  "\x60\x60\x60\n" ++
  "\n" ++
  "### Build and Deploy Docker Container\n" ++
  "\n" ++
  "\x60\x60\x60bash\n" ++
  "docker build -t genkit-app .\n" ++
  "docker tag genkit-app:latest <your-ecr-repo>:latest\n" ++
  "docker push <your-ecr-repo>:latest\n" ++
  "\x60\x60\x60\n" ++
  "\n" ++
  "### Configuration\n" ++
  "\n" ++
  "Update the \x60config.yaml\x60 file with your specific AWS settings:\n" ++
  "\n" ++
  "- AWS region\n" ++
  "- Bedrock model preferences\n" ++
  "- CloudWatch configuration\n" ++
  "- Environment variables\n" ++
  "\n" ++
  "## Next Steps\n" ++
  "\n" ++
  "1. Review all generated files\n" ++
  "2. Test the application locally\n" ++
  "3. Update any hardcoded values in configuration\n" ++
  "4. Deploy to your AWS environment\n" ++
  "5. Set up monitoring and logging\n" ++
  "6. Test all GenKit flows work correctly\n" ++
  "\n" ++
  "## Model Mappings Applied\n" ++
  "\n" ++
  "The following model mappings were applied during migration:\n" ++
  "\n"

/-- The closing text of `generateReadme` for the target "aws". -/
def readmeSupportSection : String :=
  "\n" ++
  "## Support\n" ++
  "\n" ++
  "For issues with the migration tool, please visit:\n" ++
  "https://github.com/genkit-migrate/genkit-migrate/issues\n" ++
  "\n" ++
  "For GenKit framework support, please visit:\n" ++
  "https://firebase.google.com/docs/genkit\n"

/-- Go `(*Generator).generateReadme`; `mappingsVisit` is the visiting order of
the range over the map literal `modelMappings`.  The verb `%d` prints a length
in decimal. -/
def generateReadme (g : GeneratorConfig) (migration : Migration)
    (mappingsVisit : List (String × String)) : String :=
  let content :=
    "# GenKit Migration to " ++ g.TargetProvider ++ "\n" ++
    "\n" ++
    "This project has been migrated from " ++ migration.Project.SourceProvider ++ " to " ++
      g.TargetProvider ++ " using genkit-migrate.\n" ++
    "\n" ++
    "## Migration Summary\n" ++
    "\n" ++
    "- **Source Provider**: " ++ migration.Project.SourceProvider ++ "\n" ++
    "- **Target Provider**: " ++ g.TargetProvider ++ "\n" ++
    "- **Flows Found**: " ++ toString migration.Project.Flows.length ++ "\n" ++
    "- **Models Found**: " ++ toString migration.Project.Models.length ++ "\n" ++
    "- **Changes Applied**: " ++ toString migration.Changes.length ++ "\n" ++
    "\n" ++
    "## Changes Made\n" ++
    "\n"
  let content := content ++ readmeChangeLines migration.Changes
  if g.TargetProvider = "aws" then
    let content := content ++ readmeAwsSection
    let content := content ++ readmeMappingLines mappingsVisit
    content ++ readmeSupportSection
  else content

/-- The migration of `TestGenerateReadme`. -/
def readmeTestMigration : Migration :=
  { Project :=
      { Path := "", SourceProvider := "gcp", TargetProvider := "aws", Files := [],
        Dependencies := [],
        Flows := [{ Name := "summarize", Position := ⟨"", 0, 0, 0⟩, InputType := "",
                    OutputType := "", Description := "" },
                  { Name := "translate", Position := ⟨"", 0, 0, 0⟩, InputType := "",
                    OutputType := "", Description := "" }],
        Models := [{ Name := "googleai/gemini-1.5-pro", Provider := "gcp",
                     Position := ⟨"", 0, 0, 0⟩ }],
        Configuration := [] },
    Changes :=
      [{ Type_ := "dependency", Description := "Updated dependencies", File := "go.mod",
         OldValue := "", NewValue := "" },
       { Type_ := "model", Description := "Mapped model", File := "main.go",
         OldValue := "", NewValue := "" }],
    NewFiles := [], DeleteFiles := [], Commands := [] }

/-! ## Syntax tree traversal and file extraction (`pkg/analyzer/project.go`) -/

mutual
/-- Go `ast.Inspect(node, f)` with the state the closure `f` updates passed
along: `f` is called on the node and, when it returns true, on the children
in the order of `ast.Walk` (callee before arguments; the operand of a selector
before the selected identifier).  The closing call `f(nil)` changes nothing in
this program and is left out. -/
def Expr.inspect {σ : Type} (f : Expr → σ → Bool × σ) : Expr → σ → σ
  | .basicLit valuePos kind value, s => (f (.basicLit valuePos kind value) s).2
  | .ident namePos name, s => (f (.ident namePos name) s).2
  | .selector x selPos selName, s =>
      let r := f (.selector x selPos selName) s
      if r.1 then (f (.ident selPos selName) (Expr.inspect f x r.2)).2 else r.2
  | .call fn args, s =>
      let r := f (.call fn args) s
      if r.1 then Expr.inspectList f args (Expr.inspect f fn r.2) else r.2
  | .other pos children, s =>
      let r := f (.other pos children) s
      if r.1 then Expr.inspectList f children r.2 else r.2
/-- Go `ast.Inspect` on each node of a list in turn. -/
def Expr.inspectList {σ : Type} (f : Expr → σ → Bool × σ) : List Expr → σ → σ
  | [], s => s
  | e :: es, s => Expr.inspectList f es (Expr.inspect f e s)
end

mutual
/-- The call expressions of a syntax tree, a call before the calls inside its
callee, those before the calls inside its arguments, and the calls of a list
of nodes node after node. -/
def Expr.calls : Expr → List CallExpr
  | .basicLit _ _ _ => []
  | .ident _ _ => []
  | .selector x _ _ => Expr.calls x
  | .call fn args => ⟨fn, args⟩ :: (Expr.calls fn ++ Expr.callsList args)
  | .other _ children => Expr.callsList children
/-- The call expressions of a list of syntax trees. -/
def Expr.callsList : List Expr → List CallExpr
  | [] => []
  | e :: es => Expr.calls e ++ Expr.callsList es
end

mutual
/-- Source layout of the calls of a tree, as the parser produces it: the calls
inside the callee of a call start no earlier than the call and no later than
the calls inside its arguments, and the calls inside a node of a list start
no later than the calls inside the nodes after it. -/
def Expr.laidOut : Expr → Bool
  | .basicLit _ _ _ => true
  | .ident _ _ => true
  | .selector x _ _ => Expr.laidOut x
  | .call fn args =>
      Expr.laidOut fn && Expr.laidOutList args &&
        (Expr.calls fn ++ Expr.callsList args).all (fun c => decide (Expr.pos fn ≤ c.pos)) &&
        (Expr.calls fn).all (fun c =>
          (Expr.callsList args).all (fun d => decide (c.pos ≤ d.pos)))
  | .other _ children => Expr.laidOutList children
/-- Source layout of the calls of a list of trees. -/
def Expr.laidOutList : List Expr → Bool
  | [] => true
  | e :: es =>
      Expr.laidOut e && Expr.laidOutList es &&
        (Expr.calls e).all (fun c => (Expr.callsList es).all (fun d => decide (c.pos ≤ d.pos)))
end

/-- Go `ast.File`, as far as `parseGoFile` reads it: the package name
`Name.Name`, the literal texts `Path.Value` of `Imports`, and the declarations
`ast.Inspect` walks. -/
structure AstFile where
  Name : String
  Imports : List String
  Decls : List Expr

/-- Go `analyzer.Config`. -/
structure AnalyzerConfig where
  SourceProvider : String
  TargetProvider : String
  Verbose : Bool
  deriving DecidableEq, Repr

/-- The operating system and the libraries `AnalyzeProject` calls, as the
answers they give:
`walk root` lists the calls `filepath.Walk(root, fn)` makes to `fn` as long as
`fn` returns nil, each with its path and the error passed in, if any;
`parseFile path` is `parser.ParseFile` on a fresh file set (the file set it
fills and the tree, or the parse error);
`readFile` is `os.ReadFile`; `stat path` tells whether `os.Stat` succeeds;
`rel` is `filepath.Rel` (its error is dropped by the program) and `join` is
`filepath.Join`. -/
structure FileSystem where
  walk : String → List (String × Option String)
  parseFile : String → Except String (FileSet × AstFile)
  readFile : String → Except String String
  stat : String → Bool
  rel : String → String → String
  join : String → String → String

/-- The loop `for _, imp := range node.Imports` of `parseGoFile`. -/
def parseGoFileImports : List String → SourceFile → SourceFile
  | [], sourceFile => sourceFile
  | value :: rest, sourceFile =>
      let importPath := strTrim value "\""
      let sourceFile := { sourceFile with Imports := sourceFile.Imports ++ [importPath] }
      if strContains importPath "genkit" || strContains importPath "firebase/genkit" ||
          strContains importPath "genkit/go/plugins" then
        parseGoFileImports rest { sourceFile with HasGenKit := true }
      else parseGoFileImports rest sourceFile

/-- The closure passed to `ast.Inspect` in `parseGoFile`, with the
`sourceFile` it appends to. -/
def parseGoFileVisit (fset : FileSet) (n : Expr) (sourceFile : SourceFile) :
    Bool × SourceFile :=
  match n with
  | .call fn args =>
      let sourceFile :=
        match extractFlow ⟨fn, args⟩ fset with
        | some flow => { sourceFile with Flows := sourceFile.Flows ++ [flow] }
        | none => sourceFile
      let sourceFile :=
        match extractModel ⟨fn, args⟩ fset with
        | some model => { sourceFile with Models := sourceFile.Models ++ [model] }
        | none => sourceFile
      (true, sourceFile)
  | _ => (true, sourceFile)

/-- Go `(*Analyzer).parseGoFile`: `none` is the nil SourceFile. -/
def parseGoFile (fs : FileSystem) (filePath _projectRoot : String) :
    Except String (Option SourceFile) :=
  match fs.parseFile filePath with
  | .error err => .error err
  | .ok (fset, node) =>
      let sourceFile : SourceFile :=
        { Path := filePath, PackageName := node.Name, Imports := [], Flows := [],
          Models := [], HasGenKit := false }
      let sourceFile := parseGoFileImports node.Imports sourceFile
      if !sourceFile.HasGenKit then .ok none
      else .ok (some (Expr.inspectList (parseGoFileVisit fset) node.Decls sourceFile))

/-- The walk function `AnalyzeProject` passes to `filepath.Walk`, on the
project it fills and the lines printed so far. -/
def walkFn (a : AnalyzerConfig) (fs : FileSystem) (projectPath : String)
    (path : String) (err : Option String) (project : Project) (stdout : List String) :
    Except String Project × List String :=
  match err with
  | some e => (.error e, stdout)
  | none =>
      if !strHasSuffix path ".go" || strContains path "vendor/" || strContains path ".git/" then
        (.ok project, stdout)
      else
        match parseGoFile fs path projectPath with
        | .error e =>
            if a.Verbose then
              (.ok project,
                stdout ++ ["Warning: failed to parse " ++ path ++ ": " ++ e ++ "\n"])
            else (.ok project, stdout)
        | .ok none => (.ok project, stdout)
        | .ok (some sourceFile) =>
            let relPath := fs.rel projectPath path
            (.ok { project with
                Files := GoMap.insert project.Files relPath sourceFile
                Flows := project.Flows ++ sourceFile.Flows
                Models := project.Models ++ sourceFile.Models }, stdout)

/-- Go `filepath.Walk` on the calls it has to make: it stops at the first
error the walk function returns and returns that error. -/
def walkLoop (a : AnalyzerConfig) (fs : FileSystem) (projectPath : String) :
    List (String × Option String) → Project → List String → Except String Project × List String
  | [], project, stdout => (.ok project, stdout)
  | (path, err) :: rest, project, stdout =>
      match walkFn a fs projectPath path err project stdout with
      | (.error e, stdout) => (.error e, stdout)
      | (.ok project, stdout) => walkLoop a fs projectPath rest project stdout

/-- Go `(*Analyzer).analyzeDependencies`. -/
def analyzeDependencies (fs : FileSystem) (project : Project) : Except String Project :=
  let goModPath := fs.join project.Path "go.mod"
  match fs.readFile goModPath with
  | .error err => .error ("failed to read go.mod: " ++ err)
  | .ok content =>
      let lines := strSplit content (Char.ofNat 10)
      .ok { project with
        Dependencies := analyzeDependenciesLoop lines project.Dependencies }

/-- The loop `for _, filename := range configFiles` of `analyzeConfiguration`. -/
def analyzeConfigurationLoop (fs : FileSystem) : List String → Project → Project
  | [], project => project
  | filename :: rest, project =>
      let configPath := fs.join project.Path filename
      if fs.stat configPath then
        analyzeConfigurationLoop fs rest
          { project with
            Configuration := GoMap.insert project.Configuration filename configPath }
      else analyzeConfigurationLoop fs rest project

/-- Go `(*Analyzer).analyzeConfiguration`. -/
def analyzeConfiguration (fs : FileSystem) (project : Project) : Except String Project :=
  let configFiles := ["config.yaml", "config.json", ".env", "app.yaml"]
  .ok (analyzeConfigurationLoop fs configFiles project)

/-- Go `(*Analyzer).AnalyzeProject`: the result and the lines printed; the
context argument is not used. -/
def AnalyzeProject (a : AnalyzerConfig) (fs : FileSystem) (projectPath : String) :
    Except String Project × List String :=
  let project : Project :=
    { Path := projectPath, SourceProvider := a.SourceProvider,
      TargetProvider := a.TargetProvider, Files := [], Dependencies := [], Flows := [],
      Models := [], Configuration := [] }
  match walkLoop a fs projectPath (fs.walk projectPath) project [] with
  | (.error err, stdout) => (.error ("failed to walk project directory: " ++ err), stdout)
  | (.ok project, stdout) =>
      match analyzeDependencies fs project with
      | .error err => (.error ("failed to analyze dependencies: " ++ err), stdout)
      | .ok project =>
          match analyzeConfiguration fs project with
          | .error err => (.error ("failed to analyze configuration: " ++ err), stdout)
          | .ok project => (.ok project, stdout)

/-- The files `AnalyzeProject` stores, in the order of the walk: for each
call of the walk function on a path that passes the filter and parses to a
relevant file, the key `filepath.Rel` gives and the SourceFile. -/
def storedFiles (fs : FileSystem) (projectPath : String) :
    List (String × Option String) → List (String × SourceFile)
  | [] => []
  | (path, _) :: rest =>
      if !strHasSuffix path ".go" || strContains path "vendor/" || strContains path ".git/" then
        storedFiles fs projectPath rest
      else
        match parseGoFile fs path projectPath with
        | .ok (some sourceFile) =>
            (fs.rel projectPath path, sourceFile) :: storedFiles fs projectPath rest
        | _ => storedFiles fs projectPath rest

/-- The flow pattern as the specification words it: the callee is a selector
whose selected name is "DefineFlow", there are at least two arguments, and the
first argument is a string literal. -/
def specFlowPattern (call : CallExpr) : Bool :=
  (match call.Fun with
   | .selector _ _ selName => decide (selName = "DefineFlow")
   | _ => false) &&
  decide (2 ≤ call.Args.length) &&
  (match call.Args.head? with
   | some (.basicLit _ .STRING _) => true
   | _ => false)

/-! ## The files of the analyzer test -/

/-- A file set for one file: the position of the character at `pos` (one more
than its offset) in a file whose lines start at the offsets `lineStarts`. -/
def positionIn (filename : String) (lineStarts : List Nat) (pos : Nat) : Position :=
  let offset := pos - 1
  let before := lineStarts.filter (fun start => decide (start ≤ offset))
  { Filename := filename, Offset := offset, Line := before.length,
    Column := offset - before.getLastD 0 + 1 }

/-- The syntax tree of `main.go` of `createTestProject`, with the positions of
its tokens. -/
def testMainGo : AstFile :=
  { Name := "main",
    Imports := ["\"context\"", "\"github.com/firebase/genkit/go/genkit\"",
      "\"github.com/firebase/genkit/go/plugins/googleai\""],
    Decls :=
      [ .other 15
          [ .other 28 [.basicLit 28 .STRING "\"context\""],
            .other 42 [.basicLit 42 .STRING "\"github.com/firebase/genkit/go/genkit\""],
            .other 85
              [.basicLit 85 .STRING "\"github.com/firebase/genkit/go/plugins/googleai\""] ],
        .other 137
          [ .ident 142 "main", .other 137 [],
            .other 149
              [ .other 155
                  [ .ident 155 "ctx",
                    .call (.selector (.ident 162 "context") 170 "Background") [] ],
                .other 187
                  [ .call (.selector (.ident 187 "genkit") 194 "Init")
                      [.ident 199 "ctx", .ident 204 "nil"] ],
                .other 218
                  [ .call (.selector (.ident 218 "genkit") 225 "DefineFlow")
                      [ .basicLit 236 .STRING "\"summarize\"",
                        .other 249
                          [ .other 249 [],
                            .other 305
                              [ .other 315
                                  [ .ident 315 "resp", .ident 321 "err",
                                    .call (.selector (.ident 328 "genkit") 335 "Generate")
                                      [ .ident 344 "ctx",
                                        .other 349
                                          [ .other 350
                                              [ .selector (.ident 350 "ai") 353
                                                  "GenerateRequest",
                                                .other 382
                                                  [ .ident 382 "Model",
                                                    .call
                                                      (.selector (.ident 389 "genkit") 396
                                                        "Model")
                                                      [ .basicLit 402 .STRING
                                                          "\"googleai/gemini-1.5-pro\"" ] ] ] ] ] ],
                                .other 449
                                  [ .call (.selector (.ident 456 "resp") 461 "Text") [],
                                    .ident 469 "err" ] ] ] ] ] ] ] ] }

/-- The offsets at which the lines of `main.go` of `createTestProject` start. -/
def testMainGoLines : List Nat :=
  [0, 13, 14, 23, 37, 80, 133, 135, 136, 150, 182, 208, 213, 306, 369, 429, 440, 472, 479, 481]

/-- A file without framework imports that calls a function named DefineFlow. -/
def testPlainGo : AstFile :=
  { Name := "util", Imports := ["\"fmt\""],
    Decls :=
      [ .other 30
          [ .call (.selector (.ident 30 "local") 36 "DefineFlow")
              [.basicLit 47 .STRING "\"not-a-flow\"", .ident 61 "nil"] ] ] }

/-- The manifest `go.mod` of `createTestProject`. -/
def testGoMod : String :=
  "module test-genkit-app\n" ++
  "\n" ++
  "go 1.23\n" ++
  "\n" ++
  "require (\n" ++
  "    github.com/firebase/genkit/go v0.5.8\n" ++
  "    github.com/firebase/genkit/go/plugins/googleai v0.5.8\n" ++
  ")\n"

/-- A file system for examples: the walk makes the calls `entries`; a path
ending in "broken.go" does not parse, a path ending in "plain.go" parses to
`testPlainGo` and every other path to `testMainGo`; reading any file gives
`goMod`; no configuration file exists; paths are joined with a slash and made
relative by dropping the base and the slash after it. -/
def testFileSystem (entries : List (String × Option String)) (goMod : Except String String) :
    FileSystem :=
  { walk := fun _ => entries,
    parseFile := fun path =>
      if strHasSuffix path "broken.go" then .error "expected declaration"
      else if strHasSuffix path "plain.go" then
        .ok (positionIn path [0], testPlainGo)
      else .ok (positionIn path testMainGoLines, testMainGo),
    readFile := fun _ => goMod,
    stat := fun _ => false,
    rel := fun base path => ⟨path.data.drop (base.data.length + 1)⟩,
    join := fun a b => a ++ "/" ++ b }

/-! ## File materialization (`pkg/generator/generator.go`) -/

/-- An effect of the generator on the output tree. -/
inductive FileOp where
  | mkdirAll (path : String)
  | writeFile (path content : String)
  | copy (source target : String)
  deriving DecidableEq, Repr

/-- Whether an effect is a copy. -/
def FileOp.isCopy : FileOp → Bool
  | .copy _ _ => true
  | _ => false

/-- The calls the generator makes to the operating system and to the copy
library, as the answers they give: the error of `os.MkdirAll`, of
`os.WriteFile` and of `copy.Copy`, if any, and the results of `filepath.Join`
and `filepath.Dir`. -/
structure OutputSystem where
  mkdirAll : String → Option String
  writeFile : String → String → Option String
  copy : String → String → Option String
  join : String → String → String
  dir : String → String

/-- Go `(*Generator).createOutputDirectory`, with the effects so far. -/
def createOutputDirectory (g : GeneratorConfig) (os : OutputSystem) (log : List FileOp) :
    Except String Unit × List FileOp :=
  match os.mkdirAll g.OutputPath with
  | some err => (.error err, log ++ [.mkdirAll g.OutputPath])
  | none => (.ok (), log ++ [.mkdirAll g.OutputPath])

/-- Go `(*Generator).writeNewFiles`, on the visiting order of the range over
`migration.NewFiles`. -/
def writeNewFiles (g : GeneratorConfig) (os : OutputSystem) :
    List (String × String) → List FileOp → Except String Unit × List FileOp
  | [], log => (.ok (), log)
  | (filePath, content) :: rest, log =>
      let fullPath := os.join g.OutputPath filePath
      let dir := os.dir fullPath
      match os.mkdirAll dir with
      | some err =>
          (.error ("failed to create directory " ++ dir ++ ": " ++ err), log ++ [.mkdirAll dir])
      | none =>
          match os.writeFile fullPath content with
          | some err =>
              (.error ("failed to write file " ++ fullPath ++ ": " ++ err),
                log ++ [.mkdirAll dir, .writeFile fullPath content])
          | none =>
              writeNewFiles g os rest (log ++ [.mkdirAll dir, .writeFile fullPath content])

/-- Go `(*Generator).copyExistingFiles`, on the visiting order `filesVisit` of
the range over `project.Files`. -/
def copyExistingFiles (g : GeneratorConfig) (os : OutputSystem) (migration : Migration) :
    List (String × SourceFile) → List FileOp → Except String Unit × List FileOp
  | [], log => (.ok (), log)
  | (filePath, _) :: rest, log =>
      let sourcePath := os.join migration.Project.Path filePath
      let targetPath := os.join g.OutputPath filePath
      if GoMap.contains migration.NewFiles filePath then
        copyExistingFiles g os migration rest log
      else
        let dir := os.dir targetPath
        match os.mkdirAll dir with
        | some err =>
            (.error ("failed to create directory " ++ dir ++ ": " ++ err),
              log ++ [.mkdirAll dir])
        | none =>
            match os.copy sourcePath targetPath with
            | some err =>
                (.error ("failed to copy file " ++ filePath ++ ": " ++ err),
                  log ++ [.mkdirAll dir, .copy sourcePath targetPath])
            | none =>
                copyExistingFiles g os migration rest
                  (log ++ [.mkdirAll dir, .copy sourcePath targetPath])

/-- Go `(*Generator).generateDocumentation`; `mappingsVisit` is the visiting
order of the range inside `generateReadme`. -/
def generateDocumentation (g : GeneratorConfig) (os : OutputSystem) (migration : Migration)
    (mappingsVisit : List (String × String)) (log : List FileOp) :
    Except String Unit × List FileOp :=
  let readmeContent := generateReadme g migration mappingsVisit
  let readmePath := os.join g.OutputPath "MIGRATION.md"
  match os.writeFile readmePath readmeContent with
  | some err =>
      (.error ("failed to write MIGRATION.md: " ++ err),
        log ++ [.writeFile readmePath readmeContent])
  | none => (.ok (), log ++ [.writeFile readmePath readmeContent])

/-- Go `(*Generator).GenerateProject`: the error, if any, and the effects made;
`newFilesVisit`, `filesVisit` and `mappingsVisit` are the visiting orders of
the three map ranges of the run. -/
def GenerateProject (g : GeneratorConfig) (os : OutputSystem) (migration : Migration)
    (newFilesVisit : List (String × String)) (filesVisit : List (String × SourceFile))
    (mappingsVisit : List (String × String)) : Except String Unit × List FileOp :=
  match createOutputDirectory g os [] with
  | (.error err, log) => (.error ("failed to create output directory: " ++ err), log)
  | (.ok _, log) =>
      match writeNewFiles g os newFilesVisit log with
      | (.error err, log) => (.error ("failed to write new files: " ++ err), log)
      | (.ok _, log) =>
          match copyExistingFiles g os migration filesVisit log with
          | (.error err, log) => (.error ("failed to copy existing files: " ++ err), log)
          | (.ok _, log) =>
              match generateDocumentation g os migration mappingsVisit log with
              | (.error err, log) =>
                  (.error ("failed to generate documentation: " ++ err), log)
              | (.ok _, log) => (.ok (), log)

/-- An output system for examples: every call succeeds, paths are joined with
a slash and the directory of a path is what precedes its last slash. -/
def testOutputSystem : OutputSystem :=
  { mkdirAll := fun _ => none,
    writeFile := fun _ _ => none,
    copy := fun _ _ => none,
    join := fun a b => a ++ "/" ++ b,
    dir := fun path =>
      ⟨((path.data.reverse.dropWhile (fun c => c != Char.ofNat 47)).drop 1).reverse⟩ }

/-- The rows of the classifier table one of whose markers occurs in the name:
the provider groups the name has a substring of. -/
def matchedGroups (name : String) : List (List String × String) :=
  classifierTable.filter (fun row => row.1.any (fun mk => strContains name mk))

/-- The line `generateReadme` prints for one model mapping. -/
def readmeMappingLine (oldModel newModel : String) : String :=
  "- \x60" ++ oldModel ++ "\x60 \u00e2\u2020\u2019 \x60" ++ newModel ++ "\x60\n"

set_option maxRecDepth 8192

/-! ## Lemmas on Go maps -/

namespace GoMap

variable {V : Type}

theorem lookup_insert (m : GoMap V) (k : String) (v : V) (k' : String) :
    lookup (insert m k v) k' = if k = k' then some v else lookup m k' := by
  induction m with
  | nil => simp [insert, lookup]
  | cons e m ih =>
    obtain ⟨a, b⟩ := e
    by_cases h : a = k
    · subst h
      by_cases h' : a = k' <;> simp [insert, lookup, h']
    · by_cases h' : k = k'
      · subst h'
        simp [insert, lookup, h, ih]
      · by_cases h'' : a = k'
        · subst h''
          simp [insert, lookup, h, h']
        · simp [insert, lookup, h, h', h'', ih]

theorem lookup_insert_self (m : GoMap V) (k : String) (v : V) :
    lookup (insert m k v) k = some v := by
  simp [lookup_insert]

theorem lookup_insert_ne (m : GoMap V) {k k' : String} (v : V) (h : k ≠ k') :
    lookup (insert m k v) k' = lookup m k' := by
  simp [lookup_insert, h]

theorem contains_insert (m : GoMap V) (k : String) (v : V) (k' : String) :
    contains (insert m k v) k' = (decide (k = k') || contains m k') := by
  unfold contains
  rw [lookup_insert]
  by_cases h : k = k' <;> simp [h]

theorem lookup_eq_none_iff (m : GoMap V) (k : String) :
    lookup m k = none ↔ k ∉ keys m := by
  induction m with
  | nil => simp [lookup, keys]
  | cons e m ih =>
    obtain ⟨a, b⟩ := e
    by_cases h : a = k
    · simp [lookup, keys, h]
    · have h' : ¬ k = a := fun e => h e.symm
      simp only [lookup, h, if_false, ih]
      simp [keys, h']

theorem lookup_eq_some_of_mem {m : GoMap V} (hwf : WF m) {k : String} {v : V}
    (h : (k, v) ∈ m) : lookup m k = some v := by
  induction m with
  | nil => simp at h
  | cons e m ih =>
    obtain ⟨a, b⟩ := e
    have hnd : a ∉ keys m ∧ WF m := by
      simpa [WF, keys] using hwf
    rcases List.mem_cons.mp h with h | h
    · cases h
      simp [lookup]
    · have hne : a ≠ k := by
        intro e
        subst e
        exact hnd.1 (List.mem_map.mpr ⟨(a, v), h, rfl⟩)
      simp [lookup, hne, ih hnd.2 h]

theorem mem_of_lookup_eq_some {m : GoMap V} {k : String} {v : V}
    (h : lookup m k = some v) : (k, v) ∈ m := by
  induction m with
  | nil => simp [lookup] at h
  | cons e m ih =>
    obtain ⟨a, b⟩ := e
    by_cases hk : a = k
    · subst hk
      simp [lookup] at h
      simp [h]
    · simp [lookup, hk] at h
      exact List.mem_cons_of_mem _ (ih h)

end GoMap

theorem RangeOrder.wf {V : Type} {m : GoMap V} {visit : List (String × V)}
    (h : RangeOrder m visit) (hwf : GoMap.WF m) : GoMap.WF visit := by
  unfold GoMap.WF GoMap.keys at *
  exact ((List.Perm.map Prod.fst h).nodup_iff).mpr hwf

theorem RangeOrder.mem_iff {V : Type} {m : GoMap V} {visit : List (String × V)}
    (h : RangeOrder m visit) (e : String × V) : e ∈ visit ↔ e ∈ m :=
  List.Perm.mem_iff h

/-! ## The mapping table and the classifier -/

/-- C1: for the pair (gcp, aws) the mapping table sends "googleai/gemini-1.5-pro"
to "anthropic.claude-3-sonnet-20240229-v1:0" and "googleai/gemini-1.5-flash" to
"anthropic.claude-3-haiku-20240307-v1:0"; for every other provider pair
`getModelMappings` returns the empty map. -/
theorem getModelMappings_spec (t : Config) :
    (t.SourceProvider = "gcp" ∧ t.TargetProvider = "aws" →
      GoMap.lookup (getModelMappings t) "googleai/gemini-1.5-pro"
          = some "anthropic.claude-3-sonnet-20240229-v1:0" ∧
      GoMap.lookup (getModelMappings t) "googleai/gemini-1.5-flash"
          = some "anthropic.claude-3-haiku-20240307-v1:0") ∧
    (¬ (t.SourceProvider = "gcp" ∧ t.TargetProvider = "aws") →
      getModelMappings t = [] ∧ ∀ k, GoMap.lookup (getModelMappings t) k = none) := by
  constructor
  · intro h
    rw [getModelMappings, if_pos h]
    constructor <;> decide
  · intro h
    rw [getModelMappings, if_neg h]
    exact ⟨rfl, fun _ => rfl⟩

/-- Witness of C1: the configuration of `TestGetModelMappings` and the
reversed pair. -/
theorem getModelMappings_spec_witness :
    (GoMap.lookup (getModelMappings ⟨"gcp", "aws", "", false⟩) "googleai/gemini-1.5-pro"
        = some "anthropic.claude-3-sonnet-20240229-v1:0" ∧
      GoMap.lookup (getModelMappings ⟨"gcp", "aws", "", false⟩) "googleai/gemini-1.5-flash"
        = some "anthropic.claude-3-haiku-20240307-v1:0") ∧
    getModelMappings ⟨"aws", "gcp", "", false⟩ = [] :=
  ⟨(getModelMappings_spec ⟨"gcp", "aws", "", false⟩).1 (by decide),
   ((getModelMappings_spec ⟨"aws", "gcp", "", false⟩).2 (by decide)).1⟩

/-- C2: `detectModelProvider` depends on the model name alone and is the
ordered substring classifier of the specification (first matching row of
googleai/ vertexai/ -> gcp; openai/ gpt- -> openai; anthropic/ claude- ->
anthropic; ollama/ -> ollama; bedrock/ amazon. anthropic. -> aws; else
unknown), with the five values of `TestDetectModelProvider`. -/
theorem detectModelProvider_eq_classifySpec :
    (∀ modelName : String, detectModelProvider modelName = classifySpec modelName) ∧
    detectModelProvider "googleai/gemini-1.5-pro" = "gcp" ∧
    detectModelProvider "vertexai/gemini-pro" = "gcp" ∧
    detectModelProvider "openai/gpt-4" = "openai" ∧
    detectModelProvider "anthropic/claude-3" = "anthropic" ∧
    detectModelProvider "unknown-model" = "unknown" := by
  refine ⟨?_, by decide, by decide, by decide, by decide, by decide⟩
  intro modelName
  simp only [detectModelProvider, classifySpec, classifierTable, classifyWith, List.any_cons,
    List.any_nil, Bool.or_false, Bool.or_assoc]

/-! ## Lemmas on `strings.Trim` -/

theorem dropWhile_eq_self_of_head {α : Type} (p : α → Bool) (r : List α)
    (h : ∀ c, r.head? = some c → p c = false) : r.dropWhile p = r := by
  cases r with
  | nil => rfl
  | cons d r => simp [List.dropWhile, h d rfl]

theorem trim_quoted_chars (p : Char → Bool) (q : Char) (hq : p q = true) (l : List Char)
    (hh : ∀ c, l.head? = some c → p c = false)
    (hl : ∀ c, l.getLast? = some c → p c = false) :
    (((q :: (l ++ [q])).dropWhile p).reverse.dropWhile p).reverse = l := by
  cases l with
  | nil => simp [List.dropWhile, hq]
  | cons c l =>
    have hc : p c = false := hh c rfl
    have h1 : (q :: (c :: l ++ [q])).dropWhile p = c :: l ++ [q] := by
      simp [List.dropWhile, hq, hc]
    rw [h1]
    have h2 : (c :: l ++ [q]).reverse = q :: (c :: l).reverse := by simp
    rw [h2]
    have h3 : (q :: (c :: l).reverse).dropWhile p = (c :: l).reverse := by
      rw [List.dropWhile_cons, if_pos hq]
      apply dropWhile_eq_self_of_head
      intro d hd
      rw [List.head?_reverse] at hd
      exact hl d hd
    rw [h3, List.reverse_reverse]

/-- Trimming the double quotes off a text wrapped in one pair of them gives
the text back, when the text itself neither begins nor ends with one. -/
theorem strTrim_quoted (s : String) (hh : s.data.head? ≠ some dquote)
    (hl : s.data.getLast? ≠ some dquote) :
    strTrim ("\"" ++ s ++ "\"") "\"" = s := by
  have hp : ∀ c : Char, ("\"" : String).data.contains c = true ↔ c = dquote := by
    intro c
    show List.elem c [dquote] = true ↔ c = dquote
    by_cases h : c = dquote
    · simp [List.elem, h]
    · have hb : (c == dquote) = false := by simpa using h
      simp [List.elem, hb, h]
  have hd : ("\"" ++ s ++ "\"").data = dquote :: (s.data ++ [dquote]) := by
    simp only [String.data_append]
    rfl
  unfold strTrim
  rw [hd, trim_quoted_chars _ dquote ((hp dquote).mpr rfl) s.data]
  · intro c hc
    by_contra hcon
    have : c = dquote := (hp c).mp (by simpa using hcon)
    exact hh (this ▸ hc)
  · intro c hc
    by_contra hcon
    have : c = dquote := (hp c).mp (by simpa using hcon)
    exact hl (this ▸ hc)

/-! ## The call patterns of the extractor -/

/-- C9: `extractFlow` returns a Flow if and only if the callee is a selector
expression whose selected name is "DefineFlow", the call has at least two
arguments and the first argument is a string literal; in every other case it
returns nothing. -/
theorem extractFlow_isSome_iff (call : CallExpr) (fset : FileSet) :
    ((extractFlow call fset).isSome = true ↔
      (∃ x selPos, call.Fun = .selector x selPos "DefineFlow") ∧
      2 ≤ call.Args.length ∧
      ∃ valuePos value, call.Args.head? = some (.basicLit valuePos .STRING value)) ∧
    (extractFlow call fset = none ↔
      ¬ ((∃ x selPos, call.Fun = .selector x selPos "DefineFlow") ∧
        2 ≤ call.Args.length ∧
        ∃ valuePos value, call.Args.head? = some (.basicLit valuePos .STRING value))) := by
  have key : (extractFlow call fset).isSome = true ↔
      (∃ x selPos, call.Fun = .selector x selPos "DefineFlow") ∧
      2 ≤ call.Args.length ∧
      ∃ valuePos value, call.Args.head? = some (.basicLit valuePos .STRING value) := by
    obtain ⟨fn, args⟩ := call
    cases fn with
    | selector x selPos selName =>
      by_cases hn : selName = "DefineFlow"
      · by_cases hl : 2 ≤ args.length
        · cases args with
          | nil => simp at hl
          | cons a rest =>
            cases a with
            | basicLit valuePos kind value =>
              cases kind <;> simp [extractFlow, hn, hl]
            | _ => simp [extractFlow, hn, hl]
        · simp [extractFlow, hn, hl]
      · simp [extractFlow, hn]
    | _ => simp [extractFlow]
  refine ⟨key, ?_⟩
  rw [← key]
  cases extractFlow call fset <;> simp

theorem extractModel_some_iff (call : CallExpr) (fset : FileSet) (m : Model) :
    extractModel call fset = some m ↔
      (∃ x selPos, call.Fun = .selector x selPos "Model") ∧
      ∃ valuePos value, call.Args.head? = some (.basicLit valuePos .STRING value) ∧
        m.Name = strTrim value "\"" ∧
        m.Provider = detectModelProvider m.Name ∧
        m.Position = fset call.pos := by
  obtain ⟨fn, args⟩ := call
  obtain ⟨name, provider, position⟩ := m
  cases fn with
  | selector x selPos selName =>
    by_cases hn : selName = "Model"
    · cases args with
      | nil => simp [extractModel, hn]
      | cons a rest =>
        cases a with
        | basicLit valuePos kind value =>
          cases kind <;> simp [extractModel, hn]
          constructor
          · rintro ⟨h1, h2, h3⟩
            subst h1 h2 h3
            exact ⟨valuePos, value, ⟨rfl, rfl⟩, rfl, rfl, rfl⟩
          · rintro ⟨vp, v, ⟨-, hv⟩, h1, h2, h3⟩
            subst hv h1
            exact ⟨rfl, h2.symm, h3.symm⟩
        | _ => simp [extractModel, hn]
    · simp [extractModel, hn]
  | _ => simp [extractModel]

theorem extractModel_isSome_iff (call : CallExpr) (fset : FileSet) :
    (extractModel call fset).isSome = true ↔
      (∃ x selPos, call.Fun = .selector x selPos "Model") ∧
      ∃ valuePos value, call.Args.head? = some (.basicLit valuePos .STRING value) := by
  constructor
  · intro h
    obtain ⟨m, hm⟩ := Option.isSome_iff_exists.mp h
    obtain ⟨h1, vp, value, h2, -⟩ := (extractModel_some_iff call fset m).mp hm
    exact ⟨h1, vp, value, h2⟩
  · rintro ⟨h1, vp, value, h2⟩
    apply Option.isSome_iff_exists.mpr
    exact ⟨⟨strTrim value "\"", detectModelProvider (strTrim value "\""), fset call.pos⟩,
      (extractModel_some_iff call fset _).mpr ⟨h1, vp, value, h2, rfl, rfl, rfl⟩⟩

theorem extractModel_quoted (call : CallExpr) (fset : FileSet) (s : String)
    (hh : s.data.head? ≠ some dquote) (hl : s.data.getLast? ≠ some dquote) (valuePos : Nat)
    (hargs : call.Args.head? = some (.basicLit valuePos .STRING ("\"" ++ s ++ "\"")))
    (x : Expr) (selPos : Nat) (hfun : call.Fun = .selector x selPos "Model") :
    extractModel call fset = some ⟨s, detectModelProvider s, fset call.pos⟩ :=
  (extractModel_some_iff call fset _).mpr
    ⟨⟨x, selPos, hfun⟩, valuePos, _, hargs, (strTrim_quoted s hh hl).symm, rfl, rfl⟩

/-- C10 (the code at failing inputs): for every call `extractModel` returns a
Model exactly when the callee is a selector expression whose selected name is
"Model" and the first argument is a string literal, and the provider of the
Model returned is `detectModelProvider` of its name; but the name is not the
literal for every string literal.  For the call genkit.Model(RAW), where RAW
is the raw string literal googleai/gemini-1.5-pro between two backquotes, the
Model recorded has the backquotes in its name, a name the mapping table for
(gcp, aws) has no entry for, while it has one for googleai/gemini-1.5-pro; for
the interpreted literal whose text between the delimiters is the letter a, a
backslash and a double quote, the name recorded is the letter a and the
backslash, one character short.  The model of the analyzer test, named by the
interpreted literal "googleai/gemini-1.5-pro", is recorded under that name. -/
theorem extractModel_name_at_raw_and_escaped_literals (call : CallExpr) (fset : FileSet) :
    ((extractModel call fset).isSome = true ↔
      (∃ x selPos, call.Fun = .selector x selPos "Model") ∧
      ∃ valuePos value, call.Args.head? = some (.basicLit valuePos .STRING value)) ∧
    (extractModel call fset).map Model.Provider =
      (extractModel call fset).map (fun m => detectModelProvider m.Name) ∧
    extractModel ⟨.selector (.ident 10 "genkit") 17 "Model",
        [.basicLit 23 .STRING "\x60googleai/gemini-1.5-pro\x60"]⟩ (fun p => ⟨"main.go", p, 1, p⟩)
      = some ⟨"\x60googleai/gemini-1.5-pro\x60", "gcp", ⟨"main.go", 10, 1, 10⟩⟩ ∧
    GoMap.lookup (getModelMappings testConfig) "\x60googleai/gemini-1.5-pro\x60" = none ∧
    GoMap.lookup (getModelMappings testConfig) "googleai/gemini-1.5-pro"
      = some "anthropic.claude-3-sonnet-20240229-v1:0" ∧
    (extractModel ⟨.selector (.ident 10 "genkit") 17 "Model",
        [.basicLit 23 .STRING "\"a\\\"\""]⟩ (fun p => ⟨"main.go", p, 1, p⟩)).map Model.Name
      = some "a\\" ∧
    extractModel ⟨.selector (.ident 10 "genkit") 17 "Model",
        [.basicLit 23 .STRING "\"googleai/gemini-1.5-pro\""]⟩ (fun p => ⟨"main.go", p, 1, p⟩)
      = some ⟨"googleai/gemini-1.5-pro", "gcp", ⟨"main.go", 10, 1, 10⟩⟩ := by
  refine ⟨extractModel_isSome_iff call fset, ?_, by decide, by decide, by decide, by decide,
    by decide⟩
  cases h : extractModel call fset with
  | none => rfl
  | some m =>
    obtain ⟨-, -, -, -, -, hp, -⟩ := (extractModel_some_iff call fset m).mp h
    simp [hp]

/-! ## The dependency filter -/

theorem filterDependencies_eq (visit : List (String × String)) :
    filterDependencies visit =
      (visit.filter (fun e => !strContains e.1 "firebase" && !strContains e.1 "google")).map
        (fun e => [("Name", e.1), ("Version", e.2)]) := by
  induction visit with
  | nil => rfl
  | cons e rest ih =>
    obtain ⟨name, version⟩ := e
    by_cases h : (!strContains name "firebase" && !strContains name "google") = true
    · simp only [filterDependencies, List.filter_cons, h, if_true, List.map_cons, ih]
    · simp only [filterDependencies, List.filter_cons, h, if_false, ih]
      rfl

theorem filterDependencies_perm {visit₁ visit₂ : List (String × String)}
    (h : visit₁.Perm visit₂) :
    (filterDependencies visit₁).Perm (filterDependencies visit₂) := by
  rw [filterDependencies_eq, filterDependencies_eq]
  exact (h.filter _).map _

theorem filterDependencies_named_nil (visit : List (String × String)) (name : String)
    (h : name ∉ GoMap.keys visit) :
    (filterDependencies visit).filter
      (fun d => decide (GoMap.lookup d "Name" = some name)) = [] := by
  induction visit with
  | nil => rfl
  | cons e rest ih =>
    obtain ⟨n, v⟩ := e
    have hn : ¬ name = n ∧ name ∉ GoMap.keys rest := by
      simpa [GoMap.keys] using h
    have hn' : ¬ n = name := fun e => hn.1 e.symm
    by_cases hk : (!strContains n "firebase" && !strContains n "google") = true
    · simp only [filterDependencies, hk, if_true, List.filter_cons]
      simp [GoMap.lookup, hn', ih hn.2]
    · simp only [filterDependencies, hk]
      exact ih hn.2

theorem filterDependencies_named (visit : List (String × String)) (hwf : GoMap.WF visit)
    (name version : String) (hmem : (name, version) ∈ visit)
    (hf : strContains name "firebase" = false) (hg : strContains name "google" = false) :
    (filterDependencies visit).filter
      (fun d => decide (GoMap.lookup d "Name" = some name))
      = [[("Name", name), ("Version", version)]] := by
  induction visit with
  | nil => simp at hmem
  | cons e rest ih =>
    obtain ⟨n, v⟩ := e
    have hnd : n ∉ GoMap.keys rest ∧ GoMap.WF rest := by
      simpa [GoMap.WF, GoMap.keys] using hwf
    rcases List.mem_cons.mp hmem with h | h
    · cases h
      have hk : (!strContains name "firebase" && !strContains name "google") = true := by
        simp [hf, hg]
      simp only [filterDependencies, hk, if_true, List.filter_cons]
      simp [GoMap.lookup, filterDependencies_named_nil rest name hnd.1]
    · have hne : ¬ n = name := by
        intro e
        subst e
        exact hnd.1 (List.mem_map.mpr ⟨(n, version), h, rfl⟩)
      by_cases hk : (!strContains n "firebase" && !strContains n "google") = true
      · simp only [filterDependencies, hk, if_true, List.filter_cons]
        simp [GoMap.lookup, hne, ih hnd.2 h]
      · simp only [filterDependencies, hk]
        exact ih hnd.2 h

/-- C3: for every dependency map and every order in which the range statement
visits it, `filterDependencies` returns one (Name, Version) entry for exactly
the dependencies whose name contains neither "firebase" nor "google": every
entry of the result is such a dependency of the map with its version (so no
entry has a marker substring in its name), and every dependency without a
marker is the one and only entry of the result with its name, carrying its
original version. -/
theorem filterDependencies_spec (deps : GoMap String) (visit : List (String × String))
    (hwf : GoMap.WF deps) (hvisit : RangeOrder deps visit) :
    (∀ d ∈ filterDependencies visit, ∃ name version,
        d = [("Name", name), ("Version", version)] ∧ (name, version) ∈ deps ∧
        strContains name "firebase" = false ∧ strContains name "google" = false) ∧
    (∀ name version, (name, version) ∈ deps →
        strContains name "firebase" = false → strContains name "google" = false →
        (filterDependencies visit).filter
            (fun d => decide (GoMap.lookup d "Name" = some name))
          = [[("Name", name), ("Version", version)]]) ∧
    (filterDependencies visit).length
      = (deps.filter
          (fun e => !strContains e.1 "firebase" && !strContains e.1 "google")).length := by
  refine ⟨?_, ?_, ?_⟩
  · intro d hd
    rw [filterDependencies_eq] at hd
    obtain ⟨⟨name, version⟩, he, rfl⟩ := List.mem_map.mp hd
    obtain ⟨hmem, hkeep⟩ := List.mem_filter.mp he
    refine ⟨name, version, rfl, (hvisit.mem_iff _).mp hmem, ?_⟩
    simpa using hkeep
  · intro name version hmem hf hg
    exact filterDependencies_named visit (hvisit.wf hwf) name version
      ((hvisit.mem_iff _).mpr hmem) hf hg
  · rw [filterDependencies_eq, List.length_map]
    exact (List.Perm.filter _ hvisit).length_eq

/-- Witness of C3: the dependency map of `TestFilterDependencies`, visited in
the order of the map literal. -/
theorem filterDependencies_spec_witness :
    (filterDependencies
        [("github.com/firebase/genkit/go", "v0.5.8"),
         ("github.com/firebase/genkit/go/plugins/googleai", "v0.5.8"),
         ("github.com/spf13/cobra", "v1.8.1"),
         ("github.com/google/uuid", "v1.3.0"),
         ("gopkg.in/yaml.v3", "v3.0.1")]).filter
        (fun d => decide (GoMap.lookup d "Name" = some "gopkg.in/yaml.v3"))
      = [[("Name", "gopkg.in/yaml.v3"), ("Version", "v3.0.1")]] :=
  (filterDependencies_spec
      [("github.com/firebase/genkit/go", "v0.5.8"),
       ("github.com/firebase/genkit/go/plugins/googleai", "v0.5.8"),
       ("github.com/spf13/cobra", "v1.8.1"),
       ("github.com/google/uuid", "v1.3.0"),
       ("gopkg.in/yaml.v3", "v3.0.1")]
      [("github.com/firebase/genkit/go", "v0.5.8"),
       ("github.com/firebase/genkit/go/plugins/googleai", "v0.5.8"),
       ("github.com/spf13/cobra", "v1.8.1"),
       ("github.com/google/uuid", "v1.3.0"),
       ("gopkg.in/yaml.v3", "v3.0.1")]
      (by decide) (List.Perm.refl _)).2.1 "gopkg.in/yaml.v3" "v3.0.1" (by decide) (by decide)
    (by decide)

/-! ## The model rewrite -/

theorem transformModelsLoop_eq (modelMappings : GoMap String) (models : List Model)
    (migration : Migration) :
    transformModelsLoop modelMappings models migration =
      { migration with
        Changes := migration.Changes ++ models.filterMap (fun model =>
          (GoMap.lookup modelMappings model.Name).map (fun newModel =>
            { Type_ := "model",
              Description := "Map model " ++ model.Name ++ " -> " ++ newModel,
              File := model.Position.Filename, OldValue := "", NewValue := "" })) } := by
  induction models generalizing migration with
  | nil => simp [transformModelsLoop]
  | cons model rest ih =>
    cases h : GoMap.lookup modelMappings model.Name with
    | none => simp [transformModelsLoop, h, ih, List.filterMap_cons]
    | some newModel => simp [transformModelsLoop, h, ih, List.filterMap_cons]

theorem lookup_isSome_iff_mem_keys {V : Type} (m : GoMap V) (k : String) :
    (GoMap.lookup m k).isSome = true ↔ k ∈ GoMap.keys m := by
  rw [← not_iff_not, ← GoMap.lookup_eq_none_iff]
  cases GoMap.lookup m k <;> simp

/-- C6: `transformModels` succeeds and appends, in the order of
`Project.Models`, one Change of type "model" for each model whose name is
equal to a key of the mapping table of the configured pair, and none for any
other model; a name that only contains, begins or extends a key (such as
"googleai/gemini-1.5-pro-latest") is not a key, and for every pair other than
(gcp, aws) nothing is appended.  `NewFiles` and the other fields are left as
they were. -/
theorem transformModels_spec (t : Config) (migration : Migration) :
    (∃ m, transformModels t migration = .ok m ∧
      m.Changes = migration.Changes ++ migration.Project.Models.filterMap (fun model =>
        (GoMap.lookup (getModelMappings t) model.Name).map (fun newModel =>
          { Type_ := "model",
            Description := "Map model " ++ model.Name ++ " -> " ++ newModel,
            File := model.Position.Filename, OldValue := "", NewValue := "" })) ∧
      m.NewFiles = migration.NewFiles ∧ m.Project = migration.Project ∧
      m.DeleteFiles = migration.DeleteFiles ∧ m.Commands = migration.Commands ∧
      (¬ (t.SourceProvider = "gcp" ∧ t.TargetProvider = "aws") →
        m.Changes = migration.Changes)) ∧
    (∀ name, (GoMap.lookup (getModelMappings t) name).isSome = true ↔
      name ∈ GoMap.keys (getModelMappings t)) ∧
    GoMap.lookup (getModelMappings t) "googleai/gemini-1.5-pro-latest" = none ∧
    GoMap.lookup (getModelMappings t) "googleai/gemini-1.5" = none ∧
    GoMap.lookup (getModelMappings t) "gemini-1.5-pro" = none := by
  refine ⟨⟨_, rfl, ?_, ?_, ?_, ?_, ?_, ?_⟩, ?_, ?_, ?_, ?_⟩
  · rw [transformModelsLoop_eq]
  · rw [transformModelsLoop_eq]
  · rw [transformModelsLoop_eq]
  · rw [transformModelsLoop_eq]
  · rw [transformModelsLoop_eq]
  · intro h
    rw [transformModelsLoop_eq]
    simp [getModelMappings, h, GoMap.lookup]
  · intro name
    exact lookup_isSome_iff_mem_keys _ name
  all_goals
    unfold getModelMappings
    split <;> decide

/-- Witness of C6: with the pair (aws, gcp) the model of the transformer test
produces no change. -/
theorem transformModels_spec_witness :
    ∃ m, transformModels ⟨"aws", "gcp", "", false⟩
        ⟨testProject, [], [], [], []⟩ = .ok m ∧ m.Changes = [] := by
  obtain ⟨⟨m, h1, -, -, -, -, -, h2⟩, -⟩ :=
    transformModels_spec ⟨"aws", "gcp", "", false⟩ ⟨testProject, [], [], [], []⟩
  exact ⟨m, h1, h2 (by decide)⟩

/-! ## The source file rewrite -/

theorem transformGoFile_ok (t : Config) (sourceFile : SourceFile) :
    ∃ content, transformGoFile t sourceFile = .ok (content,
      [{ Type_ := "import", Description := "Added " ++ t.TargetProvider ++ " imports",
         File := sourceFile.Path, OldValue := "", NewValue := "" }]) :=
  ⟨_, rfl⟩

theorem transformSourceFilesLoop_spec (t : Config) (visit : List (String × SourceFile))
    (hwf : GoMap.WF visit) (migration : Migration) :
    ∃ m, transformSourceFilesLoop t visit migration = .ok m ∧
      m.Changes = migration.Changes ++
        (visit.filter (fun e => e.2.HasGenKit)).map (fun e =>
          { Type_ := "import", Description := "Added " ++ t.TargetProvider ++ " imports",
            File := e.2.Path, OldValue := "", NewValue := "" }) ∧
      m.Project = migration.Project ∧
      m.DeleteFiles = migration.DeleteFiles ∧ m.Commands = migration.Commands ∧
      (∀ k sf content changes, (k, sf) ∈ visit → sf.HasGenKit = true →
        transformGoFile t sf = .ok (content, changes) →
        GoMap.lookup m.NewFiles k = some content) ∧
      (∀ k, (∀ sf, (k, sf) ∈ visit → sf.HasGenKit = false) →
        GoMap.lookup m.NewFiles k = GoMap.lookup migration.NewFiles k) := by
  induction visit generalizing migration with
  | nil => exact ⟨migration, rfl, by simp, rfl, rfl, rfl, by simp, fun _ _ => rfl⟩
  | cons e rest ih =>
    obtain ⟨filePath, sourceFile⟩ := e
    have hnd : filePath ∉ GoMap.keys rest ∧ GoMap.WF rest := by
      simpa [GoMap.WF, GoMap.keys] using hwf
    have hnot : ∀ sf, (filePath, sf) ∉ rest := fun sf hmem =>
      hnd.1 (List.mem_map.mpr ⟨(filePath, sf), hmem, rfl⟩)
    by_cases hflag : sourceFile.HasGenKit = true
    · obtain ⟨content, hcontent⟩ := transformGoFile_ok t sourceFile
      obtain ⟨m, hm, hch, hp, hd, hc, ha, hb⟩ := ih hnd.2
        { migration with
          NewFiles := GoMap.insert migration.NewFiles filePath content
          Changes := migration.Changes ++
            [{ Type_ := "import", Description := "Added " ++ t.TargetProvider ++ " imports",
               File := sourceFile.Path, OldValue := "", NewValue := "" }] }
      refine ⟨m, ?_, ?_, hp, hd, hc, ?_, ?_⟩
      · simp only [transformSourceFilesLoop, hflag, hcontent]
        simpa using hm
      · rw [hch]
        simp [List.filter_cons, hflag]
      · intro k sf c chs hmem hsf htr
        rcases List.mem_cons.mp hmem with h | h
        · cases h
          rw [hb filePath (fun sf hmem => absurd hmem (hnot sf))]
          rw [hcontent] at htr
          cases htr
          exact GoMap.lookup_insert_self _ _ _
        · exact ha k sf c chs h hsf htr
      · intro k hk
        have hne : filePath ≠ k := by
          intro e
          subst e
          have := hk sourceFile (List.mem_cons_self _ _)
          simp [hflag] at this
        rw [hb k (fun sf hmem => hk sf (List.mem_cons_of_mem _ hmem))]
        exact GoMap.lookup_insert_ne _ _ hne
    · have hflag' : sourceFile.HasGenKit = false := by simpa using hflag
      obtain ⟨m, hm, hch, hp, hd, hc, ha, hb⟩ := ih hnd.2 migration
      refine ⟨m, ?_, ?_, hp, hd, hc, ?_, ?_⟩
      · simp only [transformSourceFilesLoop, hflag']
        simpa using hm
      · rw [hch]
        simp [List.filter_cons, hflag']
      · intro k sf c chs hmem hsf htr
        rcases List.mem_cons.mp hmem with h | h
        · cases h
          simp [hflag'] at hsf
        · exact ha k sf c chs h hsf htr
      · intro k hk
        exact hb k (fun sf hmem => hk sf (List.mem_cons_of_mem _ hmem))

/-- C7: for every project and every order in which the range statement visits
`Project.Files`, `transformSourceFiles` succeeds, appends exactly one Change of
type "import" for each entry whose `HasGenKit` flag is true (and nothing else)
and stores the content `transformGoFile` generates for that entry in
`NewFiles` under the entry's map key, whatever the entry's Flows and Models
are: `transformGoFile` always returns content and one change.  A key none of
whose entries is flagged keeps the `NewFiles` value it had, if any. -/
theorem transformSourceFiles_spec (t : Config) (migration : Migration)
    (visit : List (String × SourceFile)) (hwf : GoMap.WF migration.Project.Files)
    (hvisit : RangeOrder migration.Project.Files visit) :
    (∃ m, transformSourceFiles t visit migration = .ok m ∧
      (∃ appended, m.Changes = migration.Changes ++ appended ∧
        (∀ c ∈ appended, c.Type_ = "import") ∧
        appended.length
          = (migration.Project.Files.filter (fun e => e.2.HasGenKit)).length ∧
        appended.Perm
          ((migration.Project.Files.filter (fun e => e.2.HasGenKit)).map (fun e =>
            { Type_ := "import", Description := "Added " ++ t.TargetProvider ++ " imports",
              File := e.2.Path, OldValue := "", NewValue := "" }))) ∧
      (∀ k sf content changes, (k, sf) ∈ migration.Project.Files → sf.HasGenKit = true →
        transformGoFile t sf = .ok (content, changes) →
        GoMap.lookup m.NewFiles k = some content) ∧
      (∀ k, (∀ sf, (k, sf) ∈ migration.Project.Files → sf.HasGenKit = false) →
        GoMap.lookup m.NewFiles k = GoMap.lookup migration.NewFiles k)) ∧
    (∀ sf : SourceFile, ∃ content, transformGoFile t sf = .ok (content,
      [{ Type_ := "import", Description := "Added " ++ t.TargetProvider ++ " imports",
         File := sf.Path, OldValue := "", NewValue := "" }])) := by
  refine ⟨?_, transformGoFile_ok t⟩
  obtain ⟨m, hm, hch, -, -, -, ha, hb⟩ :=
    transformSourceFilesLoop_spec t visit (hvisit.wf hwf) migration
  refine ⟨m, hm, ⟨_, hch, ?_, ?_, ?_⟩, ?_, ?_⟩
  · intro c hc
    obtain ⟨e, -, rfl⟩ := List.mem_map.mp hc
    rfl
  · rw [List.length_map]
    exact (List.Perm.filter _ hvisit).length_eq
  · exact (List.Perm.filter _ hvisit).map _
  · intro k sf content changes hmem
    exact ha k sf content changes ((hvisit.mem_iff _).mpr hmem)
  · intro k hk
    exact hb k (fun sf hmem => hk sf ((hvisit.mem_iff _).mp hmem))

/-- Witness of C7: a flagged file without flows and models, and a file that is
not flagged. -/
theorem transformSourceFiles_spec_witness :
    ∃ m, transformSourceFiles testConfig
        [("a.go", ⟨"/p/a.go", "main", [], [], [], true⟩),
         ("b.go", ⟨"/p/b.go", "main", [], [], [], false⟩)]
        ⟨{ testProject with Files :=
            [("a.go", ⟨"/p/a.go", "main", [], [], [], true⟩),
             ("b.go", ⟨"/p/b.go", "main", [], [], [], false⟩)] }, [], [], [], []⟩ = .ok m ∧
      GoMap.lookup m.NewFiles "b.go" = none := by
  obtain ⟨⟨m, hm, -, -, hb⟩, -⟩ := transformSourceFiles_spec testConfig
    ⟨{ testProject with Files :=
        [("a.go", ⟨"/p/a.go", "main", [], [], [], true⟩),
         ("b.go", ⟨"/p/b.go", "main", [], [], [], false⟩)] }, [], [], [], []⟩
    [("a.go", ⟨"/p/a.go", "main", [], [], [], true⟩),
     ("b.go", ⟨"/p/b.go", "main", [], [], [], false⟩)]
    (by decide) (List.Perm.refl _)
  refine ⟨m, hm, ?_⟩
  rw [hb "b.go" (by
    intro sf h
    simp at h
    rw [h])]
  rfl

/-! ## The whole pipeline -/

theorem TransformProject_decompose (t : Config) (project : Project)
    (depsVisit : List (String × String)) (filesVisit : List (String × SourceFile))
    (hwf : GoMap.WF filesVisit) :
    ∃ goMod m2 m,
      executeGoModTemplate (extractModuleName project) "1.23" t.TargetProvider
        (filterDependencies depsVisit) = .ok goMod ∧
      transformSourceFilesLoop t filesVisit
        ⟨project,
         [{ Type_ := "dependency", Description := "Updated dependencies for " ++ t.TargetProvider,
            File := "go.mod", OldValue := "", NewValue := "" }],
         [("go.mod", goMod)], [], []⟩ = .ok m2 ∧
      TransformProject t project depsVisit filesVisit = .ok m ∧
      m.Project = project ∧
      m.Changes = m2.Changes ++ project.Models.filterMap (fun model =>
        (GoMap.lookup (getModelMappings t) model.Name).map (fun newModel =>
          { Type_ := "model",
            Description := "Map model " ++ model.Name ++ " -> " ++ newModel,
            File := model.Position.Filename, OldValue := "", NewValue := "" })) ∧
      (t.TargetProvider = "aws" → ∃ config,
        executeConfigTemplate (extractProjectName project) = .ok config ∧
        m.NewFiles =
          GoMap.insert (GoMap.insert (GoMap.insert (GoMap.insert (GoMap.insert m2.NewFiles
            "config.yaml" config) "terraform/main.tf" terraformMain)
            "terraform/variables.tf" terraformVars) "Dockerfile" dockerfile)
            ".github/workflows/deploy.yml" workflow) ∧
      (t.TargetProvider ≠ "aws" → m.NewFiles = m2.NewFiles) := by
  obtain ⟨goMod, hgo⟩ : ∃ g, executeGoModTemplate (extractModuleName project) "1.23"
      t.TargetProvider (filterDependencies depsVisit) = .ok g := ⟨_, rfl⟩
  obtain ⟨m2, hm2, -, hp, -, -, -, -⟩ := transformSourceFilesLoop_spec t filesVisit hwf
    ⟨project,
     [{ Type_ := "dependency", Description := "Updated dependencies for " ++ t.TargetProvider,
        File := "go.mod", OldValue := "", NewValue := "" }],
     [("go.mod", goMod)], [], []⟩
  have hp' : m2.Project = project := hp
  have hdeps : transformDependencies t depsVisit
      { Project := project, Changes := [], NewFiles := [], DeleteFiles := [], Commands := [] }
      = .ok ⟨project,
         [{ Type_ := "dependency",
            Description := "Updated dependencies for " ++ t.TargetProvider,
            File := "go.mod", OldValue := "", NewValue := "" }],
         [("go.mod", goMod)], [], []⟩ := by
    simp only [transformDependencies, hgo]
    rfl
  have hrun : TransformProject t project depsVisit filesVisit =
      (match transformConfiguration t
          (transformModelsLoop (getModelMappings t) m2.Project.Models m2) with
        | .error err => .error ("failed to transform configuration: " ++ err)
        | .ok migration =>
            match generateDeploymentFiles t migration with
            | .error err => .error ("failed to generate deployment files: " ++ err)
            | .ok migration => .ok migration) := by
    unfold TransformProject
    simp only [hdeps]
    rw [show transformSourceFiles t filesVisit _ = .ok m2 from hm2]
    rfl
  by_cases haws : t.TargetProvider = "aws"
  · obtain ⟨config, hconfig⟩ : ∃ c, executeConfigTemplate (extractProjectName project) = .ok c :=
      ⟨_, rfl⟩
    refine ⟨goMod, m2,
      { transformModelsLoop (getModelMappings t) m2.Project.Models m2 with
        NewFiles := GoMap.insert (GoMap.insert (GoMap.insert (GoMap.insert (GoMap.insert
          (transformModelsLoop (getModelMappings t) m2.Project.Models m2).NewFiles
          "config.yaml" config) "terraform/main.tf" terraformMain)
          "terraform/variables.tf" terraformVars) "Dockerfile" dockerfile)
          ".github/workflows/deploy.yml" workflow },
      hgo, hm2, ?_, ?_, ?_, ?_, ?_⟩
    · rw [hrun]
      have hconfig' : executeConfigTemplate (extractProjectName
          (transformModelsLoop (getModelMappings t) m2.Project.Models m2).Project)
          = .ok config := hconfig
      simp only [transformConfiguration, haws, if_true, hconfig',
        generateDeploymentFiles, generateTerraform, generateDockerfile, generateGitHubActions]
    · simp [transformModelsLoop_eq, hp']
    · simp [transformModelsLoop_eq, hp']
    · intro _
      exact ⟨config, hconfig, by simp [transformModelsLoop_eq]⟩
    · intro h
      exact absurd haws h
  · refine ⟨goMod, m2, transformModelsLoop (getModelMappings t) m2.Project.Models m2, hgo, hm2,
      ?_, ?_, ?_, ?_, ?_⟩
    · rw [hrun]
      simp only [transformConfiguration, haws, if_false, generateDeploymentFiles]
    · simp [transformModelsLoop_eq, hp']
    · simp [transformModelsLoop_eq, hp']
    · intro h
      exact absurd h haws
    · intro _
      simp [transformModelsLoop_eq]

theorem TransformProject_newFiles_not_aws (t : Config) (project : Project)
    (depsVisit : List (String × String)) (filesVisit : List (String × SourceFile))
    (hwf : GoMap.WF filesVisit) (haws : t.TargetProvider ≠ "aws") :
    ∃ m, TransformProject t project depsVisit filesVisit = .ok m ∧
      ∀ k, GoMap.contains m.NewFiles k = true ↔
        k = "go.mod" ∨ ∃ sf, (k, sf) ∈ filesVisit ∧ sf.HasGenKit = true := by
  obtain ⟨goMod, m2, m, -, hm2, hm, -, -, -, hnf⟩ :=
    TransformProject_decompose t project depsVisit filesVisit hwf
  obtain ⟨m2', hm2', -, -, -, -, ha, hb⟩ := transformSourceFilesLoop_spec t filesVisit hwf
    ⟨project,
     [{ Type_ := "dependency", Description := "Updated dependencies for " ++ t.TargetProvider,
        File := "go.mod", OldValue := "", NewValue := "" }],
     [("go.mod", goMod)], [], []⟩
  have heq : m2' = m2 := by
    rw [hm2] at hm2'
    cases hm2'
    rfl
  subst heq
  refine ⟨m, hm, ?_⟩
  intro k
  rw [hnf haws]
  unfold GoMap.contains
  by_cases hex : ∃ sf, (k, sf) ∈ filesVisit ∧ sf.HasGenKit = true
  · obtain ⟨sf, hmem, hflag⟩ := hex
    obtain ⟨content, hcontent⟩ := transformGoFile_ok t sf
    rw [ha k sf content _ hmem hflag hcontent]
    simp only [Option.isSome_some, true_iff]
    exact Or.inr ⟨sf, hmem, hflag⟩
  · have hall : ∀ sf, (k, sf) ∈ filesVisit → sf.HasGenKit = false := by
      intro sf hmem
      by_contra hcon
      exact hex ⟨sf, hmem, by simpa using hcon⟩
    rw [hb k hall]
    by_cases hk : k = "go.mod"
    · subst hk
      simp [GoMap.lookup]
    · have hk' : ¬ "go.mod" = k := fun e => hk e.symm
      simp [GoMap.lookup, hk, hk', hex]

/-- C8: for every project none of whose file keys is "config.yaml",
"terraform/main.tf", "terraform/variables.tf", "Dockerfile" or
".github/workflows/deploy.yml", and every run of `TransformProject` on it: the
call succeeds; when the target provider is "aws" its `NewFiles` contains all
five paths; when the target provider is anything else it contains none of
them, its keys being "go.mod" and the keys of the flagged source files. -/
theorem TransformProject_deployment_files (t : Config) (project : Project)
    (depsVisit : List (String × String)) (filesVisit : List (String × SourceFile))
    (hwf : GoMap.WF project.Files) (hrun : IsRun project depsVisit filesVisit)
    (hkeys : ∀ k ∈ ["config.yaml", "terraform/main.tf", "terraform/variables.tf", "Dockerfile",
      ".github/workflows/deploy.yml"], k ∉ GoMap.keys project.Files) :
    ∃ m, TransformProject t project depsVisit filesVisit = .ok m ∧
      (t.TargetProvider = "aws" →
        ∀ k ∈ ["config.yaml", "terraform/main.tf", "terraform/variables.tf", "Dockerfile",
          ".github/workflows/deploy.yml"], GoMap.contains m.NewFiles k = true) ∧
      (t.TargetProvider ≠ "aws" →
        (∀ k ∈ ["config.yaml", "terraform/main.tf", "terraform/variables.tf", "Dockerfile",
          ".github/workflows/deploy.yml"], GoMap.contains m.NewFiles k = false) ∧
        ∀ k, GoMap.contains m.NewFiles k = true ↔
          k = "go.mod" ∨ ∃ sf, (k, sf) ∈ project.Files ∧ sf.HasGenKit = true) := by
  have hwf' : GoMap.WF filesVisit := hrun.2.wf hwf
  obtain ⟨goMod, m2, m, -, -, hm, -, -, haws, -⟩ :=
    TransformProject_decompose t project depsVisit filesVisit hwf'
  refine ⟨m, hm, ?_, ?_⟩
  · intro h k hk
    obtain ⟨config, -, hnf⟩ := haws h
    rw [hnf]
    simp only [List.mem_cons, List.mem_singleton, List.not_mem_nil, or_false] at hk
    rcases hk with rfl | rfl | rfl | rfl | rfl <;> simp [GoMap.contains_insert]
  · intro h
    obtain ⟨m', hm', hiff⟩ :=
      TransformProject_newFiles_not_aws t project depsVisit filesVisit hwf' h
    have heq : m' = m := by
      rw [hm] at hm'
      cases hm'
      rfl
    subst heq
    have hiff' : ∀ k, GoMap.contains m'.NewFiles k = true ↔
        k = "go.mod" ∨ ∃ sf, (k, sf) ∈ project.Files ∧ sf.HasGenKit = true := by
      intro k
      rw [hiff k]
      constructor
      · rintro (h1 | ⟨sf, h2, h3⟩)
        · exact Or.inl h1
        · exact Or.inr ⟨sf, (hrun.2.mem_iff _).mp h2, h3⟩
      · rintro (h1 | ⟨sf, h2, h3⟩)
        · exact Or.inl h1
        · exact Or.inr ⟨sf, (hrun.2.mem_iff _).mpr h2, h3⟩
    refine ⟨?_, hiff'⟩
    intro k hk
    have hnot : ¬ GoMap.contains m'.NewFiles k = true := by
      rw [hiff' k]
      rintro (h1 | ⟨sf, h2, -⟩)
      · subst h1
        simp at hk
      · exact hkeys k hk (List.mem_map.mpr ⟨(k, sf), h2, rfl⟩)
    simpa using hnot

/-- Witness of C8: the project of the transformer test, target "aws". -/
theorem TransformProject_deployment_files_witness :
    (∃ m, TransformProject testConfig testProject testProject.Dependencies testProject.Files
        = .ok m ∧
      GoMap.contains m.NewFiles "terraform/variables.tf" = true ∧
      GoMap.contains m.NewFiles ".github/workflows/deploy.yml" = true) ∧
    (∃ m, TransformProject ⟨"gcp", "azure", "", false⟩ testProject testProject.Dependencies
        testProject.Files = .ok m ∧
      GoMap.contains m.NewFiles "config.yaml" = false ∧
      GoMap.contains m.NewFiles "Dockerfile" = false) := by
  constructor
  · obtain ⟨m, hm, haws, -⟩ := TransformProject_deployment_files testConfig testProject
      testProject.Dependencies testProject.Files (by decide)
      ⟨List.Perm.refl _, List.Perm.refl _⟩ (by decide)
    exact ⟨m, hm, haws rfl _ (by simp), haws rfl _ (by simp)⟩
  · obtain ⟨m, hm, -, hother⟩ := TransformProject_deployment_files ⟨"gcp", "azure", "", false⟩
      testProject testProject.Dependencies testProject.Files (by decide)
      ⟨List.Perm.refl _, List.Perm.refl _⟩ (by decide)
    exact ⟨m, hm, (hother (by decide)).1 _ (by simp), (hother (by decide)).1 _ (by simp)⟩

theorem TransformProject_congr_deps (t : Config) (project : Project)
    (depsVisit₁ depsVisit₂ : List (String × String)) (filesVisit : List (String × SourceFile))
    (h : filterDependencies depsVisit₁ = filterDependencies depsVisit₂) :
    TransformProject t project depsVisit₁ filesVisit
      = TransformProject t project depsVisit₂ filesVisit := by
  unfold TransformProject transformDependencies
  rw [h]

/-- C4: every run of `TransformProject` on the project of
`TestTransformProject` (file "main.go" of package main, model
"googleai/gemini-1.5-pro", source gcp, target aws) succeeds; its Changes are
one change of type "dependency", one of type "import" and one of type "model"
with description
"Map model googleai/gemini-1.5-pro -> anthropic.claude-3-sonnet-20240229-v1:0",
and its NewFiles has entries for "go.mod", "main.go", "config.yaml",
"terraform/main.tf" and "Dockerfile". -/
theorem TransformProject_testProject (depsVisit : List (String × String))
    (filesVisit : List (String × SourceFile))
    (hrun : IsRun testProject depsVisit filesVisit) :
    ∃ m, TransformProject testConfig testProject depsVisit filesVisit = .ok m ∧
      m.Changes =
        [{ Type_ := "dependency", Description := "Updated dependencies for aws",
           File := "go.mod", OldValue := "", NewValue := "" },
         { Type_ := "import", Description := "Added aws imports",
           File := "/tmp/test-source/main.go", OldValue := "", NewValue := "" },
         { Type_ := "model",
           Description :=
             "Map model googleai/gemini-1.5-pro -> anthropic.claude-3-sonnet-20240229-v1:0",
           File := "", OldValue := "", NewValue := "" }] ∧
      (m.Changes.filter (fun c => c.Type_ = "dependency")).length = 1 ∧
      (m.Changes.filter (fun c => c.Type_ = "import")).length = 1 ∧
      (m.Changes.filter (fun c => c.Type_ = "model")).length = 1 ∧
      (∀ k ∈ ["go.mod", "main.go", "config.yaml", "terraform/main.tf", "Dockerfile"],
        GoMap.contains m.NewFiles k = true) := by
  have hfiles : filesVisit = testProject.Files := List.perm_singleton.mp hrun.2
  have hdeps : filterDependencies depsVisit = filterDependencies testProject.Dependencies := by
    have hperm := filterDependencies_perm hrun.1
    have hone : filterDependencies testProject.Dependencies
        = [[("Name", "github.com/spf13/cobra"), ("Version", "v1.8.1")]] := by decide
    rw [hone] at hperm ⊢
    exact List.perm_singleton.mp hperm
  rw [TransformProject_congr_deps testConfig testProject depsVisit testProject.Dependencies
    filesVisit hdeps, hfiles]
  refine ⟨_, rfl, ?_, ?_, ?_, ?_, ?_⟩ <;> decide

/-- Witness of C4: the run that visits both maps in the order of the test's
map literals. -/
theorem TransformProject_testProject_witness :
    ∃ m, TransformProject testConfig testProject testProject.Dependencies testProject.Files
        = .ok m ∧
      (m.Changes.filter (fun c => c.Type_ = "model")).length = 1 ∧
      GoMap.contains m.NewFiles "main.go" = true := by
  obtain ⟨m, hm, -, -, -, h3, h4⟩ := TransformProject_testProject testProject.Dependencies
    testProject.Files ⟨List.Perm.refl _, List.Perm.refl _⟩
  exact ⟨m, hm, h3, h4 _ (by simp)⟩

theorem TransformProject_newFiles_off_goMod (t : Config) (project : Project)
    (depsVisit₁ depsVisit₂ : List (String × String))
    (filesVisit₁ filesVisit₂ : List (String × SourceFile))
    (hwf : GoMap.WF project.Files)
    (hrun₁ : IsRun project depsVisit₁ filesVisit₁)
    (hrun₂ : IsRun project depsVisit₂ filesVisit₂) :
    ∃ m₁ m₂, TransformProject t project depsVisit₁ filesVisit₁ = .ok m₁ ∧
      TransformProject t project depsVisit₂ filesVisit₂ = .ok m₂ ∧
      (∀ k, k ≠ "go.mod" → GoMap.lookup m₁.NewFiles k = GoMap.lookup m₂.NewFiles k) ∧
      GoMap.contains m₁.NewFiles "go.mod" = true ∧
      GoMap.contains m₂.NewFiles "go.mod" = true := by
  have hwf₁ : GoMap.WF filesVisit₁ := hrun₁.2.wf hwf
  have hwf₂ : GoMap.WF filesVisit₂ := hrun₂.2.wf hwf
  obtain ⟨g₁, a₁, m₁, -, ha₁, hm₁, -, -, haws₁, hnot₁⟩ :=
    TransformProject_decompose t project depsVisit₁ filesVisit₁ hwf₁
  obtain ⟨g₂, a₂, m₂, -, ha₂, hm₂, -, -, haws₂, hnot₂⟩ :=
    TransformProject_decompose t project depsVisit₂ filesVisit₂ hwf₂
  obtain ⟨b₁, hb₁, -, -, -, -, hin₁, hout₁⟩ := transformSourceFilesLoop_spec t filesVisit₁ hwf₁
    ⟨project,
     [{ Type_ := "dependency", Description := "Updated dependencies for " ++ t.TargetProvider,
        File := "go.mod", OldValue := "", NewValue := "" }],
     [("go.mod", g₁)], [], []⟩
  obtain ⟨b₂, hb₂, -, -, -, -, hin₂, hout₂⟩ := transformSourceFilesLoop_spec t filesVisit₂ hwf₂
    ⟨project,
     [{ Type_ := "dependency", Description := "Updated dependencies for " ++ t.TargetProvider,
        File := "go.mod", OldValue := "", NewValue := "" }],
     [("go.mod", g₂)], [], []⟩
  have e₁ : b₁ = a₁ := by
    rw [ha₁] at hb₁
    cases hb₁
    rfl
  have e₂ : b₂ = a₂ := by
    rw [ha₂] at hb₂
    cases hb₂
    rfl
  subst e₁ e₂
  have hbase : ∀ k, k ≠ "go.mod" →
      GoMap.lookup b₁.NewFiles k = GoMap.lookup b₂.NewFiles k := by
    intro k hk
    by_cases hex : ∃ sf, (k, sf) ∈ project.Files ∧ sf.HasGenKit = true
    · obtain ⟨sf, hmem, hflag⟩ := hex
      obtain ⟨content, hcontent⟩ := transformGoFile_ok t sf
      rw [hin₁ k sf content _ ((hrun₁.2.mem_iff _).mpr hmem) hflag hcontent,
        hin₂ k sf content _ ((hrun₂.2.mem_iff _).mpr hmem) hflag hcontent]
    · have hall : ∀ (visit : List (String × SourceFile)), RangeOrder project.Files visit →
          ∀ sf, (k, sf) ∈ visit → sf.HasGenKit = false := by
        intro visit hv sf hmem
        by_contra hcon
        exact hex ⟨sf, (hv.mem_iff _).mp hmem, by simpa using hcon⟩
      have hk' : ¬ "go.mod" = k := fun e => hk e.symm
      rw [hout₁ k (hall _ hrun₁.2), hout₂ k (hall _ hrun₂.2)]
      simp [GoMap.lookup, hk']
  have hgo : ∀ (b : Migration) (visit : List (String × SourceFile)) (g : String),
      (∀ k sf content changes, (k, sf) ∈ visit → sf.HasGenKit = true →
        transformGoFile t sf = .ok (content, changes) →
        GoMap.lookup b.NewFiles k = some content) →
      (∀ k, (∀ sf, (k, sf) ∈ visit → sf.HasGenKit = false) →
        GoMap.lookup b.NewFiles k = GoMap.lookup [("go.mod", g)] k) →
      GoMap.contains b.NewFiles "go.mod" = true := by
    intro b visit g hin hout
    unfold GoMap.contains
    by_cases hex : ∃ sf, ("go.mod", sf) ∈ visit ∧ sf.HasGenKit = true
    · obtain ⟨sf, hmem, hflag⟩ := hex
      obtain ⟨content, hcontent⟩ := transformGoFile_ok t sf
      rw [hin _ sf content _ hmem hflag hcontent]
      rfl
    · rw [hout "go.mod" (fun sf hmem => by
        by_contra hcon
        exact hex ⟨sf, hmem, by simpa using hcon⟩)]
      simp [GoMap.lookup]
  have hgo₁ := hgo b₁ filesVisit₁ g₁ hin₁ hout₁
  have hgo₂ := hgo b₂ filesVisit₂ g₂ hin₂ hout₂
  refine ⟨m₁, m₂, hm₁, hm₂, ?_, ?_, ?_⟩
  · intro k hk
    by_cases haws : t.TargetProvider = "aws"
    · obtain ⟨c₁, hc₁, hn₁⟩ := haws₁ haws
      obtain ⟨c₂, hc₂, hn₂⟩ := haws₂ haws
      have hc : c₁ = c₂ := by
        rw [hc₁] at hc₂
        cases hc₂
        rfl
      subst hc
      rw [hn₁, hn₂]
      simp only [GoMap.lookup_insert, hbase k hk]
    · rw [hnot₁ haws, hnot₂ haws]
      exact hbase k hk
  · by_cases haws : t.TargetProvider = "aws"
    · obtain ⟨c₁, -, hn₁⟩ := haws₁ haws
      rw [hn₁]
      simp [GoMap.contains_insert, hgo₁]
    · rw [hnot₁ haws]
      exact hgo₁
  · by_cases haws : t.TargetProvider = "aws"
    · obtain ⟨c₂, -, hn₂⟩ := haws₂ haws
      rw [hn₂]
      simp [GoMap.contains_insert, hgo₂]
    · rw [hnot₂ haws]
      exact hgo₂

/-! ## Dependence of the manifest on the visiting order -/

/-- C5 (the code at a failing input): two runs of `TransformProject` on one
project with the dependencies "github.com/spf13/cobra" and "gopkg.in/yaml.v3"
and one configuration, which differ only in the order in which the range
statement of `filterDependencies` visits the dependency map, both succeed and
store different texts under "go.mod". -/
theorem TransformProject_goMod_depends_on_visit_order :
    IsRun twoDepsProject
      [("github.com/spf13/cobra", "v1.8.1"), ("gopkg.in/yaml.v3", "v3.0.1")]
      twoDepsProject.Files ∧
    IsRun twoDepsProject
      [("gopkg.in/yaml.v3", "v3.0.1"), ("github.com/spf13/cobra", "v1.8.1")]
      twoDepsProject.Files ∧
    ∃ m₁ m₂,
      TransformProject testConfig twoDepsProject
        [("github.com/spf13/cobra", "v1.8.1"), ("gopkg.in/yaml.v3", "v3.0.1")]
        twoDepsProject.Files = .ok m₁ ∧
      TransformProject testConfig twoDepsProject
        [("gopkg.in/yaml.v3", "v3.0.1"), ("github.com/spf13/cobra", "v1.8.1")]
        twoDepsProject.Files = .ok m₂ ∧
      GoMap.lookup m₁.NewFiles "go.mod" = some
        ("module genkit-app\n\ngo 1.23\n\nrequire (\n" ++
         "\tgithub.com/firebase/genkit/go v1.0.2\n" ++
         "\tgithub.com/scttfrdmn/genkit-aws v0.1.0\n" ++
         "\tgithub.com/spf13/cobra v1.8.1\n" ++
         "\tgopkg.in/yaml.v3 v3.0.1\n)\n") ∧
      GoMap.lookup m₂.NewFiles "go.mod" = some
        ("module genkit-app\n\ngo 1.23\n\nrequire (\n" ++
         "\tgithub.com/firebase/genkit/go v1.0.2\n" ++
         "\tgithub.com/scttfrdmn/genkit-aws v0.1.0\n" ++
         "\tgopkg.in/yaml.v3 v3.0.1\n" ++
         "\tgithub.com/spf13/cobra v1.8.1\n)\n") ∧
      GoMap.lookup m₁.NewFiles "go.mod" ≠ GoMap.lookup m₂.NewFiles "go.mod" := by
  refine ⟨⟨List.Perm.refl _, List.Perm.refl _⟩, ⟨List.Perm.swap _ _ _, List.Perm.refl _⟩,
    _, _, rfl, rfl, ?_, ?_, ?_⟩ <;> decide

/-! ## Lemmas on `strings.Contains` -/

theorem startsWith_append (p r : List Char) : startsWith (p ++ r) p = true := by
  induction p with
  | nil => cases r <;> rfl
  | cons c p ih => simp [startsWith, ih]

theorem startsWith_iff (s p : List Char) : startsWith s p = true ↔ ∃ r, s = p ++ r := by
  induction p generalizing s with
  | nil =>
    constructor
    · intro _
      exact ⟨s, rfl⟩
    · intro _
      cases s <;> rfl
  | cons c p ih =>
    cases s with
    | nil => simp [startsWith]
    | cons d s =>
      simp only [startsWith, Bool.and_eq_true, beq_iff_eq, ih, List.cons_append, List.cons.injEq]
      constructor
      · rintro ⟨h, r, hr⟩
        exact ⟨r, h, hr⟩
      · rintro ⟨r, h, hr⟩
        exact ⟨h, r, hr⟩

theorem containsChars_iff (s p : List Char) :
    containsChars s p = true ↔ ∃ l r, s = l ++ p ++ r := by
  induction s with
  | nil =>
    simp only [containsChars, startsWith_iff]
    constructor
    · rintro ⟨r, hr⟩
      exact ⟨[], r, by simpa using hr⟩
    · rintro ⟨l, r, h⟩
      have h' := h.symm
      simp only [List.append_eq_nil] at h'
      exact ⟨[], by simp [h'.1.2]⟩
  | cons c s ih =>
    simp only [containsChars, Bool.or_eq_true, startsWith_iff, ih]
    constructor
    · rintro (⟨r, hr⟩ | ⟨l, r, hr⟩)
      · exact ⟨[], r, by simpa using hr⟩
      · exact ⟨c :: l, r, by simp [hr]⟩
    · rintro ⟨l, r, h⟩
      cases l with
      | nil => exact Or.inl ⟨r, by simpa using h⟩
      | cons d l =>
        simp only [List.cons_append, List.cons.injEq] at h
        exact Or.inr ⟨l, r, h.2⟩

theorem strContains_of_eq {s a b c : String} (h : s = a ++ b ++ c) :
    strContains s b = true := by
  unfold strContains
  rw [containsChars_iff]
  exact ⟨a.data, c.data, by rw [h]; simp [String.data_append]⟩

theorem strContains_mono (s a b c : String) (h : strContains s (a ++ b ++ c) = true) :
    strContains s b = true := by
  unfold strContains at *
  rw [containsChars_iff] at *
  obtain ⟨l, r, hs⟩ := h
  refine ⟨l ++ a.data, c.data ++ r, ?_⟩
  rw [hs]
  simp [String.data_append, List.append_assoc]

/-! ## The name recorded for a flow -/

/-- C11 (the code at failing inputs): for the matching call
genkit.DefineFlow(RAW, fn), where RAW is the raw string literal summarize
between two backquotes, the Flow recorded has the backquotes in its name; and
for the interpreted literal whose text between the delimiters is the letter a,
a backslash and a double quote, the name recorded is the letter a and the
backslash, one character short; the flow of the analyzer test, named by the
interpreted literal "summarize", is recorded as summarize. -/
theorem extractFlow_name_at_raw_and_escaped_literals :
    (extractFlow ⟨.selector (.ident 1 "genkit") 8 "DefineFlow",
        [.basicLit 19 .STRING "\x60summarize\x60", .ident 32 "fn"]⟩
        (fun p => ⟨"main.go", p, 1, p⟩)).map Flow.Name = some "\x60summarize\x60" ∧
    (extractFlow ⟨.selector (.ident 1 "genkit") 8 "DefineFlow",
        [.basicLit 19 .STRING "\"a\\\"\"", .ident 32 "fn"]⟩
        (fun p => ⟨"main.go", p, 1, p⟩)).map Flow.Name = some "a\\" ∧
    (extractFlow ⟨.selector (.ident 1 "genkit") 8 "DefineFlow",
        [.basicLit 19 .STRING "\"summarize\"", .ident 32 "fn"]⟩
        (fun p => ⟨"main.go", p, 1, p⟩)).map Flow.Name = some "summarize" := by
  refine ⟨?_, ?_, ?_⟩ <;> decide

/-! ## The summary document -/

theorem readmeChangeLines_eq (changes : List Change) :
    readmeChangeLines changes = (changes.map (fun change =>
      "- **" ++ change.Type_ ++ "**: " ++ change.Description ++ " (in " ++ change.File
        ++ ")\n")).foldr (fun line acc => line ++ acc) "" := by
  induction changes with
  | nil => rfl
  | cons c cs ih => rw [readmeChangeLines, List.map_cons, List.foldr_cons, ih]

theorem generateReadme_eq (g : GeneratorConfig) (migration : Migration)
    (mappingsVisit : List (String × String)) :
    ∃ pre post, generateReadme g migration mappingsVisit =
      pre ++
      ("- **Source Provider**: " ++ migration.Project.SourceProvider ++ "\n") ++
      ("- **Target Provider**: " ++ g.TargetProvider ++ "\n") ++
      ("- **Flows Found**: " ++ toString migration.Project.Flows.length ++ "\n") ++
      ("- **Models Found**: " ++ toString migration.Project.Models.length ++ "\n") ++
      ("- **Changes Applied**: " ++ toString migration.Changes.length ++ "\n") ++
      "\n" ++
      ("## Changes Made\n" ++ "\n" ++ readmeChangeLines migration.Changes) ++ post := by
  by_cases h : g.TargetProvider = "aws"
  · refine ⟨("# GenKit Migration to " ++ g.TargetProvider ++ "\n" ++ "\n" ++
      "This project has been migrated from " ++ migration.Project.SourceProvider ++ " to " ++
      g.TargetProvider ++ " using genkit-migrate.\n" ++ "\n" ++ "## Migration Summary\n" ++ "\n"),
      readmeAwsSection ++ readmeMappingLines mappingsVisit ++ readmeSupportSection, ?_⟩
    simp only [generateReadme, h, if_true, String.append_assoc]
  · refine ⟨("# GenKit Migration to " ++ g.TargetProvider ++ "\n" ++ "\n" ++
      "This project has been migrated from " ++ migration.Project.SourceProvider ++ " to " ++
      g.TargetProvider ++ " using genkit-migrate.\n" ++ "\n" ++ "## Migration Summary\n" ++ "\n"), "", ?_⟩
    simp only [generateReadme, h, if_false, String.append_empty, String.append_assoc]

theorem strContains_append_left (x y b : String) (h : strContains x b = true) :
    strContains (x ++ y) b = true :=
  strContains_mono (x ++ y) "" b ""
    (by
      unfold strContains at *
      rw [containsChars_iff] at *
      obtain ⟨l, r, hx⟩ := h
      exact ⟨l, r ++ y.data, by simp [String.data_append, hx, List.append_assoc]⟩)

/-- C20: for every Migration (and every configuration of the generator and
visiting order of its model table) the text `generateReadme` builds contains
the lines "- **Source Provider**: s" and "- **Target Provider**: t" for the
source provider of the project and the target provider of the generator,
"- **Flows Found**: n", "- **Models Found**: m" and "- **Changes Applied**: k"
with n, m, k the decimal numbers of flows, models and changes, and under the
heading "Changes Made" one line "- **type**: description (in file)" for each
Change, in the order of Changes. -/
theorem generateReadme_spec (g : GeneratorConfig) (migration : Migration)
    (mappingsVisit : List (String × String)) :
    strContains (generateReadme g migration mappingsVisit)
      ("- **Source Provider**: " ++ migration.Project.SourceProvider ++ "\n") = true ∧
    strContains (generateReadme g migration mappingsVisit)
      ("- **Target Provider**: " ++ g.TargetProvider ++ "\n") = true ∧
    strContains (generateReadme g migration mappingsVisit)
      ("- **Flows Found**: " ++ toString migration.Project.Flows.length ++ "\n") = true ∧
    strContains (generateReadme g migration mappingsVisit)
      ("- **Models Found**: " ++ toString migration.Project.Models.length ++ "\n") = true ∧
    strContains (generateReadme g migration mappingsVisit)
      ("- **Changes Applied**: " ++ toString migration.Changes.length ++ "\n") = true ∧
    strContains (generateReadme g migration mappingsVisit)
      ("## Changes Made\n" ++ "\n" ++ (migration.Changes.map (fun change =>
        "- **" ++ change.Type_ ++ "**: " ++ change.Description ++ " (in " ++ change.File
          ++ ")\n")).foldr (fun line acc => line ++ acc) "") = true ∧
    strContains (generateReadme ⟨"aws", ""⟩ readmeTestMigration readmeModelMappings)
      "Flows Found**: 2" = true ∧
    strContains (generateReadme ⟨"aws", ""⟩ readmeTestMigration readmeModelMappings)
      "Changes Applied**: 2" = true := by
  obtain ⟨pre, post, hpost⟩ := generateReadme_eq g migration mappingsVisit
  rw [← readmeChangeLines_eq, hpost]
  generalize ("- **Source Provider**: " ++ migration.Project.SourceProvider ++ "\n") = l₁
  generalize ("- **Target Provider**: " ++ g.TargetProvider ++ "\n") = l₂
  generalize ("- **Flows Found**: " ++ toString migration.Project.Flows.length ++ "\n") = l₃
  generalize ("- **Models Found**: " ++ toString migration.Project.Models.length ++ "\n") = l₄
  generalize ("- **Changes Applied**: " ++ toString migration.Changes.length ++ "\n") = l₅
  generalize ("## Changes Made\n" ++ "\n" ++ readmeChangeLines migration.Changes) = l₆
  refine ⟨?_, ?_, ?_, ?_, ?_, ?_, by decide, by decide⟩
  · exact strContains_of_eq (a := pre) (c := l₂ ++ l₃ ++ l₄ ++ l₅ ++ "\n" ++ l₆ ++ post)
      (by simp only [String.append_assoc])
  · exact strContains_of_eq (a := pre ++ l₁) (c := l₃ ++ l₄ ++ l₅ ++ "\n" ++ l₆ ++ post)
      (by simp only [String.append_assoc])
  · exact strContains_of_eq (a := pre ++ l₁ ++ l₂) (c := l₄ ++ l₅ ++ "\n" ++ l₆ ++ post)
      (by simp only [String.append_assoc])
  · exact strContains_of_eq (a := pre ++ l₁ ++ l₂ ++ l₃) (c := l₅ ++ "\n" ++ l₆ ++ post)
      (by simp only [String.append_assoc])
  · exact strContains_of_eq (a := pre ++ l₁ ++ l₂ ++ l₃ ++ l₄) (c := "\n" ++ l₆ ++ post)
      (by simp only [String.append_assoc])
  · exact strContains_of_eq (a := pre ++ l₁ ++ l₂ ++ l₃ ++ l₄ ++ l₅ ++ "\n") (c := post)
      (by simp only [String.append_assoc])

/-! ## The manifest line parser -/

theorem analyzeDependenciesLoop_skip (line : String) (rest : List String)
    (dependencies : GoMap String)
    (h : isRequireOrVersionLine (strTrimSpace line) = false) :
    analyzeDependenciesLoop (line :: rest) dependencies
      = analyzeDependenciesLoop rest dependencies := by
  simp [analyzeDependenciesLoop, h]

theorem analyzeDependenciesLoop_lookup (lines : List String) (dependencies : GoMap String)
    (k v : String)
    (h : GoMap.lookup (analyzeDependenciesLoop lines dependencies) k = some v) :
    GoMap.lookup dependencies k = some v ∨
      ∃ line ∈ lines, isRequireOrVersionLine (strTrimSpace line) = true ∧
        ∃ part0 part1 more, strFields (strTrimSpace line) = part0 :: part1 :: more ∧
          k = strTrimSpace (strTrimPrefix part0 "require") ∧ v = part1 := by
  induction lines generalizing dependencies with
  | nil => exact Or.inl h
  | cons line rest ih =>
    by_cases hc : isRequireOrVersionLine (strTrimSpace line) = true
    · cases hf : strFields (strTrimSpace line) with
      | nil =>
        simp only [analyzeDependenciesLoop, hc, if_true, hf] at h
        rcases ih _ h with h' | ⟨l, hl, h'⟩
        · exact Or.inl h'
        · exact Or.inr ⟨l, List.mem_cons_of_mem _ hl, h'⟩
      | cons part0 tail =>
        cases tail with
        | nil =>
          simp only [analyzeDependenciesLoop, hc, if_true, hf] at h
          rcases ih _ h with h' | ⟨l, hl, h'⟩
          · exact Or.inl h'
          · exact Or.inr ⟨l, List.mem_cons_of_mem _ hl, h'⟩
        | cons part1 more =>
          simp only [analyzeDependenciesLoop, hc, if_true, hf] at h
          rcases ih _ h with h' | ⟨l, hl, h'⟩
          · rw [GoMap.lookup_insert] at h'
            by_cases hk : strTrimSpace (strTrimPrefix part0 "require") = k
            · rw [if_pos hk] at h'
              exact Or.inr ⟨line, List.mem_cons_self _ _, hc, part0, part1, more, hf, hk.symm,
                (Option.some.inj h').symm⟩
            · rw [if_neg hk] at h'
              exact Or.inl h'
          · exact Or.inr ⟨l, List.mem_cons_of_mem _ hl, h'⟩
    · have hc' : isRequireOrVersionLine (strTrimSpace line) = false := by simpa using hc
      rw [analyzeDependenciesLoop_skip line rest dependencies hc'] at h
      rcases ih _ h with h' | ⟨l, hl, h'⟩
      · exact Or.inl h'
      · exact Or.inr ⟨l, List.mem_cons_of_mem _ hl, h'⟩

/-- C18 as stated fails: the comment line "// some very old text" neither
begins the require block nor has a version token v<digits>.<digits>.<digits>
after white space, and the loop of `analyzeDependencies` records an entry for
it (the name "//" with the version "some"). -/
theorem analyzeDependencies_records_comment_line :
    ¬ (∀ (line : String) (dependencies : GoMap String),
        analyzeDependenciesLoop [line] dependencies ≠ dependencies →
        specIsDependencyLine line = true) := by
  intro h
  have h1 : analyzeDependenciesLoop ["// some very old text"] [] = [("//", "some")] := by
    decide
  have h2 := h "// some very old text" [] (by rw [h1]; decide)
  revert h2
  decide

/-- C18 as amended: an entry of the dependency map after the loop of
`analyzeDependencies` over the lines of a manifest was either there before or
comes from a line that, with the white space around it trimmed off, begins
with "require " or contains a blank followed by the letter v without
beginning with "module" or "go ", and that has at least two fields (the first
with the keyword stripped is the name, the second the version); every other
line contributes no entry, for example a replace directive without " v". -/
theorem analyzeDependenciesLoop_spec (lines : List String) (dependencies : GoMap String) :
    (∀ k v, GoMap.lookup (analyzeDependenciesLoop lines dependencies) k = some v →
      GoMap.lookup dependencies k = some v ∨
        ∃ line ∈ lines,
          (strHasPrefix (strTrimSpace line) "require " = true ∨
            (strContains (strTrimSpace line) " v" = true ∧
              strHasPrefix (strTrimSpace line) "module" = false ∧
              strHasPrefix (strTrimSpace line) "go " = false)) ∧
          ∃ part0 part1 more, strFields (strTrimSpace line) = part0 :: part1 :: more ∧
            k = strTrimSpace (strTrimPrefix part0 "require") ∧ v = part1) ∧
    (∀ line rest,
      ¬ (strHasPrefix (strTrimSpace line) "require " = true ∨
          (strContains (strTrimSpace line) " v" = true ∧
            strHasPrefix (strTrimSpace line) "module" = false ∧
            strHasPrefix (strTrimSpace line) "go " = false)) →
      analyzeDependenciesLoop (line :: rest) dependencies
        = analyzeDependenciesLoop rest dependencies) ∧
    (∀ line rest, (strFields (strTrimSpace line)).length < 2 →
      analyzeDependenciesLoop (line :: rest) dependencies
        = analyzeDependenciesLoop rest dependencies) ∧
    analyzeDependenciesLoop ["replace example.com/a => ../a"] dependencies = dependencies := by
  have hcond : ∀ line : String, isRequireOrVersionLine line = true ↔
      (strHasPrefix line "require " = true ∨
        (strContains line " v" = true ∧ strHasPrefix line "module" = false ∧
          strHasPrefix line "go " = false)) := by
    intro line
    simp [isRequireOrVersionLine, and_assoc]
  refine ⟨?_, ?_, ?_, ?_⟩
  · intro k v h
    rcases analyzeDependenciesLoop_lookup lines dependencies k v h with h' | ⟨l, hl, hc, h'⟩
    · exact Or.inl h'
    · exact Or.inr ⟨l, hl, (hcond _).mp hc, h'⟩
  · intro line rest hn
    apply analyzeDependenciesLoop_skip
    rw [← Bool.not_eq_true, hcond]
    exact hn
  · intro line rest hlen
    cases hf : strFields (strTrimSpace line) with
    | nil => simp [analyzeDependenciesLoop, hf]
    | cons part0 tail =>
      cases tail with
      | nil => simp [analyzeDependenciesLoop, hf]
      | cons part1 more =>
        rw [hf] at hlen
        simp only [List.length_cons] at hlen
        omega
  · exact analyzeDependenciesLoop_skip _ [] dependencies (by decide)

/-- Witness of C18 as amended: the one entry the parser records for the
manifest of the analyzer test, cut down to its first dependency line, comes
from that line. -/
theorem analyzeDependenciesLoop_spec_witness :
    GoMap.lookup [] "github.com/firebase/genkit/go" = some "v0.5.8" ∨
      ∃ line ∈ ["module test-genkit-app", "go 1.23",
          "    github.com/firebase/genkit/go v0.5.8"],
        (strHasPrefix (strTrimSpace line) "require " = true ∨
          (strContains (strTrimSpace line) " v" = true ∧
            strHasPrefix (strTrimSpace line) "module" = false ∧
            strHasPrefix (strTrimSpace line) "go " = false)) ∧
        ∃ part0 part1 more, strFields (strTrimSpace line) = part0 :: part1 :: more ∧
          "github.com/firebase/genkit/go" = strTrimSpace (strTrimPrefix part0 "require") ∧
          "v0.5.8" = part1 :=
  (analyzeDependenciesLoop_spec
    ["module test-genkit-app", "go 1.23", "    github.com/firebase/genkit/go v0.5.8"] []).1
    "github.com/firebase/genkit/go" "v0.5.8" (by decide)

/-- C19 (the code at a failing input): the go.mod text `transformDependencies`
generates for the project of the transformer test (target aws), parsed by the
line parser of `analyzeDependencies`, gives the three dependencies of its
require block and, before them, an entry with the empty name and the version
"(", recorded for the line "require (". -/
theorem parseManifest_of_generated_goMod :
    ∃ m content,
      transformDependencies testConfig testProject.Dependencies
        ⟨testProject, [], [], [], []⟩ = .ok m ∧
      GoMap.lookup m.NewFiles "go.mod" = some content ∧
      parseManifest content =
        [("", "("), ("github.com/firebase/genkit/go", "v1.0.2"),
         ("github.com/scttfrdmn/genkit-aws", "v0.1.0"), ("github.com/spf13/cobra", "v1.8.1")] ∧
      GoMap.lookup (parseManifest content) "" = some "(" := by
  refine ⟨_, _, rfl, rfl, ?_, ?_⟩ <;> decide

/-! ## The traversal of a file -/

mutual
theorem inspect_parseGoFileVisit (fset : FileSet) :
    ∀ (e : Expr) (sourceFile : SourceFile),
      Expr.inspect (parseGoFileVisit fset) e sourceFile =
        { sourceFile with
          Flows := sourceFile.Flows ++ (Expr.calls e).filterMap (fun c => extractFlow c fset)
          Models := sourceFile.Models ++ (Expr.calls e).filterMap (fun c => extractModel c fset) }
  | .basicLit _ _ _, sourceFile => by simp [Expr.inspect, parseGoFileVisit, Expr.calls]
  | .ident _ _, sourceFile => by simp [Expr.inspect, parseGoFileVisit, Expr.calls]
  | .selector x _ _, sourceFile => by
      simp only [Expr.inspect, parseGoFileVisit, Expr.calls, if_true]
      exact inspect_parseGoFileVisit fset x sourceFile
  | .call fn args, sourceFile => by
      simp only [Expr.inspect, parseGoFileVisit, Expr.calls, if_true]
      rw [inspect_parseGoFileVisit fset fn, inspectList_parseGoFileVisit fset args]
      cases h₁ : extractFlow ⟨fn, args⟩ fset <;> cases h₂ : extractModel ⟨fn, args⟩ fset <;>
        simp [List.filterMap_cons, List.filterMap_append, List.append_assoc, h₁, h₂]
  | .other _ children, sourceFile => by
      simp only [Expr.inspect, parseGoFileVisit, Expr.calls, if_true]
      exact inspectList_parseGoFileVisit fset children sourceFile
theorem inspectList_parseGoFileVisit (fset : FileSet) :
    ∀ (es : List Expr) (sourceFile : SourceFile),
      Expr.inspectList (parseGoFileVisit fset) es sourceFile =
        { sourceFile with
          Flows := sourceFile.Flows ++
            (Expr.callsList es).filterMap (fun c => extractFlow c fset)
          Models := sourceFile.Models ++
            (Expr.callsList es).filterMap (fun c => extractModel c fset) }
  | [], sourceFile => by simp [Expr.inspectList, Expr.callsList]
  | e :: es, sourceFile => by
      simp only [Expr.inspectList, Expr.callsList]
      rw [inspect_parseGoFileVisit fset e, inspectList_parseGoFileVisit fset es]
      simp [List.filterMap_append, List.append_assoc]
end

mutual
theorem calls_pairwise_pos :
    ∀ e : Expr, Expr.laidOut e = true →
      (Expr.calls e).Pairwise (fun c d => c.pos ≤ d.pos)
  | .basicLit _ _ _, _ => by simp [Expr.calls]
  | .ident _ _, _ => by simp [Expr.calls]
  | .selector x _ _, h => by
      simp only [Expr.laidOut] at h
      simpa [Expr.calls] using calls_pairwise_pos x h
  | .call fn args, h => by
      simp only [Expr.laidOut, Bool.and_eq_true, List.all_eq_true, decide_eq_true_eq] at h
      obtain ⟨⟨⟨h₁, h₂⟩, h₃⟩, h₄⟩ := h
      simp only [Expr.calls, List.pairwise_cons, List.pairwise_append]
      exact ⟨fun d hd => h₃ d hd, calls_pairwise_pos fn h₁, callsList_pairwise_pos args h₂,
        fun c hc d hd => h₄ c hc d hd⟩
  | .other _ children, h => by
      simp only [Expr.laidOut] at h
      simpa [Expr.calls] using callsList_pairwise_pos children h
theorem callsList_pairwise_pos :
    ∀ es : List Expr, Expr.laidOutList es = true →
      (Expr.callsList es).Pairwise (fun c d => c.pos ≤ d.pos)
  | [], _ => by simp [Expr.callsList]
  | e :: es, h => by
      simp only [Expr.laidOutList, Bool.and_eq_true, List.all_eq_true, decide_eq_true_eq] at h
      obtain ⟨⟨h₁, h₂⟩, h₃⟩ := h
      simp only [Expr.callsList, List.pairwise_append]
      exact ⟨calls_pairwise_pos e h₁, callsList_pairwise_pos es h₂,
        fun c hc d hd => h₃ c hc d hd⟩
end

theorem genkit_tests_eq (importPath : String) :
    (strContains importPath "genkit" || strContains importPath "firebase/genkit" ||
      strContains importPath "genkit/go/plugins") = strContains importPath "genkit" := by
  cases h : strContains importPath "genkit" with
  | true => simp
  | false =>
    have h₁ : strContains importPath "firebase/genkit" = false := by
      by_contra hc
      have := strContains_mono importPath "firebase/" "genkit" "" (by simpa using hc)
      rw [h] at this
      exact Bool.false_ne_true this
    have h₂ : strContains importPath "genkit/go/plugins" = false := by
      by_contra hc
      have := strContains_mono importPath "" "genkit" "/go/plugins" (by simpa using hc)
      rw [h] at this
      exact Bool.false_ne_true this
    simp [h₁, h₂]

theorem parseGoFileImports_eq (values : List String) (sourceFile : SourceFile) :
    parseGoFileImports values sourceFile =
      { sourceFile with
        Imports := sourceFile.Imports ++ values.map (fun value => strTrim value "\"")
        HasGenKit := sourceFile.HasGenKit ||
          values.any (fun value => strContains (strTrim value "\"") "genkit") } := by
  induction values generalizing sourceFile with
  | nil => simp [parseGoFileImports]
  | cons value rest ih =>
    rw [parseGoFileImports]
    simp only [genkit_tests_eq]
    cases h : strContains (strTrim value "\"") "genkit" with
    | true => simp [ih, h, List.append_assoc]
    | false => simp [ih, h, List.append_assoc]

theorem parseGoFile_eq (fs : FileSystem) (filePath projectRoot : String) (fset : FileSet)
    (node : AstFile) (hparse : fs.parseFile filePath = .ok (fset, node)) :
    parseGoFile fs filePath projectRoot =
      if node.Imports.any (fun value => strContains (strTrim value "\"") "genkit") then
        .ok (some
          { Path := filePath, PackageName := node.Name,
            Imports := node.Imports.map (fun value => strTrim value "\""),
            Flows := (Expr.callsList node.Decls).filterMap (fun c => extractFlow c fset),
            Models := (Expr.callsList node.Decls).filterMap (fun c => extractModel c fset),
            HasGenKit := true })
      else .ok none := by
  simp only [parseGoFile, hparse, parseGoFileImports_eq, inspectList_parseGoFileVisit]
  cases h : node.Imports.any (fun value => strContains (strTrim value "\"") "genkit") with
  | true => simp [h]
  | false => simp [h]

theorem extractFlow_isSome_eq_specFlowPattern (call : CallExpr) (fset : FileSet) :
    (extractFlow call fset).isSome = specFlowPattern call := by
  obtain ⟨fn, args⟩ := call
  cases fn with
  | selector x selPos selName =>
    by_cases hn : selName = "DefineFlow"
    · by_cases hl : 2 ≤ args.length
      · cases args with
        | nil => simp at hl
        | cons a rest =>
          have hl' : 1 ≤ rest.length := by simpa using hl
          cases a with
          | basicLit valuePos kind value =>
            cases kind <;> simp [extractFlow, specFlowPattern, hn, hl']
          | _ => simp [extractFlow, specFlowPattern, hn, hl']
      · simp [extractFlow, specFlowPattern, hn, hl]
    · simp [extractFlow, specFlowPattern, hn]
  | _ => simp [extractFlow, specFlowPattern]

theorem extractFlow_position (call : CallExpr) (fset : FileSet) (flow : Flow)
    (h : extractFlow call fset = some flow) : flow.Position = fset call.pos := by
  obtain ⟨fn, args⟩ := call
  cases fn with
  | selector x selPos selName =>
    by_cases hn : selName = "DefineFlow"
    · by_cases hl : 2 ≤ args.length
      · cases args with
        | nil => simp at hl
        | cons a rest =>
          cases a with
          | basicLit valuePos kind value =>
            subst hn
            cases kind <;> simp [extractFlow, hl] at h
            obtain ⟨-, rfl⟩ := h
            rfl
          | _ => simp [extractFlow, hn, hl] at h
      · simp [extractFlow, hn, hl] at h
    · simp [extractFlow, hn] at h
  | _ => simp [extractFlow] at h

theorem filterMap_extractFlow (fset : FileSet) (calls : List CallExpr) :
    calls.filterMap (fun c => extractFlow c fset) =
        (calls.filter specFlowPattern).filterMap (fun c => extractFlow c fset) ∧
    (calls.filterMap (fun c => extractFlow c fset)).length
        = (calls.filter specFlowPattern).length ∧
    (calls.filterMap (fun c => extractFlow c fset)).map Flow.Position
        = (calls.filter specFlowPattern).map (fun c => fset c.pos) := by
  induction calls with
  | nil => simp
  | cons c cs ih =>
    obtain ⟨ih₁, ih₂, ih₃⟩ := ih
    have hs := extractFlow_isSome_eq_specFlowPattern c fset
    cases h : extractFlow c fset with
    | none =>
      have hp : specFlowPattern c = false := by rw [← hs, h]; rfl
      simp only [List.filterMap_cons, h, List.filter_cons, hp]
      exact ⟨ih₁, ih₂, ih₃⟩
    | some flow =>
      have hp : specFlowPattern c = true := by rw [← hs, h]; rfl
      have hpos := extractFlow_position c fset flow h
      simp only [List.filterMap_cons, h, List.filter_cons, hp, if_true, List.length_cons,
        List.map_cons, hpos]
      exact ⟨by rw [← ih₁], by rw [ih₂], by rw [ih₃]⟩

/-- C12: for every file that parses and is framework-relevant, `parseGoFile`
returns a SourceFile whose Flows are the records of the call expressions of
the tree that match the flow pattern, at whatever depth they are nested (in
arguments or in the callee of other calls): there are exactly as many Flows as
matching calls, they come in the order of the traversal (a call, then the calls
in its callee, then those in its arguments), each has the position of its call
expression, and when the calls of the tree are laid out as in a source text
these positions do not decrease along the list. -/
theorem parseGoFile_flows (fs : FileSystem) (filePath projectRoot : String) (fset : FileSet)
    (node : AstFile) (hparse : fs.parseFile filePath = .ok (fset, node))
    (hrelevant :
      node.Imports.any (fun value => strContains (strTrim value "\"") "genkit") = true) :
    ∃ sourceFile, parseGoFile fs filePath projectRoot = .ok (some sourceFile) ∧
      sourceFile.Flows =
        ((Expr.callsList node.Decls).filter specFlowPattern).filterMap
          (fun c => extractFlow c fset) ∧
      sourceFile.Flows.length = ((Expr.callsList node.Decls).filter specFlowPattern).length ∧
      sourceFile.Flows.map Flow.Position =
        ((Expr.callsList node.Decls).filter specFlowPattern).map (fun c => fset c.pos) ∧
      (Expr.laidOutList node.Decls = true →
        ((Expr.callsList node.Decls).filter specFlowPattern).Pairwise
          (fun c d => c.pos ≤ d.pos)) := by
  obtain ⟨h₁, h₂, h₃⟩ := filterMap_extractFlow fset (Expr.callsList node.Decls)
  refine ⟨_, by rw [parseGoFile_eq fs filePath projectRoot fset node hparse, if_pos hrelevant],
    h₁, h₂, h₃, ?_⟩
  intro hlaid
  exact (callsList_pairwise_pos node.Decls hlaid).sublist (List.filter_sublist _)

/-- Witness of C12: `main.go` of the analyzer test has one matching call, at
offset 217 (line 13, column 5), and yields one Flow with that position. -/
theorem parseGoFile_flows_witness :
    ∃ sourceFile,
      parseGoFile (testFileSystem [] (.ok testGoMod)) "/tmp/t/main.go" "/tmp/t"
        = .ok (some sourceFile) ∧
      sourceFile.Flows.map Flow.Position = [⟨"/tmp/t/main.go", 217, 13, 5⟩] ∧
      ((Expr.callsList testMainGo.Decls).filter specFlowPattern).Pairwise
        (fun c d => c.pos ≤ d.pos) := by
  obtain ⟨sourceFile, h, -, -, hpos, hsorted⟩ :=
    parseGoFile_flows (testFileSystem [] (.ok testGoMod)) "/tmp/t/main.go" "/tmp/t"
      (positionIn "/tmp/t/main.go" testMainGoLines) testMainGo rfl (by decide)
  exact ⟨sourceFile, h, by rw [hpos]; decide, hsorted (by decide)⟩

/-! ## The project built by the walk -/

theorem parseGoFile_some_hasGenKit (fs : FileSystem) (filePath projectRoot : String)
    (sourceFile : SourceFile)
    (h : parseGoFile fs filePath projectRoot = .ok (some sourceFile)) :
    sourceFile.HasGenKit = true := by
  cases hp : fs.parseFile filePath with
  | error e => simp [parseGoFile, hp] at h
  | ok r =>
    obtain ⟨fset, node⟩ := r
    rw [parseGoFile_eq fs filePath projectRoot fset node hp] at h
    split at h
    · cases h
      rfl
    · cases h

theorem analyzeConfigurationLoop_fields (fs : FileSystem) (names : List String)
    (project : Project) :
    (analyzeConfigurationLoop fs names project).Files = project.Files ∧
    (analyzeConfigurationLoop fs names project).Flows = project.Flows ∧
    (analyzeConfigurationLoop fs names project).Models = project.Models ∧
    (analyzeConfigurationLoop fs names project).Dependencies = project.Dependencies ∧
    (analyzeConfigurationLoop fs names project).Path = project.Path := by
  induction names generalizing project with
  | nil => simp [analyzeConfigurationLoop]
  | cons name rest ih =>
    by_cases h : fs.stat (fs.join project.Path name) = true
    · simp only [analyzeConfigurationLoop, h, if_true]
      exact ih _
    · simp only [analyzeConfigurationLoop, h]
      exact ih _

theorem walkLoop_ok (a : AnalyzerConfig) (fs : FileSystem) (projectPath : String)
    (entries : List (String × Option String)) (project : Project) (stdout : List String)
    (result : Project) (out : List String)
    (h : walkLoop a fs projectPath entries project stdout = (.ok result, out)) :
    result.Path = project.Path ∧ result.Dependencies = project.Dependencies ∧
    result.Flows = project.Flows ++
      ((storedFiles fs projectPath entries).map (fun e => e.2.Flows)).flatten ∧
    result.Models = project.Models ++
      ((storedFiles fs projectPath entries).map (fun e => e.2.Models)).flatten ∧
    result.Files = (storedFiles fs projectPath entries).foldl
      (fun m e => GoMap.insert m e.1 e.2) project.Files ∧
    (∀ e ∈ entries, e.2 = none) := by
  induction entries generalizing project stdout with
  | nil =>
    simp only [walkLoop, Prod.mk.injEq, Except.ok.injEq] at h
    obtain ⟨rfl, -⟩ := h
    simp [storedFiles]
  | cons entry rest ih =>
    obtain ⟨path, err⟩ := entry
    cases err with
    | some e => simp [walkLoop, walkFn] at h
    | none =>
      by_cases hf : (!strHasSuffix path ".go" || strContains path "vendor/" ||
          strContains path ".git/") = true
      · have hw : walkFn a fs projectPath path none project stdout = (.ok project, stdout) := by
          simp only [walkFn, hf, if_true]
        have hs : storedFiles fs projectPath ((path, none) :: rest)
            = storedFiles fs projectPath rest := by
          simp only [storedFiles, hf, if_true]
        rw [walkLoop, hw] at h
        obtain ⟨h₁, h₂, h₃, h₄, h₅, h₆⟩ := ih project stdout h
        rw [hs]
        exact ⟨h₁, h₂, h₃, h₄, h₅, by simpa using h₆⟩
      · cases hp : parseGoFile fs path projectPath with
        | error e =>
          have hs : storedFiles fs projectPath ((path, none) :: rest)
              = storedFiles fs projectPath rest := by
            simp only [storedFiles, hf, hp]
            rfl
          rw [hs]
          by_cases hv : a.Verbose = true
          · have hw : walkFn a fs projectPath path none project stdout = (.ok project,
                stdout ++ ["Warning: failed to parse " ++ path ++ ": " ++ e ++ "\n"]) := by
              simp only [walkFn, hf, hp, hv, if_true]
              rfl
            rw [walkLoop, hw] at h
            obtain ⟨h₁, h₂, h₃, h₄, h₅, h₆⟩ := ih project _ h
            exact ⟨h₁, h₂, h₃, h₄, h₅, by simpa using h₆⟩
          · have hw : walkFn a fs projectPath path none project stdout
                = (.ok project, stdout) := by
              simp only [walkFn, hf, hp, hv]
              rfl
            rw [walkLoop, hw] at h
            obtain ⟨h₁, h₂, h₃, h₄, h₅, h₆⟩ := ih project _ h
            exact ⟨h₁, h₂, h₃, h₄, h₅, by simpa using h₆⟩
        | ok found =>
          cases found with
          | none =>
            have hs : storedFiles fs projectPath ((path, none) :: rest)
                = storedFiles fs projectPath rest := by
              simp only [storedFiles, hf, hp]
              rfl
            have hw : walkFn a fs projectPath path none project stdout
                = (.ok project, stdout) := by
              simp only [walkFn, hf, hp]
              rfl
            rw [hs]
            rw [walkLoop, hw] at h
            obtain ⟨h₁, h₂, h₃, h₄, h₅, h₆⟩ := ih project _ h
            exact ⟨h₁, h₂, h₃, h₄, h₅, by simpa using h₆⟩
          | some sourceFile =>
            have hs : storedFiles fs projectPath ((path, none) :: rest)
                = (fs.rel projectPath path, sourceFile) :: storedFiles fs projectPath rest := by
              simp only [storedFiles, hf, hp]
              rfl
            have hw : walkFn a fs projectPath path none project stdout
                = (.ok { project with
                    Files := GoMap.insert project.Files (fs.rel projectPath path) sourceFile
                    Flows := project.Flows ++ sourceFile.Flows
                    Models := project.Models ++ sourceFile.Models }, stdout) := by
              simp only [walkFn, hf, hp]
              rfl
            rw [hs]
            rw [walkLoop, hw] at h
            obtain ⟨h₁, h₂, h₃, h₄, h₅, h₆⟩ := ih _ _ h
            refine ⟨h₁, h₂, ?_, ?_, ?_, by simpa using h₆⟩
            · rw [h₃]
              simp [List.append_assoc]
            · rw [h₄]
              simp [List.append_assoc]
            · rw [h₅]
              rfl

theorem walkLoop_total (a : AnalyzerConfig) (fs : FileSystem) (projectPath : String)
    (entries : List (String × Option String)) (project : Project) (stdout : List String)
    (h : ∀ e ∈ entries, e.2 = none) :
    ∃ result out, walkLoop a fs projectPath entries project stdout = (.ok result, out) := by
  induction entries generalizing project stdout with
  | nil => exact ⟨project, stdout, rfl⟩
  | cons entry rest ih =>
    obtain ⟨path, err⟩ := entry
    have herr : err = none := h (path, err) (List.mem_cons_self _ _)
    subst herr
    have hrest : ∀ e ∈ rest, e.2 = none := fun e he => h e (List.mem_cons_of_mem _ he)
    have hstep : ∃ p' out', walkFn a fs projectPath path none project stdout = (.ok p', out') := by
      unfold walkFn
      simp only []
      split
      · exact ⟨_, _, rfl⟩
      · split
        · split
          · exact ⟨_, _, rfl⟩
          · exact ⟨_, _, rfl⟩
        · exact ⟨_, _, rfl⟩
        · exact ⟨_, _, rfl⟩
    obtain ⟨p', out', hw⟩ := hstep
    rw [walkLoop, hw]
    exact ih p' out' hrest

theorem AnalyzeProject_ok (a : AnalyzerConfig) (fs : FileSystem) (projectPath : String)
    (project : Project) (out : List String)
    (h : AnalyzeProject a fs projectPath = (.ok project, out)) :
    ∃ walked content,
      walkLoop a fs projectPath (fs.walk projectPath)
        { Path := projectPath, SourceProvider := a.SourceProvider,
          TargetProvider := a.TargetProvider, Files := [], Dependencies := [], Flows := [],
          Models := [], Configuration := [] } [] = (.ok walked, out) ∧
      fs.readFile (fs.join projectPath "go.mod") = .ok content ∧
      project = analyzeConfigurationLoop fs ["config.yaml", "config.json", ".env", "app.yaml"]
        { walked with
          Dependencies :=
            analyzeDependenciesLoop (strSplit content (Char.ofNat 10)) walked.Dependencies } := by
  unfold AnalyzeProject at h
  simp only [] at h
  cases hw : walkLoop a fs projectPath (fs.walk projectPath)
      { Path := projectPath, SourceProvider := a.SourceProvider,
        TargetProvider := a.TargetProvider, Files := [], Dependencies := [], Flows := [],
        Models := [], Configuration := [] } [] with
  | mk r out₁ =>
    rw [hw] at h
    cases r with
    | error e => simp at h
    | ok walked =>
      have hpath : walked.Path = projectPath := (walkLoop_ok a fs projectPath _ _ _ _ _ hw).1
      simp only [analyzeDependencies, hpath] at h
      cases hr : fs.readFile (fs.join projectPath "go.mod") with
      | error e =>
        rw [hr] at h
        simp at h
      | ok content =>
        rw [hr] at h
        simp only [analyzeConfiguration, Prod.mk.injEq, Except.ok.injEq] at h
        obtain ⟨h₁, h₂⟩ := h
        subst h₂
        refine ⟨walked, content, rfl, rfl, ?_⟩
        rw [hpath]
        exact h₁.symm

theorem GoMap.mem_insert {V : Type} (m : GoMap V) (k : String) (v : V) (e : String × V)
    (h : e ∈ GoMap.insert m k v) : e ∈ m ∨ e = (k, v) := by
  induction m with
  | nil =>
    simp only [GoMap.insert, List.mem_singleton] at h
    exact Or.inr h
  | cons x m ih =>
    obtain ⟨k', v'⟩ := x
    by_cases hk : k' = k
    · simp only [GoMap.insert, hk, if_true, List.mem_cons] at h
      rcases h with h | h
      · exact Or.inr h
      · exact Or.inl (List.mem_cons_of_mem _ h)
    · simp only [GoMap.insert, hk, if_false, List.mem_cons] at h
      rcases h with h | h
      · exact Or.inl (h ▸ List.mem_cons_self _ _)
      · rcases ih h with h' | h'
        · exact Or.inl (List.mem_cons_of_mem _ h')
        · exact Or.inr h'

theorem GoMap.mem_foldl_insert {V : Type} (l : List (String × V)) (m : GoMap V)
    (e : String × V) (h : e ∈ l.foldl (fun m e => GoMap.insert m e.1 e.2) m) :
    e ∈ m ∨ e ∈ l := by
  induction l generalizing m with
  | nil => exact Or.inl h
  | cons x l ih =>
    rcases ih _ h with h' | h'
    · rcases GoMap.mem_insert m x.1 x.2 e h' with h'' | h''
      · exact Or.inl h''
      · exact Or.inr (h'' ▸ List.mem_cons_self _ _)
    · exact Or.inr (List.mem_cons_of_mem _ h')

theorem GoMap.insert_of_not_mem {V : Type} (m : GoMap V) (k : String) (v : V)
    (h : k ∉ GoMap.keys m) : GoMap.insert m k v = m ++ [(k, v)] := by
  induction m with
  | nil => rfl
  | cons x m ih =>
    obtain ⟨k', v'⟩ := x
    have hk : ¬ k = k' ∧ k ∉ GoMap.keys m := by simpa [GoMap.keys] using h
    have hk' : ¬ k' = k := fun e => hk.1 e.symm
    simp [GoMap.insert, hk', ih hk.2]

theorem GoMap.foldl_insert_of_nodup {V : Type} (l : List (String × V)) (m : GoMap V)
    (h : (GoMap.keys (m ++ l)).Nodup) :
    l.foldl (fun m e => GoMap.insert m e.1 e.2) m = m ++ l := by
  induction l generalizing m with
  | nil => simp
  | cons x l ih =>
    have hx : x.1 ∉ GoMap.keys m := by
      intro hmem
      simp only [GoMap.keys, List.map_append, List.map_cons] at h hmem
      rw [List.nodup_append] at h
      exact h.2.2 hmem (List.mem_cons_self _ _)
    rw [List.foldl_cons, GoMap.insert_of_not_mem m x.1 x.2 hx]
    have h' : (GoMap.keys (m ++ [(x.1, x.2)] ++ l)).Nodup := by
      simpa [List.append_assoc] using h
    rw [ih _ h']
    simp [List.append_assoc]

theorem storedFiles_hasGenKit (fs : FileSystem) (projectPath : String)
    (entries : List (String × Option String)) :
    ∀ e ∈ storedFiles fs projectPath entries, e.2.HasGenKit = true := by
  induction entries with
  | nil => simp [storedFiles]
  | cons entry rest ih =>
    obtain ⟨path, err⟩ := entry
    intro e he
    unfold storedFiles at he
    split at he
    · exact ih e he
    · split at he
      · rename_i sourceFile hp
        rcases List.mem_cons.mp he with h | h
        · rw [h]
          exact parseGoFile_some_hasGenKit fs path projectPath sourceFile hp
        · exact ih e h
      · exact ih e he

theorem AnalyzeProject_files (a : AnalyzerConfig) (fs : FileSystem) (projectPath : String)
    (project : Project) (out : List String)
    (h : AnalyzeProject a fs projectPath = (.ok project, out)) :
    project.Files = (storedFiles fs projectPath (fs.walk projectPath)).foldl
      (fun m e => GoMap.insert m e.1 e.2) [] ∧
    project.Flows =
      ((storedFiles fs projectPath (fs.walk projectPath)).map (fun e => e.2.Flows)).flatten ∧
    project.Models =
      ((storedFiles fs projectPath (fs.walk projectPath)).map (fun e => e.2.Models)).flatten := by
  obtain ⟨walked, content, hw, -, hp⟩ := AnalyzeProject_ok a fs projectPath project out h
  obtain ⟨-, -, h₃, h₄, h₅, -⟩ := walkLoop_ok a fs projectPath _ _ _ _ _ hw
  obtain ⟨c₁, c₂, c₃, -, -⟩ := analyzeConfigurationLoop_fields fs
    ["config.yaml", "config.json", ".env", "app.yaml"]
    { walked with
      Dependencies :=
        analyzeDependenciesLoop (strSplit content (Char.ofNat 10)) walked.Dependencies }
  rw [hp, c₁, c₂, c₃]
  exact ⟨h₅, by simpa using h₃, by simpa using h₄⟩

/-- C13: a file that parses gets no SourceFile from `parseGoFile` (nil and no
error) if and only if none of its import paths contains "genkit"; the two
further tests of the source, for "firebase/genkit" and "genkit/go/plugins",
never change the outcome.  For such a file the walk function leaves the
project as it is (no entry in Files, no Flow, no Model), and every SourceFile
in the Files of a project `AnalyzeProject` returns has HasGenKit = true. -/
theorem parseGoFile_none_iff (fs : FileSystem) (filePath projectRoot : String)
    (fset : FileSet) (node : AstFile) (hparse : fs.parseFile filePath = .ok (fset, node)) :
    (parseGoFile fs filePath projectRoot = .ok none ↔
      ∀ value ∈ node.Imports, strContains (strTrim value "\"") "genkit" = false) ∧
    (∀ importPath : String,
      (strContains importPath "genkit" || strContains importPath "firebase/genkit" ||
        strContains importPath "genkit/go/plugins") = strContains importPath "genkit") ∧
    (parseGoFile fs filePath projectRoot = .ok none →
      ∀ (a : AnalyzerConfig) (project : Project) (stdout : List String),
        walkFn a fs projectRoot filePath none project stdout = (.ok project, stdout)) ∧
    (∀ (a : AnalyzerConfig) (project : Project) (out : List String),
      AnalyzeProject a fs projectRoot = (.ok project, out) →
      ∀ k sourceFile, (k, sourceFile) ∈ project.Files → sourceFile.HasGenKit = true) := by
  refine ⟨?_, genkit_tests_eq, ?_, ?_⟩
  · rw [parseGoFile_eq fs filePath projectRoot fset node hparse]
    by_cases hany :
        node.Imports.any (fun value => strContains (strTrim value "\"") "genkit") = true
    · rw [if_pos hany]
      constructor
      · intro h
        cases h
      · intro h
        obtain ⟨value, hmem, hc⟩ := List.any_eq_true.mp hany
        rw [h value hmem] at hc
        exact absurd hc Bool.false_ne_true
    · rw [if_neg hany]
      constructor
      · intro _ value hmem
        by_contra hc
        exact hany (List.any_eq_true.mpr ⟨value, hmem, by simpa using hc⟩)
      · intro _
        rfl
  · intro hnone a project stdout
    unfold walkFn
    simp only [hnone]
    split <;> rfl
  · intro a project out h k sourceFile hmem
    obtain ⟨hfiles, -, -⟩ := AnalyzeProject_files a fs projectRoot project out h
    rw [hfiles] at hmem
    rcases GoMap.mem_foldl_insert _ _ _ hmem with h' | h'
    · simp at h'
    · exact storedFiles_hasGenKit fs projectRoot _ _ h'

/-- Witness of C13: a file that imports "fmt" alone gets no SourceFile, though
it calls a function named DefineFlow. -/
theorem parseGoFile_none_iff_witness :
    parseGoFile (testFileSystem [] (.ok testGoMod)) "/tmp/t/plain.go" "/tmp/t" = .ok none :=
  (parseGoFile_none_iff (testFileSystem [] (.ok testGoMod)) "/tmp/t/plain.go" "/tmp/t"
    (positionIn "/tmp/t/plain.go" [0]) testPlainGo rfl).1.mpr (by decide)

/-- C14: after a successful `AnalyzeProject`, when the relative paths of the
stored files are pairwise distinct (as those of the distinct paths of one walk
are), `Project.Files` holds the stored files in the order of the walk,
`Project.Flows` is the concatenation of their Flows in that order and
`Project.Models` the concatenation of their Models, so that the number of
flows is the sum of the numbers of flows of the files. -/
theorem AnalyzeProject_flows_concat (a : AnalyzerConfig) (fs : FileSystem)
    (projectPath : String) (project : Project) (out : List String)
    (h : AnalyzeProject a fs projectPath = (.ok project, out))
    (hkeys : (GoMap.keys (storedFiles fs projectPath (fs.walk projectPath))).Nodup) :
    project.Files = storedFiles fs projectPath (fs.walk projectPath) ∧
    project.Flows = (project.Files.map (fun e => e.2.Flows)).flatten ∧
    project.Models = (project.Files.map (fun e => e.2.Models)).flatten ∧
    project.Flows.length = (project.Files.map (fun e => e.2.Flows.length)).sum := by
  obtain ⟨hfiles, hflows, hmodels⟩ := AnalyzeProject_files a fs projectPath project out h
  have hstored : project.Files = storedFiles fs projectPath (fs.walk projectPath) := by
    rw [hfiles, GoMap.foldl_insert_of_nodup _ [] (by simpa using hkeys)]
    rfl
  refine ⟨hstored, by rw [hstored, hflows], by rw [hstored, hmodels], ?_⟩
  rw [hstored, hflows, List.length_flatten, List.map_map]
  rfl

/-- Witness of C14: the project of the analyzer test with a second relevant
file; the flows of the project are those of main.go followed by those of
z.go. -/
theorem AnalyzeProject_flows_concat_witness :
    ∃ project out,
      AnalyzeProject ⟨"gcp", "aws", false⟩
        (testFileSystem [("/tmp/t", none), ("/tmp/t/go.mod", none), ("/tmp/t/main.go", none),
          ("/tmp/t/plain.go", none), ("/tmp/t/z.go", none)] (.ok testGoMod)) "/tmp/t"
        = (.ok project, out) ∧
      GoMap.keys project.Files = ["main.go", "z.go"] ∧
      project.Flows = (project.Files.map (fun e => e.2.Flows)).flatten ∧
      project.Flows.length = 2 := by
  refine ⟨_, _, rfl, by decide, ?_, by decide⟩
  exact (AnalyzeProject_flows_concat ⟨"gcp", "aws", false⟩
    (testFileSystem [("/tmp/t", none), ("/tmp/t/go.mod", none), ("/tmp/t/main.go", none),
      ("/tmp/t/plain.go", none), ("/tmp/t/z.go", none)] (.ok testGoMod)) "/tmp/t" _ _ rfl
    (by decide)).2.1

/-! ## Failures of the analysis -/

theorem analyzeDependenciesLoop_short (line : String) (rest : List String)
    (dependencies : GoMap String) (h : (strFields (strTrimSpace line)).length < 2) :
    analyzeDependenciesLoop (line :: rest) dependencies
      = analyzeDependenciesLoop rest dependencies := by
  cases hf : strFields (strTrimSpace line) with
  | nil => simp [analyzeDependenciesLoop, hf]
  | cons part0 tail =>
    cases tail with
    | nil => simp [analyzeDependenciesLoop, hf]
    | cons part1 more =>
      rw [hf] at h
      simp only [List.length_cons] at h
      omega

theorem analyzeDependenciesLoop_no_lines (lines : List String) (dependencies : GoMap String)
    (h : ∀ line ∈ lines, isRequireOrVersionLine (strTrimSpace line) = false ∨
      (strFields (strTrimSpace line)).length < 2) :
    analyzeDependenciesLoop lines dependencies = dependencies := by
  induction lines with
  | nil => rfl
  | cons line rest ih =>
    have hrest := ih (fun l hl => h l (List.mem_cons_of_mem _ hl))
    rcases h line (List.mem_cons_self _ _) with hc | hc
    · rw [analyzeDependenciesLoop_skip line rest dependencies hc, hrest]
    · rw [analyzeDependenciesLoop_short line rest dependencies hc, hrest]

theorem AnalyzeProject_of_walk (a : AnalyzerConfig) (fs : FileSystem) (projectPath : String)
    (walked : Project) (out : List String) (content : String)
    (hw : walkLoop a fs projectPath (fs.walk projectPath)
      { Path := projectPath, SourceProvider := a.SourceProvider,
        TargetProvider := a.TargetProvider, Files := [], Dependencies := [], Flows := [],
        Models := [], Configuration := [] } [] = (.ok walked, out))
    (hr : fs.readFile (fs.join projectPath "go.mod") = .ok content) :
    AnalyzeProject a fs projectPath =
      (.ok (analyzeConfigurationLoop fs ["config.yaml", "config.json", ".env", "app.yaml"]
        { walked with
          Dependencies :=
            analyzeDependenciesLoop (strSplit content (Char.ofNat 10)) walked.Dependencies }),
        out) := by
  have hpath : walked.Path = projectPath := (walkLoop_ok a fs projectPath _ _ _ _ _ hw).1
  unfold AnalyzeProject
  simp only [hw, analyzeDependencies, hpath, hr, analyzeConfiguration]

theorem AnalyzeProject_unreadable_manifest (a : AnalyzerConfig) (fs : FileSystem)
    (projectPath : String) (e : String)
    (hr : fs.readFile (fs.join projectPath "go.mod") = .error e) :
    ∃ msg, (AnalyzeProject a fs projectPath).1 = .error msg := by
  cases hw : walkLoop a fs projectPath (fs.walk projectPath)
      { Path := projectPath, SourceProvider := a.SourceProvider,
        TargetProvider := a.TargetProvider, Files := [], Dependencies := [], Flows := [],
        Models := [], Configuration := [] } [] with
  | mk r out₁ =>
    cases r with
    | error e' =>
      refine ⟨"failed to walk project directory: " ++ e', ?_⟩
      unfold AnalyzeProject
      simp only [hw]
    | ok walked =>
      have hpath : walked.Path = projectPath := (walkLoop_ok a fs projectPath _ _ _ _ _ hw).1
      refine ⟨"failed to analyze dependencies: " ++ ("failed to read go.mod: " ++ e), ?_⟩
      unfold AnalyzeProject
      simp only [hw, analyzeDependencies, hpath, hr]

/-- C15: if go.mod at the project root cannot be read, `AnalyzeProject`
returns an error (and no Project); if it can be read and none of its lines is
a dependency line (none passes the test of the parser with at least two
fields: an empty file, or the module and go lines alone), the Dependencies of
a Project `AnalyzeProject` returns are empty, and `AnalyzeProject` does return
a Project whenever the walk reports no error. -/
theorem AnalyzeProject_manifest (a : AnalyzerConfig) (fs : FileSystem) (projectPath : String) :
    (∀ e, fs.readFile (fs.join projectPath "go.mod") = .error e →
      ∃ msg, (AnalyzeProject a fs projectPath).1 = .error msg) ∧
    (∀ content, fs.readFile (fs.join projectPath "go.mod") = .ok content →
      (∀ line ∈ strSplit content (Char.ofNat 10),
        isRequireOrVersionLine (strTrimSpace line) = false ∨
          (strFields (strTrimSpace line)).length < 2) →
      (∀ project out, AnalyzeProject a fs projectPath = (.ok project, out) →
        project.Dependencies = []) ∧
      ((∀ entry ∈ fs.walk projectPath, entry.2 = none) →
        ∃ project, (AnalyzeProject a fs projectPath).1 = .ok project ∧
          project.Dependencies = [])) ∧
    parseManifest "" = [] ∧
    parseManifest "module test-genkit-app\n\ngo 1.23\n" = [] := by
  refine ⟨fun e he => AnalyzeProject_unreadable_manifest a fs projectPath e he, ?_,
    by decide, by decide⟩
  intro content hr hlines
  have hdeps : ∀ project out, AnalyzeProject a fs projectPath = (.ok project, out) →
      project.Dependencies = [] := by
    intro project out h
    obtain ⟨walked, content', hw, hr', hp⟩ := AnalyzeProject_ok a fs projectPath project out h
    rw [hr] at hr'
    cases hr'
    obtain ⟨-, hd, -, -, -, -⟩ := walkLoop_ok a fs projectPath _ _ _ _ _ hw
    rw [hp, (analyzeConfigurationLoop_fields fs _ _).2.2.2.1]
    show analyzeDependenciesLoop _ walked.Dependencies = []
    rw [analyzeDependenciesLoop_no_lines _ _ hlines]
    exact hd
  refine ⟨hdeps, ?_⟩
  intro hwalk
  obtain ⟨walked, out, hw⟩ := walkLoop_total a fs projectPath (fs.walk projectPath)
    { Path := projectPath, SourceProvider := a.SourceProvider,
      TargetProvider := a.TargetProvider, Files := [], Dependencies := [], Flows := [],
      Models := [], Configuration := [] } [] hwalk
  have hrun := AnalyzeProject_of_walk a fs projectPath walked out content hw hr
  exact ⟨_, by rw [hrun], hdeps _ out hrun⟩

/-- Witness of C15: the project of the analyzer test with a manifest that
cannot be read, and with a manifest of the module and go lines alone. -/
theorem AnalyzeProject_manifest_witness :
    (∃ msg, (AnalyzeProject ⟨"gcp", "aws", false⟩
        (testFileSystem [("/tmp/t", none), ("/tmp/t/main.go", none)]
          (.error "open /tmp/t/go.mod: no such file or directory")) "/tmp/t").1
        = .error msg) ∧
    (∃ project, (AnalyzeProject ⟨"gcp", "aws", false⟩
        (testFileSystem [("/tmp/t", none), ("/tmp/t/main.go", none)]
          (.ok "module test-genkit-app\n\ngo 1.23\n")) "/tmp/t").1 = .ok project ∧
      project.Dependencies = []) :=
  ⟨(AnalyzeProject_manifest ⟨"gcp", "aws", false⟩
      (testFileSystem [("/tmp/t", none), ("/tmp/t/main.go", none)]
        (.error "open /tmp/t/go.mod: no such file or directory")) "/tmp/t").1 _ rfl,
   ((AnalyzeProject_manifest ⟨"gcp", "aws", false⟩
      (testFileSystem [("/tmp/t", none), ("/tmp/t/main.go", none)]
        (.ok "module test-genkit-app\n\ngo 1.23\n")) "/tmp/t").2.1 _ rfl (by decide)).2
      (by decide)⟩

/-- C16 as stated fails: with Verbose false, on a walk that meets the candidate
file "/tmp/t/broken.go", which does not parse, `AnalyzeProject` returns a
Project and no error. -/
theorem AnalyzeProject_ignores_parse_error :
    ¬ (∀ (a : AnalyzerConfig) (fs : FileSystem) (projectPath path e : String),
        a.Verbose = false → (path, none) ∈ fs.walk projectPath →
        (!strHasSuffix path ".go" || strContains path "vendor/" ||
          strContains path ".git/") = false →
        fs.parseFile path = .error e →
        ∃ msg, (AnalyzeProject a fs projectPath).1 = .error msg) := by
  intro h
  obtain ⟨msg, hmsg⟩ := h ⟨"gcp", "aws", false⟩
    (testFileSystem [("/tmp/t", none), ("/tmp/t/broken.go", none), ("/tmp/t/main.go", none)]
      (.ok testGoMod)) "/tmp/t" "/tmp/t/broken.go" "expected declaration" rfl (by decide)
    (by decide) rfl
  have hok : ∃ project, (AnalyzeProject ⟨"gcp", "aws", false⟩
      (testFileSystem [("/tmp/t", none), ("/tmp/t/broken.go", none), ("/tmp/t/main.go", none)]
        (.ok testGoMod)) "/tmp/t").1 = .ok project := ⟨_, rfl⟩
  obtain ⟨project, hproject⟩ := hok
  rw [hproject] at hmsg
  cases hmsg

/-- C16 as amended: a candidate file that does not parse never makes
`AnalyzeProject` fail.  In both modes the walk function returns nil for it and
leaves the project as it is; it prints the warning that names the file when
Verbose is true and prints nothing when Verbose is false.  `AnalyzeProject`
returns an error only if the walk itself reports an error or go.mod cannot be
read. -/
theorem AnalyzeProject_parse_error_skipped (a : AnalyzerConfig) (fs : FileSystem)
    (projectPath : String) :
    (∀ (path e : String) (project : Project) (stdout : List String),
      (!strHasSuffix path ".go" || strContains path "vendor/" ||
        strContains path ".git/") = false →
      parseGoFile fs path projectPath = .error e →
      (walkFn a fs projectPath path none project stdout).1 = .ok project ∧
      (a.Verbose = false → (walkFn a fs projectPath path none project stdout).2 = stdout) ∧
      (a.Verbose = true → (walkFn a fs projectPath path none project stdout).2 =
        stdout ++ ["Warning: failed to parse " ++ path ++ ": " ++ e ++ "\n"])) ∧
    (∀ msg, (AnalyzeProject a fs projectPath).1 = .error msg →
      (∃ entry ∈ fs.walk projectPath, entry.2 ≠ none) ∨
        ∃ err, fs.readFile (fs.join projectPath "go.mod") = .error err) := by
  constructor
  · intro path e project stdout hcand hparse
    have hcand' : ¬ ((!strHasSuffix path ".go" || strContains path "vendor/" ||
        strContains path ".git/") = true) := by
      rw [hcand]
      exact Bool.false_ne_true
    by_cases hv : a.Verbose = true
    · have hw : walkFn a fs projectPath path none project stdout = (.ok project,
          stdout ++ ["Warning: failed to parse " ++ path ++ ": " ++ e ++ "\n"]) := by
        simp only [walkFn, hcand', hparse, hv, if_true]
        rfl
      rw [hw]
      refine ⟨rfl, ?_, fun _ => rfl⟩
      intro hfalse
      rw [hv] at hfalse
      cases hfalse
    · have hw : walkFn a fs projectPath path none project stdout = (.ok project, stdout) := by
        simp only [walkFn, hcand', hparse, hv]
        rfl
      rw [hw]
      exact ⟨rfl, fun _ => rfl, fun h => absurd h hv⟩
  · intro msg hmsg
    by_contra hcon
    have hwalk : ∀ entry ∈ fs.walk projectPath, entry.2 = none := by
      intro entry hmem
      by_contra hne
      exact hcon (Or.inl ⟨entry, hmem, hne⟩)
    obtain ⟨walked, out, hw⟩ := walkLoop_total a fs projectPath (fs.walk projectPath)
      { Path := projectPath, SourceProvider := a.SourceProvider,
        TargetProvider := a.TargetProvider, Files := [], Dependencies := [], Flows := [],
        Models := [], Configuration := [] } [] hwalk
    cases hr : fs.readFile (fs.join projectPath "go.mod") with
    | error err => exact hcon (Or.inr ⟨err, hr⟩)
    | ok content =>
      rw [AnalyzeProject_of_walk a fs projectPath walked out content hw hr] at hmsg
      cases hmsg

/-- Witness of C16 as amended: the walk function on the file "broken.go" with
Verbose false returns the project it was given and prints nothing. -/
theorem AnalyzeProject_parse_error_skipped_witness :
    (walkFn ⟨"gcp", "aws", false⟩ (testFileSystem [] (.ok testGoMod)) "/tmp/t"
        "/tmp/t/broken.go" none testProject []).1 = .ok testProject ∧
    (walkFn ⟨"gcp", "aws", false⟩ (testFileSystem [] (.ok testGoMod)) "/tmp/t"
        "/tmp/t/broken.go" none testProject []).2 = [] :=
  ⟨((AnalyzeProject_parse_error_skipped ⟨"gcp", "aws", false⟩
      (testFileSystem [] (.ok testGoMod)) "/tmp/t").1 "/tmp/t/broken.go"
      "expected declaration" testProject [] (by decide) rfl).1,
   ((AnalyzeProject_parse_error_skipped ⟨"gcp", "aws", false⟩
      (testFileSystem [] (.ok testGoMod)) "/tmp/t").1 "/tmp/t/broken.go"
      "expected declaration" testProject [] (by decide) rfl).2.1 rfl⟩

/-! ## The walk filter -/

/-- C17 (the code at failing inputs): the relevant file "main.go" is not
analyzed when it lies in a directory named "myvendor" of the project, nor when
the path of the project root itself runs through a directory named "vendor"
(then no file of the project is analyzed); the same file under the directory
"lib" of a project rooted at "/proj" is analyzed and stored. -/
theorem AnalyzeProject_filter_at_vendor_substrings :
    (∃ project out,
      AnalyzeProject ⟨"gcp", "aws", false⟩
        (testFileSystem [("/proj", none), ("/proj/myvendor", none),
          ("/proj/myvendor/main.go", none)] (.ok testGoMod)) "/proj" = (.ok project, out) ∧
      project.Files = [] ∧ project.Flows = []) ∧
    (∃ project out,
      AnalyzeProject ⟨"gcp", "aws", false⟩
        (testFileSystem [("/home/dev/vendor/app", none),
          ("/home/dev/vendor/app/main.go", none)] (.ok testGoMod)) "/home/dev/vendor/app"
        = (.ok project, out) ∧
      project.Files = [] ∧ project.Flows = []) ∧
    (∃ project out,
      AnalyzeProject ⟨"gcp", "aws", false⟩
        (testFileSystem [("/proj", none), ("/proj/lib", none),
          ("/proj/lib/main.go", none)] (.ok testGoMod)) "/proj" = (.ok project, out) ∧
      GoMap.keys project.Files = ["lib/main.go"] ∧ project.Flows.length = 1) := by
  refine ⟨⟨_, _, rfl, ?_, ?_⟩, ⟨_, _, rfl, ?_, ?_⟩, ⟨_, _, rfl, ?_, ?_⟩⟩ <;> decide

/-! ## Copying the files that are not rewritten -/

theorem GoMap.keys_insert {V : Type} (m : GoMap V) (k : String) (v : V) :
    GoMap.keys (GoMap.insert m k v) = if k ∈ GoMap.keys m then GoMap.keys m
      else GoMap.keys m ++ [k] := by
  induction m with
  | nil => simp [GoMap.insert, GoMap.keys]
  | cons x m ih =>
    obtain ⟨k', v'⟩ := x
    by_cases hk : k' = k
    · subst hk
      simp [GoMap.insert, GoMap.keys]
    · have hk' : ¬ k = k' := fun e => hk e.symm
      simp only [GoMap.insert, hk, if_false]
      simp only [GoMap.keys] at ih
      simp only [GoMap.keys, List.map_cons, List.mem_cons, hk', false_or, ih]
      split <;> simp

theorem GoMap.wf_insert {V : Type} (m : GoMap V) (k : String) (v : V) (h : GoMap.WF m) :
    GoMap.WF (GoMap.insert m k v) := by
  unfold GoMap.WF at *
  rw [GoMap.keys_insert]
  split
  · exact h
  · rename_i hk
    rw [List.nodup_append]
    exact ⟨h, List.nodup_singleton _, by
      intro a ha hb
      rw [List.mem_singleton] at hb
      exact hk (hb ▸ ha)⟩

theorem GoMap.wf_foldl_insert {V : Type} (l : List (String × V)) (m : GoMap V)
    (h : GoMap.WF m) : GoMap.WF (l.foldl (fun m e => GoMap.insert m e.1 e.2) m) := by
  induction l generalizing m with
  | nil => exact h
  | cons x l ih => exact ih _ (GoMap.wf_insert m x.1 x.2 h)

theorem AnalyzeProject_files_wf (a : AnalyzerConfig) (fs : FileSystem) (projectPath : String)
    (project : Project) (out : List String)
    (h : AnalyzeProject a fs projectPath = (.ok project, out)) :
    GoMap.WF project.Files ∧ ∀ e ∈ project.Files, e.2.HasGenKit = true := by
  obtain ⟨hfiles, -, -⟩ := AnalyzeProject_files a fs projectPath project out h
  rw [hfiles]
  refine ⟨GoMap.wf_foldl_insert _ [] (by simp [GoMap.WF, GoMap.keys]), ?_⟩
  intro e he
  rcases GoMap.mem_foldl_insert _ _ _ he with h' | h'
  · simp at h'
  · exact storedFiles_hasGenKit fs projectPath _ _ h'

theorem TransformProject_contains_flagged (t : Config) (project : Project)
    (depsVisit : List (String × String)) (filesVisit : List (String × SourceFile))
    (hwf : GoMap.WF filesVisit) :
    ∃ m, TransformProject t project depsVisit filesVisit = .ok m ∧ m.Project = project ∧
      ∀ k sf, (k, sf) ∈ filesVisit → sf.HasGenKit = true →
        GoMap.contains m.NewFiles k = true := by
  obtain ⟨goMod, m2, m, -, hm2, hm, hproj, -, haws, hnot⟩ :=
    TransformProject_decompose t project depsVisit filesVisit hwf
  obtain ⟨m2', hm2', -, -, -, -, ha, -⟩ := transformSourceFilesLoop_spec t filesVisit hwf
    ⟨project,
     [{ Type_ := "dependency", Description := "Updated dependencies for " ++ t.TargetProvider,
        File := "go.mod", OldValue := "", NewValue := "" }],
     [("go.mod", goMod)], [], []⟩
  have heq : m2' = m2 := by
    rw [hm2] at hm2'
    cases hm2'
    rfl
  subst heq
  refine ⟨m, hm, hproj, ?_⟩
  intro k sf hmem hflag
  obtain ⟨content, hcontent⟩ := transformGoFile_ok t sf
  have hbase : GoMap.contains m2'.NewFiles k = true := by
    unfold GoMap.contains
    rw [ha k sf content _ hmem hflag hcontent]
    rfl
  by_cases h : t.TargetProvider = "aws"
  · obtain ⟨config, -, hnf⟩ := haws h
    rw [hnf]
    simp [GoMap.contains_insert, hbase]
  · rw [hnot h]
    exact hbase

theorem copyExistingFiles_all_new (g : GeneratorConfig) (os : OutputSystem)
    (migration : Migration) (visit : List (String × SourceFile)) (log : List FileOp)
    (h : ∀ e ∈ visit, GoMap.contains migration.NewFiles e.1 = true) :
    copyExistingFiles g os migration visit log = (.ok (), log) := by
  induction visit with
  | nil => rfl
  | cons e rest ih =>
    obtain ⟨filePath, sourceFile⟩ := e
    have hc : GoMap.contains migration.NewFiles filePath = true :=
      h (filePath, sourceFile) (List.mem_cons_self _ _)
    simp only [copyExistingFiles, hc, if_true]
    exact ih (fun e he => h e (List.mem_cons_of_mem _ he))

theorem pipeline_copies_nothing (a : AnalyzerConfig) (fs : FileSystem) (projectPath : String)
    (project : Project) (out : List String)
    (h : AnalyzeProject a fs projectPath = (.ok project, out))
    (t : Config) (depsVisit : List (String × String))
    (filesVisit : List (String × SourceFile)) (hrun : IsRun project depsVisit filesVisit)
    (migration : Migration)
    (hm : TransformProject t project depsVisit filesVisit = .ok migration)
    (g : GeneratorConfig) (os : OutputSystem) (copyVisit : List (String × SourceFile))
    (hcopy : RangeOrder migration.Project.Files copyVisit) (log : List FileOp) :
    copyExistingFiles g os migration copyVisit log = (.ok (), log) := by
  obtain ⟨hwf, hflag⟩ := AnalyzeProject_files_wf a fs projectPath project out h
  obtain ⟨m, hm', hproj, hcontains⟩ :=
    TransformProject_contains_flagged t project depsVisit filesVisit (hrun.2.wf hwf)
  have heq : m = migration := by
    rw [hm] at hm'
    cases hm'
    rfl
  subst heq
  apply copyExistingFiles_all_new
  intro e he
  have he' : e ∈ project.Files := by
    rw [hproj] at hcopy
    exact (hcopy.mem_iff e).mp he
  exact hcontains e.1 e.2 ((hrun.2.mem_iff _).mpr he') (hflag e he')

/-- C21 (the code at a failing input): the pipeline on a project with the
relevant file main.go and the candidate file plain.go, which imports nothing
of the framework: `AnalyzeProject` stores main.go alone, `TransformProject`
rewrites it, and `GenerateProject` succeeds without one copy; no effect of the
run names plain.go, which is neither rewritten nor copied. -/
theorem pipeline_does_not_copy_irrelevant_file :
    ∃ project out migration log,
      AnalyzeProject ⟨"gcp", "aws", false⟩
        (testFileSystem [("/tmp/t", none), ("/tmp/t/go.mod", none), ("/tmp/t/main.go", none),
          ("/tmp/t/plain.go", none)] (.ok testGoMod)) "/tmp/t" = (.ok project, out) ∧
      TransformProject testConfig project project.Dependencies project.Files = .ok migration ∧
      GenerateProject ⟨"aws", "/out"⟩ testOutputSystem migration migration.NewFiles
        migration.Project.Files readmeModelMappings = (.ok (), log) ∧
      (!strHasSuffix "/tmp/t/plain.go" ".go" || strContains "/tmp/t/plain.go" "vendor/" ||
        strContains "/tmp/t/plain.go" ".git/") = false ∧
      GoMap.keys project.Files = ["main.go"] ∧
      GoMap.contains migration.NewFiles "plain.go" = false ∧
      log.filter FileOp.isCopy = [] ∧
      log.all (fun op => match op with
        | .mkdirAll path => !strContains path "plain.go"
        | .writeFile path _ => !strContains path "plain.go"
        | .copy source target =>
            !strContains source "plain.go" && !strContains target "plain.go") = true := by
  refine ⟨_, _, _, _, rfl, rfl, rfl, ?_, ?_, ?_, ?_, ?_⟩ <;> decide

/-! ## Overlap of the classifier tests -/

theorem detectModelProvider_eq_classifyWith (modelName : String) :
    detectModelProvider modelName = classifyWith classifierTable modelName := by
  simp only [detectModelProvider, classifierTable, classifyWith, List.any_cons,
    List.any_nil, Bool.or_false, Bool.or_assoc]

theorem classifyWith_eq_head (table : List (List String × String)) (name : String) :
    classifyWith table name =
      match (table.filter (fun row => row.1.any (fun mk => strContains name mk))).head? with
      | some row => row.2
      | none => "unknown" := by
  induction table with
  | nil => rfl
  | cons row rest ih =>
    obtain ⟨markers, tag⟩ := row
    by_cases h : markers.any (fun mk => strContains name mk) = true
    · simp [classifyWith, List.filter_cons, h]
    · simp [classifyWith, List.filter_cons, h, ih]

theorem classifyWith_perm (name : String) (table₁ table₂ : List (List String × String))
    (hperm : table₁.Perm table₂)
    (hlen : (table₂.filter (fun row => row.1.any (fun mk => strContains name mk))).length ≤ 1) :
    classifyWith table₁ name = classifyWith table₂ name := by
  rw [classifyWith_eq_head, classifyWith_eq_head]
  have hf := hperm.filter (fun row => row.1.any (fun mk => strContains name mk))
  cases h₂ : table₂.filter (fun row => row.1.any (fun mk => strContains name mk)) with
  | nil =>
    rw [h₂] at hf
    rw [List.perm_nil.mp hf]
  | cons x xs =>
    cases xs with
    | nil =>
      rw [h₂] at hf
      rw [List.perm_singleton.mp hf]
    | cons y ys =>
      rw [h₂] at hlen
      simp at hlen

/-- C22 as stated fails: the name "anthropic.claude-3-sonnet-20240229-v1:0"
contains "claude-" of the group of the tag anthropic and "anthropic." of the
group of the tag aws; `detectModelProvider` gives "anthropic" for it and the
same five cases with the aws case tested first give "aws". -/
theorem detectModelProvider_tests_overlap :
    ¬ (∀ name : String, (matchedGroups name).length ≤ 1) ∧
    ¬ (∀ (name : String) (table : List (List String × String)),
        table.Perm classifierTable → classifyWith table name = detectModelProvider name) := by
  constructor
  · intro h
    have h₁ := h "anthropic.claude-3-sonnet-20240229-v1:0"
    revert h₁
    decide
  · intro h
    have h₁ := h "anthropic.claude-3-sonnet-20240229-v1:0"
      [ (["bedrock/", "amazon.", "anthropic."], "aws"),
        (["googleai/", "vertexai/"], "gcp"),
        (["openai/", "gpt-"], "openai"),
        (["anthropic/", "claude-"], "anthropic"),
        (["ollama/"], "ollama") ] (by decide)
    revert h₁
    decide

/-- C22 as amended: `detectModelProvider` returns the tag of the first of the
five groups, in the order gcp, openai, anthropic, ollama, aws, of which the
name contains a substring ("unknown" when there is none); for every name that
contains substrings of at most one group the result is the same for every
order in which the five cases are tested. -/
theorem detectModelProvider_order (name : String) :
    (detectModelProvider name =
      match (matchedGroups name).head? with
      | some row => row.2
      | none => "unknown") ∧
    ((matchedGroups name).length ≤ 1 →
      ∀ table : List (List String × String), table.Perm classifierTable →
        classifyWith table name = detectModelProvider name) := by
  constructor
  · rw [detectModelProvider_eq_classifyWith, classifyWith_eq_head]
    rfl
  · intro hlen table hperm
    rw [detectModelProvider_eq_classifyWith]
    exact classifyWith_perm name table classifierTable hperm hlen

/-- Witness of C22 as amended: the model of the analyzer test, with the five
cases tested in reverse order. -/
theorem detectModelProvider_order_witness :
    classifyWith
      [ (["bedrock/", "amazon.", "anthropic."], "aws"),
        (["ollama/"], "ollama"),
        (["anthropic/", "claude-"], "anthropic"),
        (["openai/", "gpt-"], "openai"),
        (["googleai/", "vertexai/"], "gcp") ] "googleai/gemini-1.5-pro"
      = detectModelProvider "googleai/gemini-1.5-pro" :=
  (detectModelProvider_order "googleai/gemini-1.5-pro").2 (by decide) _ (by decide)

/-! ## The content generated for a source file -/

/-- C23: the content `transformGoFile` generates is "package" and the package
name, the import block of "context" and "github.com/firebase/genkit/go/genkit"
with, exactly when the target is "aws", the three packages genkit-aws, bedrock
and monitoring of github.com/scttfrdmn/genkit-aws, and the placeholder
comment; it depends on the package name and the target provider alone, so two
source files with one package name get the same content whatever their
imports, Flows and Models are. -/
theorem transformGoFile_content (t : Config) (sourceFile : SourceFile) :
    (∃ changes, transformGoFile t sourceFile = .ok
      ("package " ++ sourceFile.PackageName ++
        ("\n" ++ "\n" ++ "import (\n" ++ "\t\"context\"\n" ++
          "\t\"github.com/firebase/genkit/go/genkit\"\n") ++
        (if t.TargetProvider = "aws" then
          "\tgenkitaws \"github.com/scttfrdmn/genkit-aws/pkg/genkit-aws\"\n" ++
            "\t\"github.com/scttfrdmn/genkit-aws/pkg/bedrock\"\n" ++
            "\t\"github.com/scttfrdmn/genkit-aws/pkg/monitoring\"\n"
         else "") ++
        (")\n" ++ "\n" ++ "// TODO: Implement actual AST transformation\n" ++
          "// This is a simplified example showing the structure\n"), changes)) ∧
    (∀ (t' : Config) (sourceFile' : SourceFile),
      t'.TargetProvider = t.TargetProvider →
      sourceFile'.PackageName = sourceFile.PackageName →
      ∃ content changes changes',
        transformGoFile t sourceFile = .ok (content, changes) ∧
        transformGoFile t' sourceFile' = .ok (content, changes')) := by
  constructor
  · refine ⟨[{ Type_ := "import", Description := "Added " ++ t.TargetProvider ++ " imports",
                File := sourceFile.Path, OldValue := "", NewValue := "" }], ?_⟩
    by_cases h : t.TargetProvider = "aws"
    · simp only [transformGoFile, h, if_true, List.nil_append]
    · simp only [transformGoFile, h, if_false, String.append_empty, List.nil_append]
  · intro t' sourceFile' ht hp
    refine ⟨_, _,
      [{ Type_ := "import", Description := "Added " ++ t'.TargetProvider ++ " imports",
         File := sourceFile'.Path, OldValue := "", NewValue := "" }], rfl, ?_⟩
    simp only [transformGoFile, ht, hp, List.nil_append]

/-- Witness of C23: two files of package main that differ in path, imports,
flows and models get the same content. -/
theorem transformGoFile_content_witness :
    ∃ content changes changes',
      transformGoFile testConfig
        ⟨"/p/a.go", "main", ["x"], testProject.Flows, testProject.Models, true⟩
        = .ok (content, changes) ∧
      transformGoFile ⟨"azure", "aws", "/elsewhere", true⟩
        ⟨"/p/b.go", "main", [], [], [], true⟩ = .ok (content, changes') :=
  (transformGoFile_content testConfig
    ⟨"/p/a.go", "main", ["x"], testProject.Flows, testProject.Models, true⟩).2
    ⟨"azure", "aws", "/elsewhere", true⟩ ⟨"/p/b.go", "main", [], [], [], true⟩ rfl rfl

/-! ## The mappings the summary lists and the entries of the manifest -/

/-- C24 (the code at a failing input): for the migration `TransformProject`
returns on the project of the transformer test, whose Changes hold one "model"
change (gemini-1.5-pro to claude-3-sonnet), the summary of `generateReadme`
for the target aws lists under "Model Mappings Applied" also the mappings of
"googleai/gemini-1.5-flash" and of "vertexai/gemini-pro", for which the
Changes hold no "model" change.  Each listed pair is a pair of the mapping
table of the transformer for (gcp, aws). -/
theorem generateReadme_lists_unapplied_mappings :
    ∃ m, TransformProject testConfig testProject testProject.Dependencies testProject.Files
        = .ok m ∧
      strContains (generateReadme ⟨"aws", "/out"⟩ m readmeModelMappings)
        ("## Model Mappings Applied\n" ++ "\n" ++
          "The following model mappings were applied during migration:\n" ++ "\n" ++
          readmeMappingLine "googleai/gemini-1.5-flash" "anthropic.claude-3-haiku-20240307-v1:0"
          ++ readmeMappingLine "googleai/gemini-1.5-pro"
            "anthropic.claude-3-sonnet-20240229-v1:0"
          ++ readmeMappingLine "vertexai/gemini-pro" "anthropic.claude-3-sonnet-20240229-v1:0")
        = true ∧
      (m.Changes.filter (fun c => c.Type_ = "model")).map (fun c => c.Description) =
        ["Map model googleai/gemini-1.5-pro -> anthropic.claude-3-sonnet-20240229-v1:0"] ∧
      (∀ e ∈ readmeModelMappings,
        GoMap.lookup (getModelMappings testConfig) e.1 = some e.2) := by
  refine ⟨_, rfl, ?_, ?_, ?_⟩ <;> decide

/-- C25 (the code at failing inputs): for the go.mod of the analyzer test,
which opens its block with the line "require (", the parser of
`analyzeDependencies` records the empty name with the version "(", and so
does `AnalyzeProject` in `Project.Dependencies`; for a manifest with the
single-line directive "require github.com/firebase/genkit/go v0.5.8" it
records the empty name with the module path as version. -/
theorem parseManifest_records_empty_name :
    parseManifest testGoMod =
      [("", "("), ("github.com/firebase/genkit/go", "v0.5.8"),
       ("github.com/firebase/genkit/go/plugins/googleai", "v0.5.8")] ∧
    parseManifest
        "module test-genkit-app\n\ngo 1.23\n\nrequire github.com/firebase/genkit/go v0.5.8\n"
      = [("", "github.com/firebase/genkit/go")] ∧
    (∃ project out,
      AnalyzeProject ⟨"gcp", "aws", false⟩
        (testFileSystem [("/tmp/t", none), ("/tmp/t/go.mod", none), ("/tmp/t/main.go", none)]
          (.ok testGoMod)) "/tmp/t" = (.ok project, out) ∧
      GoMap.lookup project.Dependencies "" = some "(") := by
  refine ⟨by decide, by decide, _, _, rfl, by decide⟩

end GenkitMigrate
